import Mathlib

/-!
# Verification of the google-email-transfer batch-transfer engine

Shallow embedding of the repository's code:

* `utils/rateLimiter.ts` (token-bucket `RateLimiter`, `exponentialBackoff`);
* `email_archiver.ts`, which contains two variants of the archiver:
  - variant 1: `getLabels` (filtering `CATEGORY_`/`TRASH`/`SPAM`),
    `checkIfEmailExists` (subject/date dedup query), `createOrGetLabel`,
    `transferEmailsForLabel`, and a `transferEmails` driving per-label loops;
  - variant 2: `getAllUniqueEmails` (one `messages.list` with `maxResults 500`),
    `resolveLabelName`, and a `transferEmails` with an in-memory `labelMap`.

Numbers that JavaScript holds as floats (token counts, timestamps) are
embedded as `ℚ`; epoch-millisecond dates as `ℕ`.  Remote calls are recorded
in an explicit event trace; the remote API is modelled as oracles supplied as
parameters (list responses, raw bodies, label names, import outcomes).
-/

set_option maxHeartbeats 1000000

namespace GoogleEmailTransfer

/-! ## Token-bucket rate limiter (`utils/rateLimiter.ts`) -/

/-- Mutable state of the `RateLimiter` class: the configured sustained rate
`tokensPerSecond` (which also serves as the bucket capacity, since refills
are capped by `Math.min(this.tokensPerSecond, ...)`), the fractional token
count, and the timestamp of the last refill (epoch milliseconds). -/
structure LimiterState where
  tokensPerSecond : ℚ
  tokens : ℚ
  lastRefill : ℚ
  deriving Repr, DecidableEq

/-- The constructor `new RateLimiter(tokensPerSecond)`: the bucket starts
full (`tokens = tokensPerSecond`) with `lastRefill = Date.now()` (the
current time is a parameter of the embedding). -/
def RateLimiter.init (tokensPerSecond now : ℚ) : LimiterState :=
  ⟨tokensPerSecond, tokensPerSecond, now⟩

/-- The module-level singleton `rateLimiter = new RateLimiter(2)`. -/
def rateLimiter (now : ℚ) : LimiterState := RateLimiter.init 2 now

/-- The refill step at the top of `waitForToken`: add
`ellapsedMs * (tokensPerSecond / 1000)` tokens, capped at the capacity, and
move `lastRefill` to `now`. -/
def refill (s : LimiterState) (now : ℚ) : LimiterState :=
  { s with
    tokens := min s.tokensPerSecond (s.tokens + (now - s.lastRefill) * (s.tokensPerSecond / 1000))
    lastRefill := now }

/-- The debit `this.tokens -= 1` performed when at least one token is
available after the refill. -/
def debit (s : LimiterState) : LimiterState := { s with tokens := s.tokens - 1 }

/-- Repeatedly run `waitForToken` against a schedule of `Date.now()`
readings (one reading per iteration of the `waitForToken` body; the sleep
between readings is abstracted into the gap between consecutive times).
Returns the list of all states observed after each refill and each debit,
the final state, and the number of completed acquisitions. -/
def acquireRun : LimiterState → List ℚ → List LimiterState × LimiterState × ℕ
  | s, [] => ([], s, 0)
  | s, now :: rest =>
    let s1 := refill s now
    if s1.tokens < 1 then
      let r := acquireRun s1 rest
      (s1 :: r.1, r.2)
    else
      let s2 := debit s1
      let r := acquireRun s2 rest
      (s1 :: s2 :: r.1, r.2.1, r.2.2 + 1)

/-- The token-bucket invariant claimed by the spec. -/
def LimiterInv (s : LimiterState) : Prop :=
  0 ≤ s.tokens ∧ s.tokens ≤ s.tokensPerSecond

instance (s : LimiterState) : Decidable (LimiterInv s) := by
  unfold LimiterInv; infer_instance

/-! ## Backoff policy (`exponentialBackoff` in `utils/rateLimiter.ts`) -/

/-- `exponentialBackoff(retries)` sleeps for
`Math.pow(2, retries) * 1000 + Math.random() * 1000` milliseconds.  The
`Math.random()` draw (a value in `[0, 1)`) is a parameter `rand` of the
embedding; the function returns the delay in milliseconds. -/
def exponentialBackoff (retries : ℕ) (rand : ℚ) : ℚ :=
  2 ^ retries * 1000 + rand * 1000

/-! ## Remote-call events

Every remote API round trip issued by the archiver is recorded as one
event.  `waitForTokenCall` / `backoffCall` mark invocations of the pacing
helpers from `utils/rateLimiter.ts`; `sleepDelay` marks the bare
`delay(ms)` helper of `email_archiver.ts`. -/

inductive ApiEvent where
  | listCall (pageToken : Option String) (maxResults : ℕ)
  | listByLabel (labelId : String)
  | getMetadata (id : String)
  | getMessageRaw (id : String)
  | labelsGet (labelId : String)
  | lookupLabel (name : String)
  | createLabelCall (name : String)
  | importCall (raw : String)
  | modifyCall (id : String) (addLabelIds : List String)
  | existsQuery (subject : String) (internalDate : ℕ)
  | labelsList
  | waitForTokenCall
  | backoffCall (retries : ℕ)
  | sleepDelay (ms : ℕ)
  deriving Repr, DecidableEq

/-- The mutating remote calls: label creation, message import, and label
modification.  Everything else is a read or a local wait. -/
def ApiEvent.isMutating : ApiEvent → Bool
  | .createLabelCall _ => true
  | .importCall _ => true
  | .modifyCall _ _ => true
  | _ => false

/-- A label record `{id, name}` as returned by `labels.list`. -/
structure EmailLabel where
  id : String
  name : String
  deriving Repr, DecidableEq

/-- `getLabelByName`: list the destination labels and find one with the
exact requested name. -/
def getLabelByName (labels : List EmailLabel) (name : String) : Option EmailLabel :=
  labels.find? (fun l => l.name == name)

/-- `createOrGetLabel`: one lookup round trip (`labels.list` + find); when
the label is absent, one `labels.create` round trip.  The id issued by the
remote on creation is abstracted as `"created-" ++ name`; the destination
label list is threaded as state. -/
def createOrGetLabel (labels : List EmailLabel) (name : String) :
    String × List EmailLabel × List ApiEvent :=
  match getLabelByName labels name with
  | some l => (l.id, labels, [ApiEvent.lookupLabel name])
  | none =>
    ("created-" ++ name, labels ++ [⟨"created-" ++ name, name⟩],
     [ApiEvent.lookupLabel name, ApiEvent.createLabelCall name])

/-- `answer.toLowerCase()`, modelled on the string's character list. -/
def toLowerModel (s : String) : String :=
  String.mk (s.data.map Char.toLower)

/-- `promptForConfirmation`: only a lowercased `y`/`yes` answer proceeds. -/
def promptForConfirmation (answer : String) : Bool :=
  toLowerModel answer == "y" || toLowerModel answer == "yes"

/-- The transfer summary `{labelsCreated, totalEmailsTransferred}`. -/
structure TransferSummary where
  labelsCreated : List String
  totalEmailsTransferred : ℕ
  deriving Repr, DecidableEq

/-- Result of a whole run: the decline path calls `process.exit(0)`
(`exited`), an uncaught rejection aborts the run (`failed`), and otherwise
the summary is returned (`ok`). -/
inductive RunOutcome where
  | exited (code : ℕ)
  | failed (err : String)
  | ok (summary : TransferSummary)
  deriving Repr, DecidableEq

/-! ## Variant 2: `getAllUniqueEmails` + labelMap `transferEmails` -/

/-- Response of `messages.list`: possibly-absent message list and
continuation token. -/
structure MessagesListResponse where
  messages : Option (List String)
  nextPageToken : Option String

/-- Oracle for the source account's read-only endpoints, as consumed by
variant 2: `listResp pageToken maxResults` models `messages.list`,
`rawOf` the raw `messages.get`, `labelIdsOf` a message's label ids, and
`labelNameOf` the `labels.get` name lookup (`none` = the call fails). -/
structure SourceApi where
  listResp : Option String → ℕ → MessagesListResponse
  rawOf : String → String
  labelIdsOf : String → List String
  labelNameOf : String → Option String

/-- `resolveLabelName`: `labels.get`, falling back to the raw id when the
lookup fails. -/
def resolveLabelName (api : SourceApi) (labelId : String) : String × ApiEvent :=
  ((api.labelNameOf labelId).getD labelId, ApiEvent.labelsGet labelId)

/-- The email record assembled by `getAllUniqueEmails`. -/
structure EmailWithLabels where
  id : String
  raw : String
  labels : List String
  deriving Repr, DecidableEq

/-- The per-message body of `getAllUniqueEmails`: fetch the raw message and
resolve each of its label ids to a name. -/
def fetchEmails (api : SourceApi) : List String → List EmailWithLabels × List ApiEvent
  | [] => ([], [])
  | id :: ids =>
    let names := (api.labelIdsOf id).map (fun lid => (resolveLabelName api lid).1)
    let evs := ApiEvent.getMessageRaw id :: (api.labelIdsOf id).map ApiEvent.labelsGet
    let r := fetchEmails api ids
    (⟨id, api.rawOf id, names⟩ :: r.1, evs ++ r.2)

/-- `getAllUniqueEmails`: a single `messages.list` call with
`maxResults: 500` and no page token, then one fetch per listed message.
The `nextPageToken` of the response is never read. -/
def getAllUniqueEmails (api : SourceApi) : List EmailWithLabels × List ApiEvent :=
  let resp := api.listResp none 500
  let r := fetchEmails api (resp.messages.getD [])
  (r.1, ApiEvent.listCall none 500 :: r.2)

/-- The label filter of variant 2's `transferEmails` loop:
`!label.startsWith('CATEGORY_') && !['UNREAD','STARRED','IMPORTANT'].includes(label)`. -/
def keepLabel (name : String) : Bool :=
  !(name.startsWith "CATEGORY_") && !(["UNREAD", "STARRED", "IMPORTANT"].contains name)

/-- The mutable state of variant 2's `transferEmails`: the memoizing
`labelMap` (insertion-ordered, as a JS `Map`), the destination account's
label list, and the summary fields. -/
structure V2State where
  labelMap : List (String × String)
  destLabels : List EmailLabel
  labelsCreated : List String
  transferred : ℕ
  deriving Repr, DecidableEq

/-- `labelMap.get` (with `has` = `isSome`). -/
def mapLookup (m : List (String × String)) (k : String) : Option String :=
  (m.find? (fun p => p.1 == k)).map (fun p => p.2)

/-- The live-mode inner loop over `email.labels`: for each kept label, on a
`labelMap` miss issue `createOrGetLabel` for the namespaced name, record the
mapping and the created-label name, and in all cases push the mapped id. -/
def collectLabelIds (sourceEmail : String) :
    V2State → List String → V2State × List String × List ApiEvent
  | st, [] => (st, [], [])
  | st, l :: ls =>
    if keepLabel l then
      match mapLookup st.labelMap l with
      | some id =>
        let r := collectLabelIds sourceEmail st ls
        (r.1, id :: r.2.1, r.2.2)
      | none =>
        let c := createOrGetLabel st.destLabels (sourceEmail ++ "/" ++ l)
        let st' : V2State :=
          { st with
            labelMap := st.labelMap ++ [(l, c.1)]
            destLabels := c.2.1
            labelsCreated := st.labelsCreated ++ [sourceEmail ++ "/" ++ l] }
        let r := collectLabelIds sourceEmail st' ls
        (r.1, c.1 :: r.2.1, c.2.2 ++ r.2.2)
    else
      collectLabelIds sourceEmail st ls

/-- The dry-run inner loop over `email.labels`: simulate label creation by
recording a `dry-run-label-` placeholder, issuing no remote call. -/
def dryCollectLabels (sourceEmail : String) : V2State → List String → V2State
  | st, [] => st
  | st, l :: ls =>
    if keepLabel l && (mapLookup st.labelMap l).isNone then
      dryCollectLabels sourceEmail
        { st with
          labelMap := st.labelMap ++ [(l, "dry-run-label-" ++ l)]
          labelsCreated := st.labelsCreated ++ [sourceEmail ++ "/" ++ l] } ls
    else dryCollectLabels sourceEmail st ls

/-- One iteration of variant 2's `for (const email of allEmails)` loop.
Live mode: import the raw message (`importResult` models the remote's
response; an `error` is an uncaught promise rejection), collect the label
ids, apply them in one `modify` call, count, and sleep 100 ms.  Dry mode:
simulate label creation, count, and sleep. -/
def processOneEmail (sourceEmail mainLabelId : String) (isDryRun : Bool)
    (importResult : String → Except String String)
    (st : V2State) (email : EmailWithLabels) : V2State × List ApiEvent × Option String :=
  if isDryRun then
    let st' := dryCollectLabels sourceEmail st email.labels
    ({ st' with transferred := st'.transferred + 1 }, [ApiEvent.sleepDelay 100], none)
  else
    match importResult email.raw with
    | Except.error e => (st, [ApiEvent.importCall email.raw], some e)
    | Except.ok importedId =>
      let r := collectLabelIds sourceEmail st email.labels
      ({ r.1 with transferred := r.1.transferred + 1 },
       ApiEvent.importCall email.raw :: r.2.2
         ++ [ApiEvent.modifyCall importedId (mainLabelId :: r.2.1), ApiEvent.sleepDelay 100],
       none)

/-- Variant 2's per-message loop.  There is no `try`/`catch` around the
body, so the first per-item error rejects the whole loop: processing stops
and the error propagates (`some err`). -/
def runLoopV2 (sourceEmail mainLabelId : String) (isDryRun : Bool)
    (importResult : String → Except String String) :
    V2State → List EmailWithLabels → V2State × List ApiEvent × Option String
  | st, [] => (st, [], none)
  | st, e :: es =>
    let r := processOneEmail sourceEmail mainLabelId isDryRun importResult st e
    match r.2.2 with
    | some err => (r.1, r.2.1, some err)
    | none =>
      let r' := runLoopV2 sourceEmail mainLabelId isDryRun importResult r.1 es
      (r'.1, r.2.1 ++ r'.2.1, r'.2.2)

/-- Variant 2's `transferEmails`: fetch all emails, prompt (the per-label
count report issues no remote call), `process.exit(0)` on decline, resolve
the main label (a placeholder id under dry run), run the per-message loop,
and return the summary. -/
def transferEmailsV2 (api : SourceApi) (importResult : String → Except String String)
    (destLabels0 : List EmailLabel) (sourceEmail : String) (isDryRun : Bool)
    (answer : String) : RunOutcome × V2State × List ApiEvent :=
  let fetched := getAllUniqueEmails api
  if !(promptForConfirmation answer) then
    (RunOutcome.exited 0, ⟨[], destLabels0, [], 0⟩, fetched.2)
  else
    let m := if isDryRun then ("dry-run-main-label", destLabels0, ([] : List ApiEvent))
             else createOrGetLabel destLabels0 sourceEmail
    let st0 : V2State := ⟨[], m.2.1, [sourceEmail], 0⟩
    let r := runLoopV2 sourceEmail m.1 isDryRun importResult st0 fetched.1
    let trace := fetched.2 ++ m.2.2 ++ r.2.1
    match r.2.2 with
    | some err => (RunOutcome.failed err, r.1, trace)
    | none => (RunOutcome.ok ⟨r.1.labelsCreated, r.1.transferred⟩, r.1, trace)

/-! ## Variant 1: per-label `transferEmailsForLabel` with subject/date dedup -/

/-- A source message as seen by variant 1: `messages.get` metadata
(headers, `internalDate` in epoch milliseconds) plus the raw body. -/
structure SrcMsg where
  id : String
  headers : List (String × String)
  internalDate : ℕ
  raw : String
  deriving Repr, DecidableEq

/-- Subject extraction: `headers.find(h => h.name === 'Subject')?.value ||
'No Subject'`. -/
def subjectOf (m : SrcMsg) : String :=
  ((m.headers.find? (fun h => h.1 == "Subject")).map (fun h => h.2)).getD "No Subject"

/-- Destination-account message index entry: the Subject header and the
internal date (epoch ms).  `messages.import` with
`internalDateSource: 'dateHeader'` is modelled as registering the imported
message under its own subject and date. -/
structure DestMsg where
  subject : String
  internalDate : ℕ
  deriving Repr, DecidableEq

/-- The destination account's state threaded through variant 1: its
searchable message index and its label list. -/
structure DestState where
  msgs : List DestMsg
  labels : List EmailLabel
  deriving Repr, DecidableEq

/-- `checkIfEmailExists`: the code issues the query
`subject:"S" after:⌊d/1000 - 1⌋ before:⌊d/1000 + 1⌋` against the
destination.  The remote search is modelled as: a message matches when its
subject is exactly `S` and its date (in whole seconds) lies inside the
`[⌊d/1000⌋ - 1, ⌊d/1000⌋ + 1]` window, i.e. within ±1 second. -/
def checkIfEmailExists (msgs : List DestMsg) (subject : String) (internalDate : ℕ) : Bool :=
  msgs.any (fun m =>
    m.subject == subject &&
    decide (internalDate / 1000 - 1 ≤ m.internalDate / 1000) &&
    decide (m.internalDate / 1000 ≤ internalDate / 1000 + 1))

/-- One iteration of `transferEmailsForLabel`'s message loop: metadata
fetch, dedup existence query, skip (`continue`) when a duplicate exists;
otherwise, in live mode, raw fetch + import + one `modify` applying
`[mainLabelId, sublabelId]`; then count and sleep 100 ms.  Returns the
destination state, the count delta (0 or 1), and the events. -/
def processMsgV1 (mainLabelId sublabelId : String) (isDryRun : Bool)
    (dest : DestState) (m : SrcMsg) : DestState × ℕ × List ApiEvent :=
  let subject := subjectOf m
  let ev0 := [ApiEvent.getMetadata m.id, ApiEvent.existsQuery subject m.internalDate]
  if checkIfEmailExists dest.msgs subject m.internalDate then (dest, 0, ev0)
  else if isDryRun then (dest, 1, ev0 ++ [ApiEvent.sleepDelay 100])
  else
    ({ dest with msgs := dest.msgs ++ [⟨subject, m.internalDate⟩] }, 1,
     ev0 ++ [ApiEvent.getMessageRaw m.id, ApiEvent.importCall m.raw,
             ApiEvent.modifyCall ("imported-" ++ m.id) [mainLabelId, sublabelId],
             ApiEvent.sleepDelay 100])

/-- The message loop of `transferEmailsForLabel`. -/
def msgLoopV1 (mainLabelId sublabelId : String) (isDryRun : Bool) :
    DestState → List SrcMsg → DestState × ℕ × List ApiEvent
  | dest, [] => (dest, 0, [])
  | dest, m :: ms =>
    let r := processMsgV1 mainLabelId sublabelId isDryRun dest m
    let r' := msgLoopV1 mainLabelId sublabelId isDryRun r.1 ms
    (r'.1, r.2.1 + r'.2.1, r.2.2 ++ r'.2.2)

/-- Oracle for the source account as consumed by variant 1:
`labelsResp` is the `labels.list` response and `msgsOf labelId` the
messages carrying a label (the `messages.list` + per-message `get`s are
collapsed into one oracle, with one list event recorded per call site). -/
structure SourceApiV1 where
  labelsResp : List EmailLabel
  msgsOf : String → List SrcMsg

/-- Variant 1's `getLabels`: filter out `CATEGORY_`-prefixed names and
`TRASH`/`SPAM` (only those) from the source label list. -/
def getLabelsV1 (api : SourceApiV1) : List EmailLabel × List ApiEvent :=
  (api.labelsResp.filter (fun l =>
      !(l.name.startsWith "CATEGORY_") && !(["TRASH", "SPAM"].contains l.name)),
   [ApiEvent.labelsList])

/-- `countEmailsForLabel`: one `messages.list` for the label, returning the
length of the response. -/
def countEmailsForLabel (api : SourceApiV1) (labelId : String) : ℕ × List ApiEvent :=
  ((api.msgsOf labelId).length, [ApiEvent.listByLabel labelId])

/-- `transferEmailsForLabel`: one unpaginated `messages.list` for the
label; when it returns no message, skip sublabel creation entirely;
otherwise resolve the sublabel (placeholder id under dry run) and run the
message loop.  Returns the transferred count, the destination state, and
the events. -/
def transferEmailsForLabel (api : SourceApiV1) (sourceEmail : String) (label : EmailLabel)
    (mainLabelId : String) (isDryRun : Bool) (dest : DestState) :
    ℕ × DestState × List ApiEvent :=
  let msgs := api.msgsOf label.id
  if msgs.isEmpty then (0, dest, [ApiEvent.listByLabel label.id])
  else
    let s := if isDryRun then ("dry-run-sublabel-" ++ label.id, dest.labels, ([] : List ApiEvent))
             else createOrGetLabel dest.labels (sourceEmail ++ "/" ++ label.name)
    let dest1 : DestState := { dest with labels := s.2.1 }
    let r := msgLoopV1 mainLabelId s.1 isDryRun dest1 msgs
    (r.2.1, r.1, ApiEvent.listByLabel label.id :: (s.2.2 ++ r.2.2))

/-- The special labels handled first by variant 1's `transferEmails`. -/
def specialLabels : List String := ["INBOX", "SENT", "DRAFT"]

/-- The counting phase before the confirmation prompt: one
`countEmailsForLabel` per special label, then one per non-special source
label. -/
def countPhaseV1 (sourceLabels : List EmailLabel) : List ApiEvent :=
  specialLabels.map ApiEvent.listByLabel
    ++ (sourceLabels.filter (fun l => !(specialLabels.contains l.name))).map
         (fun l => ApiEvent.listByLabel l.id)

/-- The loop transferring `INBOX`, `SENT`, `DRAFT` (label id = name),
summing the counts. -/
def specialsLoopV1 (api : SourceApiV1) (sourceEmail mainLabelId : String) (isDryRun : Bool) :
    DestState → List String → DestState × ℕ × List ApiEvent
  | dest, [] => (dest, 0, [])
  | dest, sp :: sps =>
    let r := transferEmailsForLabel api sourceEmail ⟨sp, sp⟩ mainLabelId isDryRun dest
    let rest := specialsLoopV1 api sourceEmail mainLabelId isDryRun r.2.1 sps
    (rest.1, r.1 + rest.2.1, r.2.2 ++ rest.2.2)

/-- The loop over the remaining labels: a label's namespaced name is
recorded in `labelsCreated` (and its count added) only when at least one
message was transferred for it.  Returns destination, created names, total,
events. -/
def otherLabelsLoopV1 (api : SourceApiV1) (sourceEmail mainLabelId : String) (isDryRun : Bool) :
    DestState → List EmailLabel → DestState × List String × ℕ × List ApiEvent
  | dest, [] => (dest, [], 0, [])
  | dest, l :: ls =>
    let r := transferEmailsForLabel api sourceEmail l mainLabelId isDryRun dest
    let rest := otherLabelsLoopV1 api sourceEmail mainLabelId isDryRun r.2.1 ls
    (rest.1,
     (if 0 < r.1 then [sourceEmail ++ "/" ++ l.name] else []) ++ rest.2.1,
     (if 0 < r.1 then r.1 else 0) + rest.2.2.1,
     r.2.2 ++ rest.2.2.2)

/-- Variant 1's `transferEmails`: list + filter the source labels, count
messages per label, prompt, `process.exit(0)` on decline; otherwise resolve
the main label (placeholder under dry run), transfer the special labels,
then the remaining labels, and return the summary. -/
def transferEmailsV1 (api : SourceApiV1) (dest0 : DestState) (sourceEmail : String)
    (isDryRun : Bool) (answer : String) : RunOutcome × DestState × List ApiEvent :=
  let gl := getLabelsV1 api
  let sourceLabels := gl.1
  let preTrace := gl.2 ++ countPhaseV1 sourceLabels
  if !(promptForConfirmation answer) then
    (RunOutcome.exited 0, dest0, preTrace)
  else
    let m := if isDryRun then ("dry-run-main-label", dest0.labels, ([] : List ApiEvent))
             else createOrGetLabel dest0.labels sourceEmail
    let dest1 : DestState := { dest0 with labels := m.2.1 }
    let sp := specialsLoopV1 api sourceEmail m.1 isDryRun dest1 specialLabels
    let ot := otherLabelsLoopV1 api sourceEmail m.1 isDryRun sp.1
                (sourceLabels.filter (fun l => !(specialLabels.contains l.name)))
    (RunOutcome.ok ⟨sourceEmail :: ot.2.1, sp.2.1 + ot.2.2.1⟩, ot.1,
     preTrace ++ m.2.2 ++ sp.2.2 ++ ot.2.2.2)

/-! ### Trace projections -/

/-- The raw bodies passed to `messages.import`, in call order. -/
def importEvents (tr : List ApiEvent) : List String :=
  tr.filterMap (fun e => match e with | ApiEvent.importCall r => some r | _ => none)

/-- The `(pageToken, maxResults)` arguments of the `messages.list` calls of
variant 2, in call order. -/
def listEvents (tr : List ApiEvent) : List (Option String × ℕ) :=
  tr.filterMap (fun e => match e with | ApiEvent.listCall t n => some (t, n) | _ => none)

/-- How many create-or-lookup round trips were issued for a given label
name. -/
def lookupCount (tr : List ApiEvent) (name : String) : ℕ :=
  (tr.filter (fun e => e == ApiEvent.lookupLabel name)).length

/-- Number of occurrences of one event in a trace. -/
def countEvent (tr : List ApiEvent) (e : ApiEvent) : ℕ :=
  (tr.filter (fun x => x == e)).length

/-- Invocations of the pacing helpers of `utils/rateLimiter.ts`:
`rateLimiter.waitForToken` or `exponentialBackoff`. -/
def isPacing : ApiEvent → Bool
  | ApiEvent.waitForTokenCall => true
  | ApiEvent.backoffCall _ => true
  | _ => false

/-- The durations of the `delay(ms)` sleeps of a trace, in order. -/
def sleepEvents (tr : List ApiEvent) : List ℕ :=
  tr.filterMap (fun e => match e with | ApiEvent.sleepDelay ms => some ms | _ => none)

/-! ### Concrete runs used to settle the claims -/

/-- A two-message source mailbox for variant 2, one custom label. -/
def apiA : SourceApi :=
  { listResp := fun _ _ => ⟨some ["m1", "m2"], none⟩
    rawOf := fun id => "raw-" ++ id
    labelIdsOf := fun _ => ["L1"]
    labelNameOf := fun _ => some "Work" }

/-- An import oracle that always succeeds. -/
def importOk : String → Except String String :=
  fun r => Except.ok ("imp-" ++ r)

/-- An import oracle that fails with a rate-limit signature on the first
message's raw body and succeeds otherwise. -/
def importFailFirst : String → Except String String :=
  fun r => if r == "raw-m1" then Except.error "rateLimitExceeded" else Except.ok ("imp-" ++ r)

/-- A source mailbox whose `messages.list` requires three pages: each
response carries a `nextPageToken` until the third. -/
def api3 : SourceApi :=
  { listResp := fun t _ =>
      match t with
      | none => ⟨some ["m1"], some "page2"⟩
      | some "page2" => ⟨some ["m2"], some "page3"⟩
      | some _ => ⟨some ["m3"], none⟩
    rawOf := fun id => "raw-" ++ id
    labelIdsOf := fun _ => []
    labelNameOf := fun _ => none }

/-- A source message carrying (only) the `UNREAD` system label. -/
def mUnread : SrcMsg := ⟨"mu1", [("Subject", "Weekly report")], 1700000000000, "raw-mu1"⟩

/-- A variant-1 source whose label list is just `UNREAD`, with one message. -/
def apiC5 : SourceApiV1 :=
  { labelsResp := [⟨"UNREAD", "UNREAD"⟩]
    msgsOf := fun lid => if lid == "UNREAD" then [mUnread] else [] }

/-- Two source messages with the same Subject and the same internal date. -/
def dupMsg1 : SrcMsg := ⟨"d1", [("Subject", "Invoice")], 1700000000000, "raw-d1"⟩

def dupMsg2 : SrcMsg := ⟨"d2", [("Subject", "Invoice")], 1700000000000, "raw-d2"⟩

/-- A variant-1 source with the two duplicate messages in `INBOX`. -/
def apiC8 : SourceApiV1 :=
  { labelsResp := [⟨"INBOX", "INBOX"⟩]
    msgsOf := fun lid => if lid == "INBOX" then [dupMsg1, dupMsg2] else [] }

/-! ## Theorems: rate limiter and backoff policy -/

theorem refill_tokensPerSecond (s : LimiterState) (now : ℚ) :
    (refill s now).tokensPerSecond = s.tokensPerSecond := rfl

theorem refill_lastRefill (s : LimiterState) (now : ℚ) :
    (refill s now).lastRefill = now := rfl

theorem refill_le_cap (s : LimiterState) (now : ℚ) :
    (refill s now).tokens ≤ s.tokensPerSecond :=
  min_le_left _ _

theorem refill_nonneg (s : LimiterState) (now : ℚ) (hr : 0 ≤ s.tokensPerSecond)
    (ht : 0 ≤ s.tokens) (hl : s.lastRefill ≤ now) : 0 ≤ (refill s now).tokens := by
  have h1 : 0 ≤ (now - s.lastRefill) * (s.tokensPerSecond / 1000) := by
    apply mul_nonneg (by linarith) (by positivity)
  exact le_min hr (by linarith)

theorem refill_mono (s : LimiterState) (t₁ t₂ : ℚ) (hr : 0 ≤ s.tokensPerSecond)
    (h : t₁ ≤ t₂) : (refill s t₁).tokens ≤ (refill s t₂).tokens := by
  apply min_le_min le_rfl
  have : (t₁ - s.lastRefill) * (s.tokensPerSecond / 1000)
      ≤ (t₂ - s.lastRefill) * (s.tokensPerSecond / 1000) := by
    apply mul_le_mul_of_nonneg_right (by linarith) (by positivity)
  linarith

theorem acquireRun_inv (ts : List ℚ) :
    ∀ s : LimiterState, 0 ≤ s.tokensPerSecond → LimiterInv s →
      List.Chain (· ≤ ·) s.lastRefill ts →
      (∀ o ∈ (acquireRun s ts).1, LimiterInv o) ∧ LimiterInv (acquireRun s ts).2.1 := by
  induction ts with
  | nil => intro s _ hInv _; exact ⟨(by intro o ho; cases ho), hInv⟩
  | cons now rest ih =>
    intro s hr hInv hch
    rcases List.chain_cons.mp hch with ⟨hle, hch'⟩
    have hr1 : 0 ≤ (refill s now).tokensPerSecond := by
      rw [refill_tokensPerSecond]; exact hr
    have hInv1 : LimiterInv (refill s now) :=
      ⟨refill_nonneg s now hr hInv.1 hle, by
        rw [refill_tokensPerSecond]; exact refill_le_cap s now⟩
    have hch1 : List.Chain (· ≤ ·) (refill s now).lastRefill rest := by
      rw [refill_lastRefill]; exact hch'
    by_cases hlt : (refill s now).tokens < 1
    · have := ih (refill s now) hr1 hInv1 hch1
      simp only [acquireRun, hlt, if_true]
      refine ⟨?_, this.2⟩
      intro o ho
      rcases List.mem_cons.mp ho with h | h
      · exact h ▸ hInv1
      · exact this.1 o h
    · have hInv2 : LimiterInv (debit (refill s now)) := by
        refine ⟨?_, ?_⟩
        · have : (1 : ℚ) ≤ (refill s now).tokens := not_lt.mp hlt
          show 0 ≤ (refill s now).tokens - 1
          linarith
        · show (refill s now).tokens - 1 ≤ (refill s now).tokensPerSecond
          have := hInv1.2
          linarith
      have hch2 : List.Chain (· ≤ ·) (debit (refill s now)).lastRefill rest := hch1
      have := ih (debit (refill s now)) hr1 hInv2 hch2
      simp only [acquireRun, hlt, if_false]
      refine ⟨?_, this.2⟩
      intro o ho
      rcases List.mem_cons.mp ho with h | h
      · exact h ▸ hInv1
      · rcases List.mem_cons.mp h with h' | h'
        · exact h' ▸ hInv2
        · exact this.1 o h'

/-- C4: for every sequence of `waitForToken` acquisitions on a limiter
constructed with `capacity = rate = tokensPerSecond`, every observed state
satisfies `0 ≤ tokens ≤ capacity`; the refill is monotone in the elapsed
wall-clock time and capped at the capacity; and a debit removes exactly one
token from a state holding at least one. -/
theorem C4_limiter_invariants (tps t₀ : ℚ) (ts : List ℚ)
    (h0 : 0 ≤ tps) (hch : List.Chain (· ≤ ·) t₀ ts) :
    (∀ o ∈ (acquireRun (RateLimiter.init tps t₀) ts).1,
        0 ≤ o.tokens ∧ o.tokens ≤ o.tokensPerSecond) ∧
    (∀ s : LimiterState, ∀ t₁ t₂ : ℚ, 0 ≤ s.tokensPerSecond → t₁ ≤ t₂ →
        (refill s t₁).tokens ≤ (refill s t₂).tokens ∧
        (refill s t₂).tokens ≤ s.tokensPerSecond) ∧
    (∀ s : LimiterState, 1 ≤ s.tokens → (debit s).tokens = s.tokens - 1) := by
  refine ⟨?_, ?_, ?_⟩
  · have hInv : LimiterInv (RateLimiter.init tps t₀) := ⟨h0, le_rfl⟩
    have := acquireRun_inv ts (RateLimiter.init tps t₀) h0 hInv hch
    exact fun o ho => (this.1 o ho)
  · intro s t₁ t₂ hs h
    exact ⟨refill_mono s t₁ t₂ hs h, refill_le_cap s t₂⟩
  · intro s _; rfl

theorem C4_limiter_invariants_witness :
    ((0 : ℚ) ≤ 2 ∧ List.Chain (· ≤ ·) (0 : ℚ) [0, 200, 1500]) ∧
    (∀ o ∈ (acquireRun (RateLimiter.init 2 0) [0, 200, 1500]).1,
        0 ≤ o.tokens ∧ o.tokens ≤ o.tokensPerSecond) :=
  have h0 : (0 : ℚ) ≤ 2 := by norm_num
  have hch : List.Chain (· ≤ ·) (0 : ℚ) [0, 200, 1500] :=
    List.Chain.cons le_rfl (List.Chain.cons (by norm_num)
      (List.Chain.cons (by norm_num) List.Chain.nil))
  ⟨⟨h0, hch⟩, (C4_limiter_invariants 2 0 [0, 200, 1500] h0 hch).1⟩

/-- C9: for every positive attempt number, the backoff delay
`2^attempt * 1000 + random(0,1000)` lies within
`[2^attempt * 1000, 2^attempt * 1000 + 1000)`, and its deterministic
component is non-decreasing in the attempt number. -/
theorem C9_backoff_bounds (attempt : ℕ) (rand : ℚ)
    (_hpos : 1 ≤ attempt) (h0 : 0 ≤ rand) (h1 : rand < 1) :
    2 ^ attempt * 1000 ≤ exponentialBackoff attempt rand ∧
    exponentialBackoff attempt rand < 2 ^ attempt * 1000 + 1000 ∧
    ∀ a b : ℕ, a ≤ b → exponentialBackoff a 0 ≤ exponentialBackoff b 0 := by
  refine ⟨?_, ?_, ?_⟩
  · unfold exponentialBackoff
    nlinarith
  · unfold exponentialBackoff
    nlinarith
  · intro a b hab
    unfold exponentialBackoff
    have : (2 : ℚ) ^ a ≤ 2 ^ b := pow_le_pow_right₀ (by norm_num) hab
    nlinarith

theorem C9_backoff_bounds_witness :
    (1 ≤ 3 ∧ (0 : ℚ) ≤ 1 / 2 ∧ (1 : ℚ) / 2 < 1) ∧
    (2 ^ 3 * 1000 ≤ exponentialBackoff 3 (1 / 2) ∧
     exponentialBackoff 3 (1 / 2) < 2 ^ 3 * 1000 + 1000 ∧
     ∀ a b : ℕ, a ≤ b → exponentialBackoff a 0 ≤ exponentialBackoff b 0) :=
  have hpos : 1 ≤ 3 := by norm_num
  have h0 : (0 : ℚ) ≤ 1 / 2 := by norm_num
  have h1 : (1 : ℚ) / 2 < 1 := by norm_num
  ⟨⟨hpos, h0, h1⟩, C9_backoff_bounds 3 (1 / 2) hpos h0 h1⟩

/-! ## Theorems: branch equations of the loop definitions

`rw`-friendly unfolding equations, one per control-flow branch. -/

theorem createOrGetLabel_found (ls : List EmailLabel) (n : String) (l : EmailLabel)
    (h : getLabelByName ls n = some l) :
    createOrGetLabel ls n = (l.id, ls, [ApiEvent.lookupLabel n]) := by
  simp [createOrGetLabel, h]

theorem createOrGetLabel_missing (ls : List EmailLabel) (n : String)
    (h : getLabelByName ls n = none) :
    createOrGetLabel ls n = ("created-" ++ n, ls ++ [⟨"created-" ++ n, n⟩],
      [ApiEvent.lookupLabel n, ApiEvent.createLabelCall n]) := by
  simp [createOrGetLabel, h]

theorem fetchEmails_nil (api : SourceApi) : fetchEmails api [] = ([], []) := rfl

theorem fetchEmails_cons (api : SourceApi) (id : String) (ids : List String) :
    fetchEmails api (id :: ids) =
      (⟨id, api.rawOf id, (api.labelIdsOf id).map (fun lid => (resolveLabelName api lid).1)⟩
         :: (fetchEmails api ids).1,
       (ApiEvent.getMessageRaw id :: (api.labelIdsOf id).map ApiEvent.labelsGet)
         ++ (fetchEmails api ids).2) := rfl

theorem collectLabelIds_nil (src : String) (st : V2State) :
    collectLabelIds src st [] = (st, [], []) := rfl

theorem collectLabelIds_cons_skip (src : String) (st : V2State) (l : String) (ls : List String)
    (hk : keepLabel l = false) :
    collectLabelIds src st (l :: ls) = collectLabelIds src st ls := by
  simp [collectLabelIds, hk]

theorem collectLabelIds_cons_hit (src : String) (st : V2State) (l : String) (ls : List String)
    (id : String) (hk : keepLabel l = true) (hm : mapLookup st.labelMap l = some id) :
    collectLabelIds src st (l :: ls) =
      ((collectLabelIds src st ls).1, id :: (collectLabelIds src st ls).2.1,
       (collectLabelIds src st ls).2.2) := by
  simp [collectLabelIds, hk, hm]

theorem collectLabelIds_cons_miss (src : String) (st : V2State) (l : String) (ls : List String)
    (hk : keepLabel l = true) (hm : mapLookup st.labelMap l = none) :
    collectLabelIds src st (l :: ls) =
      ((collectLabelIds src
          { st with
            labelMap := st.labelMap
              ++ [(l, (createOrGetLabel st.destLabels (src ++ "/" ++ l)).1)]
            destLabels := (createOrGetLabel st.destLabels (src ++ "/" ++ l)).2.1
            labelsCreated := st.labelsCreated ++ [src ++ "/" ++ l] } ls).1,
       (createOrGetLabel st.destLabels (src ++ "/" ++ l)).1
         :: (collectLabelIds src
              { st with
                labelMap := st.labelMap
                  ++ [(l, (createOrGetLabel st.destLabels (src ++ "/" ++ l)).1)]
                destLabels := (createOrGetLabel st.destLabels (src ++ "/" ++ l)).2.1
                labelsCreated := st.labelsCreated ++ [src ++ "/" ++ l] } ls).2.1,
       (createOrGetLabel st.destLabels (src ++ "/" ++ l)).2.2
         ++ (collectLabelIds src
              { st with
                labelMap := st.labelMap
                  ++ [(l, (createOrGetLabel st.destLabels (src ++ "/" ++ l)).1)]
                destLabels := (createOrGetLabel st.destLabels (src ++ "/" ++ l)).2.1
                labelsCreated := st.labelsCreated ++ [src ++ "/" ++ l] } ls).2.2) := by
  simp [collectLabelIds, hk, hm]

theorem dryCollectLabels_nil (src : String) (st : V2State) :
    dryCollectLabels src st [] = st := rfl

theorem dryCollectLabels_cons_add (src : String) (st : V2State) (l : String) (ls : List String)
    (hc : (keepLabel l && (mapLookup st.labelMap l).isNone) = true) :
    dryCollectLabels src st (l :: ls) =
      dryCollectLabels src
        { st with
          labelMap := st.labelMap ++ [(l, "dry-run-label-" ++ l)]
          labelsCreated := st.labelsCreated ++ [src ++ "/" ++ l] } ls := by
  simp [dryCollectLabels, hc]

theorem dryCollectLabels_cons_skip (src : String) (st : V2State) (l : String) (ls : List String)
    (hc : (keepLabel l && (mapLookup st.labelMap l).isNone) = false) :
    dryCollectLabels src st (l :: ls) = dryCollectLabels src st ls := by
  simp [dryCollectLabels, hc]

theorem processOneEmail_dry (src mid : String) (imp : String → Except String String)
    (st : V2State) (email : EmailWithLabels) :
    processOneEmail src mid true imp st email =
      ({ dryCollectLabels src st email.labels with
         transferred := (dryCollectLabels src st email.labels).transferred + 1 },
       [ApiEvent.sleepDelay 100], none) := rfl

theorem processOneEmail_live_err (src mid : String) (imp : String → Except String String)
    (st : V2State) (email : EmailWithLabels) (e : String)
    (h : imp email.raw = Except.error e) :
    processOneEmail src mid false imp st email =
      (st, [ApiEvent.importCall email.raw], some e) := by
  simp [processOneEmail, h]

theorem processOneEmail_live_ok (src mid : String) (imp : String → Except String String)
    (st : V2State) (email : EmailWithLabels) (iid : String)
    (h : imp email.raw = Except.ok iid) :
    processOneEmail src mid false imp st email =
      (let r := collectLabelIds src st email.labels
       ({ r.1 with transferred := r.1.transferred + 1 },
        ApiEvent.importCall email.raw :: r.2.2
          ++ [ApiEvent.modifyCall iid (mid :: r.2.1), ApiEvent.sleepDelay 100],
        none)) := by
  simp [processOneEmail, h]

theorem runLoopV2_nil (src mid : String) (dry : Bool) (imp : String → Except String String)
    (st : V2State) : runLoopV2 src mid dry imp st [] = (st, [], none) := rfl

theorem runLoopV2_cons_err (src mid : String) (dry : Bool) (imp : String → Except String String)
    (st : V2State) (e : EmailWithLabels) (es : List EmailWithLabels) (err : String)
    (h : (processOneEmail src mid dry imp st e).2.2 = some err) :
    runLoopV2 src mid dry imp st (e :: es) =
      ((processOneEmail src mid dry imp st e).1,
       (processOneEmail src mid dry imp st e).2.1, some err) := by
  simp [runLoopV2, h]

theorem runLoopV2_cons_ok (src mid : String) (dry : Bool) (imp : String → Except String String)
    (st : V2State) (e : EmailWithLabels) (es : List EmailWithLabels)
    (h : (processOneEmail src mid dry imp st e).2.2 = none) :
    runLoopV2 src mid dry imp st (e :: es) =
      (let r := processOneEmail src mid dry imp st e
       let r' := runLoopV2 src mid dry imp r.1 es
       (r'.1, r.2.1 ++ r'.2.1, r'.2.2)) := by
  simp [runLoopV2, h]

theorem transferEmailsV2_declined (api : SourceApi) (imp : String → Except String String)
    (dest0 : List EmailLabel) (src : String) (dry : Bool) (answer : String)
    (h : promptForConfirmation answer = false) :
    transferEmailsV2 api imp dest0 src dry answer =
      (RunOutcome.exited 0, ⟨[], dest0, [], 0⟩, (getAllUniqueEmails api).2) := by
  simp [transferEmailsV2, h]

theorem transferEmailsV2_dry (api : SourceApi) (imp : String → Except String String)
    (dest0 : List EmailLabel) (src : String) (answer : String)
    (hc : promptForConfirmation answer = true)
    (hl : (runLoopV2 src "dry-run-main-label" true imp ⟨[], dest0, [src], 0⟩
            (getAllUniqueEmails api).1).2.2 = none) :
    transferEmailsV2 api imp dest0 src true answer =
      (let r := runLoopV2 src "dry-run-main-label" true imp ⟨[], dest0, [src], 0⟩
                  (getAllUniqueEmails api).1
       (RunOutcome.ok ⟨r.1.labelsCreated, r.1.transferred⟩, r.1,
        (getAllUniqueEmails api).2 ++ r.2.1)) := by
  simp [transferEmailsV2, hc, hl]

theorem transferEmailsV2_live_done (api : SourceApi) (imp : String → Except String String)
    (dest0 : List EmailLabel) (src : String) (answer : String)
    (hc : promptForConfirmation answer = true)
    (hl : (runLoopV2 src (createOrGetLabel dest0 src).1 false imp
            ⟨[], (createOrGetLabel dest0 src).2.1, [src], 0⟩
            (getAllUniqueEmails api).1).2.2 = none) :
    transferEmailsV2 api imp dest0 src false answer =
      (let r := runLoopV2 src (createOrGetLabel dest0 src).1 false imp
                  ⟨[], (createOrGetLabel dest0 src).2.1, [src], 0⟩
                  (getAllUniqueEmails api).1
       (RunOutcome.ok ⟨r.1.labelsCreated, r.1.transferred⟩, r.1,
        (getAllUniqueEmails api).2 ++ (createOrGetLabel dest0 src).2.2 ++ r.2.1)) := by
  simp [transferEmailsV2, hc, hl]

theorem transferEmailsV2_live_fail (api : SourceApi) (imp : String → Except String String)
    (dest0 : List EmailLabel) (src : String) (answer : String) (err : String)
    (hc : promptForConfirmation answer = true)
    (hl : (runLoopV2 src (createOrGetLabel dest0 src).1 false imp
            ⟨[], (createOrGetLabel dest0 src).2.1, [src], 0⟩
            (getAllUniqueEmails api).1).2.2 = some err) :
    transferEmailsV2 api imp dest0 src false answer =
      (let r := runLoopV2 src (createOrGetLabel dest0 src).1 false imp
                  ⟨[], (createOrGetLabel dest0 src).2.1, [src], 0⟩
                  (getAllUniqueEmails api).1
       (RunOutcome.failed err, r.1,
        (getAllUniqueEmails api).2 ++ (createOrGetLabel dest0 src).2.2 ++ r.2.1)) := by
  simp [transferEmailsV2, hc, hl]

theorem processMsgV1_skip (mid sid : String) (dry : Bool) (dest : DestState) (m : SrcMsg)
    (h : checkIfEmailExists dest.msgs (subjectOf m) m.internalDate = true) :
    processMsgV1 mid sid dry dest m =
      (dest, 0, [ApiEvent.getMetadata m.id,
                 ApiEvent.existsQuery (subjectOf m) m.internalDate]) := by
  simp [processMsgV1, h]

theorem processMsgV1_dry_new (mid sid : String) (dest : DestState) (m : SrcMsg)
    (h : checkIfEmailExists dest.msgs (subjectOf m) m.internalDate = false) :
    processMsgV1 mid sid true dest m =
      (dest, 1, [ApiEvent.getMetadata m.id,
                 ApiEvent.existsQuery (subjectOf m) m.internalDate,
                 ApiEvent.sleepDelay 100]) := by
  simp [processMsgV1, h]

theorem processMsgV1_live_new (mid sid : String) (dest : DestState) (m : SrcMsg)
    (h : checkIfEmailExists dest.msgs (subjectOf m) m.internalDate = false) :
    processMsgV1 mid sid false dest m =
      ({ dest with msgs := dest.msgs ++ [⟨subjectOf m, m.internalDate⟩] }, 1,
       [ApiEvent.getMetadata m.id,
        ApiEvent.existsQuery (subjectOf m) m.internalDate,
        ApiEvent.getMessageRaw m.id, ApiEvent.importCall m.raw,
        ApiEvent.modifyCall ("imported-" ++ m.id) [mid, sid],
        ApiEvent.sleepDelay 100]) := by
  simp [processMsgV1, h]

theorem msgLoopV1_nil (mid sid : String) (dry : Bool) (dest : DestState) :
    msgLoopV1 mid sid dry dest [] = (dest, 0, []) := rfl

theorem msgLoopV1_cons (mid sid : String) (dry : Bool) (dest : DestState)
    (m : SrcMsg) (ms : List SrcMsg) :
    msgLoopV1 mid sid dry dest (m :: ms) =
      (let r := processMsgV1 mid sid dry dest m
       let r' := msgLoopV1 mid sid dry r.1 ms
       (r'.1, r.2.1 + r'.2.1, r.2.2 ++ r'.2.2)) := rfl

theorem transferEmailsForLabel_noMsgs (api : SourceApiV1) (src : String) (label : EmailLabel)
    (mid : String) (dry : Bool) (dest : DestState)
    (h : (api.msgsOf label.id).isEmpty = true) :
    transferEmailsForLabel api src label mid dry dest =
      (0, dest, [ApiEvent.listByLabel label.id]) := by
  simp [transferEmailsForLabel, h]

theorem transferEmailsForLabel_dry (api : SourceApiV1) (src : String) (label : EmailLabel)
    (mid : String) (dest : DestState)
    (h : (api.msgsOf label.id).isEmpty = false) :
    transferEmailsForLabel api src label mid true dest =
      (let r := msgLoopV1 mid ("dry-run-sublabel-" ++ label.id) true dest (api.msgsOf label.id)
       (r.2.1, r.1, ApiEvent.listByLabel label.id :: r.2.2)) := by
  simp [transferEmailsForLabel, h]

theorem transferEmailsForLabel_live (api : SourceApiV1) (src : String) (label : EmailLabel)
    (mid : String) (dest : DestState)
    (h : (api.msgsOf label.id).isEmpty = false) :
    transferEmailsForLabel api src label mid false dest =
      (let c := createOrGetLabel dest.labels (src ++ "/" ++ label.name)
       let r := msgLoopV1 mid c.1 false { dest with labels := c.2.1 } (api.msgsOf label.id)
       (r.2.1, r.1, ApiEvent.listByLabel label.id :: (c.2.2 ++ r.2.2))) := by
  simp [transferEmailsForLabel, h]

theorem specialsLoopV1_nil (api : SourceApiV1) (src mid : String) (dry : Bool)
    (dest : DestState) : specialsLoopV1 api src mid dry dest [] = (dest, 0, []) := rfl

theorem specialsLoopV1_cons (api : SourceApiV1) (src mid : String) (dry : Bool)
    (dest : DestState) (sp : String) (sps : List String) :
    specialsLoopV1 api src mid dry dest (sp :: sps) =
      (let r := transferEmailsForLabel api src ⟨sp, sp⟩ mid dry dest
       let rest := specialsLoopV1 api src mid dry r.2.1 sps
       (rest.1, r.1 + rest.2.1, r.2.2 ++ rest.2.2)) := rfl

theorem otherLabelsLoopV1_nil (api : SourceApiV1) (src mid : String) (dry : Bool)
    (dest : DestState) : otherLabelsLoopV1 api src mid dry dest [] = (dest, [], 0, []) := rfl

theorem otherLabelsLoopV1_cons (api : SourceApiV1) (src mid : String) (dry : Bool)
    (dest : DestState) (l : EmailLabel) (ls : List EmailLabel) :
    otherLabelsLoopV1 api src mid dry dest (l :: ls) =
      (let r := transferEmailsForLabel api src l mid dry dest
       let rest := otherLabelsLoopV1 api src mid dry r.2.1 ls
       (rest.1,
        (if 0 < r.1 then [src ++ "/" ++ l.name] else []) ++ rest.2.1,
        (if 0 < r.1 then r.1 else 0) + rest.2.2.1,
        r.2.2 ++ rest.2.2.2)) := rfl

theorem transferEmailsV1_declined (api : SourceApiV1) (dest0 : DestState) (src : String)
    (dry : Bool) (answer : String) (h : promptForConfirmation answer = false) :
    transferEmailsV1 api dest0 src dry answer =
      (RunOutcome.exited 0, dest0,
       [ApiEvent.labelsList] ++ countPhaseV1 (getLabelsV1 api).1) := by
  simp [transferEmailsV1, getLabelsV1, h]

theorem transferEmailsV1_dry (api : SourceApiV1) (dest0 : DestState) (src : String)
    (answer : String) (hc : promptForConfirmation answer = true) :
    transferEmailsV1 api dest0 src true answer =
      (let sourceLabels := (getLabelsV1 api).1
       let sp := specialsLoopV1 api src "dry-run-main-label" true dest0 specialLabels
       let ot := otherLabelsLoopV1 api src "dry-run-main-label" true sp.1
                   (sourceLabels.filter (fun l => !(specialLabels.contains l.name)))
       (RunOutcome.ok ⟨src :: ot.2.1, sp.2.1 + ot.2.2.1⟩, ot.1,
        ([ApiEvent.labelsList] ++ countPhaseV1 sourceLabels) ++ sp.2.2 ++ ot.2.2.2)) := by
  simp [transferEmailsV1, getLabelsV1, hc]

theorem transferEmailsV1_live (api : SourceApiV1) (dest0 : DestState) (src : String)
    (answer : String) (hc : promptForConfirmation answer = true) :
    transferEmailsV1 api dest0 src false answer =
      (let sourceLabels := (getLabelsV1 api).1
       let c := createOrGetLabel dest0.labels src
       let sp := specialsLoopV1 api src c.1 false { dest0 with labels := c.2.1 } specialLabels
       let ot := otherLabelsLoopV1 api src c.1 false sp.1
                   (sourceLabels.filter (fun l => !(specialLabels.contains l.name)))
       (RunOutcome.ok ⟨src :: ot.2.1, sp.2.1 + ot.2.2.1⟩, ot.1,
        ([ApiEvent.labelsList] ++ countPhaseV1 sourceLabels) ++ c.2.2 ++ sp.2.2 ++ ot.2.2.2)) := by
  simp [transferEmailsV1, getLabelsV1, hc]

/-! ## Theorems: trace bookkeeping -/

theorem countEvent_append (a b : List ApiEvent) (e : ApiEvent) :
    countEvent (a ++ b) e = countEvent a e + countEvent b e := by
  simp [countEvent, List.filter_append]

theorem countEvent_eq_zero {tr : List ApiEvent} {target : ApiEvent}
    (h : ∀ e ∈ tr, e ≠ target) : countEvent tr target = 0 := by
  simp only [countEvent, List.length_eq_zero]
  rw [List.filter_eq_nil_iff]
  intro a ha
  simpa using h a ha

theorem lookupCount_append (a b : List ApiEvent) (n : String) :
    lookupCount (a ++ b) n = lookupCount a n + lookupCount b n := by
  simp [lookupCount, List.filter_append]

theorem lookupCount_eq_zero {tr : List ApiEvent} {n : String}
    (h : ∀ e ∈ tr, e ≠ ApiEvent.lookupLabel n) : lookupCount tr n = 0 := by
  simp only [lookupCount, List.length_eq_zero]
  rw [List.filter_eq_nil_iff]
  intro a ha
  simpa using h a ha

theorem importEvents_append (a b : List ApiEvent) :
    importEvents (a ++ b) = importEvents a ++ importEvents b := by
  simp [importEvents]

theorem importEvents_eq_nil {tr : List ApiEvent}
    (h : ∀ e ∈ tr, ∀ r, e ≠ ApiEvent.importCall r) : importEvents tr = [] := by
  simp only [importEvents]
  rw [List.filterMap_eq_nil_iff]
  intro a ha
  cases a <;> first
  | rfl
  | exact absurd rfl (h _ ha _)

theorem listEvents_append (a b : List ApiEvent) :
    listEvents (a ++ b) = listEvents a ++ listEvents b := by
  simp [listEvents]

theorem listEvents_eq_nil {tr : List ApiEvent}
    (h : ∀ e ∈ tr, ∀ t n, e ≠ ApiEvent.listCall t n) : listEvents tr = [] := by
  simp only [listEvents]
  rw [List.filterMap_eq_nil_iff]
  intro a ha
  cases a <;> first
  | rfl
  | exact absurd rfl (h _ ha _ _)

/-! ## Theorems: shape of the traces of variant 2's building blocks -/

theorem mem_fetchEmails_events (api : SourceApi) (ids : List String) (e : ApiEvent)
    (h : e ∈ (fetchEmails api ids).2) :
    (∃ i, e = ApiEvent.getMessageRaw i) ∨ ∃ i, e = ApiEvent.labelsGet i := by
  induction ids with
  | nil => simp [fetchEmails] at h
  | cons id ids ih =>
    simp only [fetchEmails, List.mem_append, List.mem_cons, List.mem_map] at h
    rcases h with (h | h) | h
    · exact Or.inl ⟨id, h⟩
    · obtain ⟨lid, _, rfl⟩ := h
      exact Or.inr ⟨lid, rfl⟩
    · exact ih h

theorem fetchEmails_ids (api : SourceApi) (ids : List String) :
    ((fetchEmails api ids).1.map (fun e => e.id)) = ids := by
  induction ids with
  | nil => simp [fetchEmails]
  | cons id ids ih => simp [fetchEmails, ih]

theorem mem_createOrGetLabel_events (ls : List EmailLabel) (n : String) (e : ApiEvent)
    (h : e ∈ (createOrGetLabel ls n).2.2) :
    e = ApiEvent.lookupLabel n ∨ e = ApiEvent.createLabelCall n := by
  unfold createOrGetLabel at h
  cases hf : getLabelByName ls n <;> rw [hf] at h <;> simp_all

theorem mem_collectLabelIds_events (src : String) (ls : List String) :
    ∀ st e, e ∈ (collectLabelIds src st ls).2.2 →
      ∃ l, l ∈ ls ∧ keepLabel l = true ∧
        (e = ApiEvent.lookupLabel (src ++ "/" ++ l) ∨
         e = ApiEvent.createLabelCall (src ++ "/" ++ l)) := by
  induction ls with
  | nil => intro st e h; simp [collectLabelIds_nil] at h
  | cons l ls ih =>
    intro st e h
    cases hk : keepLabel l with
    | false =>
      rw [collectLabelIds_cons_skip src st l ls hk] at h
      obtain ⟨l', hl', hk', he⟩ := ih st e h
      exact ⟨l', List.mem_cons_of_mem _ hl', hk', he⟩
    | true =>
      cases hm : mapLookup st.labelMap l with
      | some id =>
        rw [collectLabelIds_cons_hit src st l ls id hk hm] at h
        obtain ⟨l', hl', hk', he⟩ := ih st e h
        exact ⟨l', List.mem_cons_of_mem _ hl', hk', he⟩
      | none =>
        rw [collectLabelIds_cons_miss src st l ls hk hm] at h
        simp only [List.mem_append] at h
        rcases h with h | h
        · rcases mem_createOrGetLabel_events _ _ _ h with h' | h' <;>
            exact ⟨l, List.mem_cons_self _ _, hk, by simp [h']⟩
        · obtain ⟨l', hl', hk', he⟩ := ih _ e h
          exact ⟨l', List.mem_cons_of_mem _ hl', hk', he⟩

/-! ## Theorems: the pacing helpers are never invoked -/

theorem pacing_fetchEmails (api : SourceApi) (ids : List String) :
    ∀ e ∈ (fetchEmails api ids).2, isPacing e = false := by
  intro e he
  rcases mem_fetchEmails_events api ids e he with ⟨i, rfl⟩ | ⟨i, rfl⟩ <;> rfl

theorem pacing_getAllUniqueEmails (api : SourceApi) :
    ∀ e ∈ (getAllUniqueEmails api).2, isPacing e = false := by
  intro e he
  have h : e = ApiEvent.listCall none 500 ∨
      e ∈ (fetchEmails api ((api.listResp none 500).messages.getD [])).2 := by
    simpa [getAllUniqueEmails] using he
  rcases h with rfl | h
  · rfl
  · exact pacing_fetchEmails _ _ e h

theorem pacing_createOrGetLabel (ls : List EmailLabel) (n : String) :
    ∀ e ∈ (createOrGetLabel ls n).2.2, isPacing e = false := by
  intro e he
  rcases mem_createOrGetLabel_events ls n e he with rfl | rfl <;> rfl

theorem pacing_collectLabelIds (src : String) (ls : List String) (st : V2State) :
    ∀ e ∈ (collectLabelIds src st ls).2.2, isPacing e = false := by
  intro e he
  obtain ⟨l, _, _, h | h⟩ := mem_collectLabelIds_events src ls st e he <;> subst h <;> rfl

theorem pacing_processOneEmail (src mid : String) (dry : Bool)
    (imp : String → Except String String) (st : V2State) (email : EmailWithLabels) :
    ∀ e ∈ (processOneEmail src mid dry imp st email).2.1, isPacing e = false := by
  intro e he
  cases dry with
  | true =>
    rw [processOneEmail_dry] at he
    fin_cases he <;> rfl
  | false =>
    cases himp : imp email.raw with
    | error er =>
      rw [processOneEmail_live_err src mid imp st email er himp] at he
      fin_cases he <;> rfl
    | ok iid =>
      rw [processOneEmail_live_ok src mid imp st email iid himp] at he
      simp only [List.mem_cons, List.mem_append] at he
      rcases he with (rfl | he) | he
      · rfl
      · exact pacing_collectLabelIds _ _ _ e he
      · rcases he with rfl | rfl | he
        · rfl
        · rfl
        · simp at he

theorem pacing_runLoopV2 (src mid : String) (dry : Bool)
    (imp : String → Except String String) (es : List EmailWithLabels) :
    ∀ st, ∀ e ∈ (runLoopV2 src mid dry imp st es).2.1, isPacing e = false := by
  induction es with
  | nil => intro st e he; rw [runLoopV2_nil] at he; simp at he
  | cons em es ih =>
    intro st e he
    cases hp : (processOneEmail src mid dry imp st em).2.2 with
    | some err =>
      rw [runLoopV2_cons_err src mid dry imp st em es err hp] at he
      exact pacing_processOneEmail src mid dry imp st em e he
    | none =>
      rw [runLoopV2_cons_ok src mid dry imp st em es hp] at he
      simp only [List.mem_append] at he
      rcases he with he | he
      · exact pacing_processOneEmail src mid dry imp st em e he
      · exact ih _ e he

theorem runLoopV2_dry_none (src mid : String) (imp : String → Except String String)
    (es : List EmailWithLabels) :
    ∀ st, (runLoopV2 src mid true imp st es).2.2 = none := by
  induction es with
  | nil => intro st; rw [runLoopV2_nil]
  | cons em es ih =>
    intro st
    have hp : (processOneEmail src mid true imp st em).2.2 = none := by
      rw [processOneEmail_dry]
    rw [runLoopV2_cons_ok src mid true imp st em es hp]
    exact ih _

theorem pacing_transferEmailsV2 (api : SourceApi) (imp : String → Except String String)
    (dest0 : List EmailLabel) (src : String) (dry : Bool) (answer : String) :
    ∀ e ∈ (transferEmailsV2 api imp dest0 src dry answer).2.2, isPacing e = false := by
  intro e he
  cases hc : promptForConfirmation answer with
  | false =>
    rw [transferEmailsV2_declined api imp dest0 src dry answer hc] at he
    exact pacing_getAllUniqueEmails api e he
  | true =>
    cases dry with
    | true =>
      rw [transferEmailsV2_dry api imp dest0 src answer hc
        (runLoopV2_dry_none src "dry-run-main-label" imp (getAllUniqueEmails api).1 _)] at he
      simp only [List.mem_append] at he
      rcases he with he | he
      · exact pacing_getAllUniqueEmails api e he
      · exact pacing_runLoopV2 _ _ _ _ _ _ e he
    | false =>
      cases hl : (runLoopV2 src (createOrGetLabel dest0 src).1 false imp
          ⟨[], (createOrGetLabel dest0 src).2.1, [src], 0⟩ (getAllUniqueEmails api).1).2.2 with
      | some err =>
        rw [transferEmailsV2_live_fail api imp dest0 src answer err hc hl] at he
        simp only [List.mem_append] at he
        rcases he with (he | he) | he
        · exact pacing_getAllUniqueEmails api e he
        · exact pacing_createOrGetLabel _ _ e he
        · exact pacing_runLoopV2 _ _ _ _ _ _ e he
      | none =>
        rw [transferEmailsV2_live_done api imp dest0 src answer hc hl] at he
        simp only [List.mem_append] at he
        rcases he with (he | he) | he
        · exact pacing_getAllUniqueEmails api e he
        · exact pacing_createOrGetLabel _ _ e he
        · exact pacing_runLoopV2 _ _ _ _ _ _ e he

theorem pacing_processMsgV1 (mid sid : String) (dry : Bool) (dest : DestState) (m : SrcMsg) :
    ∀ e ∈ (processMsgV1 mid sid dry dest m).2.2, isPacing e = false := by
  intro e he
  cases hck : checkIfEmailExists dest.msgs (subjectOf m) m.internalDate with
  | true =>
    rw [processMsgV1_skip mid sid dry dest m hck] at he
    fin_cases he <;> rfl
  | false =>
    cases dry with
    | true =>
      rw [processMsgV1_dry_new mid sid dest m hck] at he
      fin_cases he <;> rfl
    | false =>
      rw [processMsgV1_live_new mid sid dest m hck] at he
      fin_cases he <;> rfl

theorem pacing_msgLoopV1 (mid sid : String) (dry : Bool) (ms : List SrcMsg) :
    ∀ dest, ∀ e ∈ (msgLoopV1 mid sid dry dest ms).2.2, isPacing e = false := by
  induction ms with
  | nil => intro dest e he; rw [msgLoopV1_nil] at he; simp at he
  | cons m ms ih =>
    intro dest e he
    rw [msgLoopV1_cons] at he
    simp only [List.mem_append] at he
    rcases he with he | he
    · exact pacing_processMsgV1 mid sid dry dest m e he
    · exact ih _ e he

theorem pacing_transferEmailsForLabel (api : SourceApiV1) (src : String) (label : EmailLabel)
    (mid : String) (dry : Bool) (dest : DestState) :
    ∀ e ∈ (transferEmailsForLabel api src label mid dry dest).2.2, isPacing e = false := by
  intro e he
  cases hne : (api.msgsOf label.id).isEmpty with
  | true =>
    rw [transferEmailsForLabel_noMsgs api src label mid dry dest hne] at he
    fin_cases he <;> rfl
  | false =>
    cases dry with
    | true =>
      rw [transferEmailsForLabel_dry api src label mid dest hne] at he
      simp only [List.mem_cons] at he
      rcases he with rfl | he
      · rfl
      · exact pacing_msgLoopV1 _ _ _ _ _ e he
    | false =>
      rw [transferEmailsForLabel_live api src label mid dest hne] at he
      simp only [List.mem_cons, List.mem_append] at he
      rcases he with rfl | he | he
      · rfl
      · exact pacing_createOrGetLabel _ _ e he
      · exact pacing_msgLoopV1 _ _ _ _ _ e he

theorem pacing_specialsLoopV1 (api : SourceApiV1) (src mid : String) (dry : Bool)
    (sps : List String) :
    ∀ dest, ∀ e ∈ (specialsLoopV1 api src mid dry dest sps).2.2, isPacing e = false := by
  induction sps with
  | nil => intro dest e he; rw [specialsLoopV1_nil] at he; simp at he
  | cons sp sps ih =>
    intro dest e he
    rw [specialsLoopV1_cons] at he
    simp only [List.mem_append] at he
    rcases he with he | he
    · exact pacing_transferEmailsForLabel _ _ _ _ _ _ e he
    · exact ih _ e he

theorem pacing_otherLabelsLoopV1 (api : SourceApiV1) (src mid : String) (dry : Bool)
    (ls : List EmailLabel) :
    ∀ dest, ∀ e ∈ (otherLabelsLoopV1 api src mid dry dest ls).2.2.2, isPacing e = false := by
  induction ls with
  | nil => intro dest e he; rw [otherLabelsLoopV1_nil] at he; simp at he
  | cons l ls ih =>
    intro dest e he
    rw [otherLabelsLoopV1_cons] at he
    simp only [List.mem_append] at he
    rcases he with he | he
    · exact pacing_transferEmailsForLabel _ _ _ _ _ _ e he
    · exact ih _ e he

theorem pacing_countPhaseV1 (sourceLabels : List EmailLabel) :
    ∀ e ∈ countPhaseV1 sourceLabels, isPacing e = false := by
  intro e he
  simp only [countPhaseV1, List.mem_append, List.mem_map] at he
  rcases he with ⟨_, _, rfl⟩ | ⟨_, _, rfl⟩ <;> rfl

theorem pacing_transferEmailsV1 (api : SourceApiV1) (dest0 : DestState) (src : String)
    (dry : Bool) (answer : String) :
    ∀ e ∈ (transferEmailsV1 api dest0 src dry answer).2.2, isPacing e = false := by
  intro e he
  cases hc : promptForConfirmation answer with
  | false =>
    rw [transferEmailsV1_declined api dest0 src dry answer hc] at he
    simp only [List.mem_append, List.mem_singleton] at he
    rcases he with rfl | he
    · rfl
    · exact pacing_countPhaseV1 _ e he
  | true =>
    cases dry with
    | true =>
      rw [transferEmailsV1_dry api dest0 src answer hc] at he
      simp only [List.mem_append, List.mem_singleton] at he
      rcases he with ((rfl | he) | he) | he
      · rfl
      · exact pacing_countPhaseV1 _ e he
      · exact pacing_specialsLoopV1 _ _ _ _ _ _ e he
      · exact pacing_otherLabelsLoopV1 _ _ _ _ _ _ e he
    | false =>
      rw [transferEmailsV1_live api dest0 src answer hc] at he
      simp only [List.mem_append, List.mem_singleton] at he
      rcases he with (((rfl | he) | he) | he) | he
      · rfl
      · exact pacing_countPhaseV1 _ e he
      · exact pacing_createOrGetLabel _ _ e he
      · exact pacing_specialsLoopV1 _ _ _ _ _ _ e he
      · exact pacing_otherLabelsLoopV1 _ _ _ _ _ _ e he

/-! ## Theorems: sleep accounting (one 100 ms `delay` per transferred message) -/

theorem sleepEvents_append (a b : List ApiEvent) :
    sleepEvents (a ++ b) = sleepEvents a ++ sleepEvents b := by
  simp [sleepEvents]

theorem sleepEvents_eq_nil {tr : List ApiEvent}
    (h : ∀ e ∈ tr, ∀ ms, e ≠ ApiEvent.sleepDelay ms) : sleepEvents tr = [] := by
  simp only [sleepEvents]
  rw [List.filterMap_eq_nil_iff]
  intro a ha
  cases a <;> first
  | rfl
  | exact absurd rfl (h _ ha _)

theorem sleepEvents_getAllUniqueEmails (api : SourceApi) :
    sleepEvents (getAllUniqueEmails api).2 = [] := by
  apply sleepEvents_eq_nil
  intro e he ms
  have h : e = ApiEvent.listCall none 500 ∨
      e ∈ (fetchEmails api ((api.listResp none 500).messages.getD [])).2 := by
    simpa [getAllUniqueEmails] using he
  rcases h with rfl | h
  · simp
  · rcases mem_fetchEmails_events api _ e h with ⟨i, rfl⟩ | ⟨i, rfl⟩ <;> simp

theorem sleepEvents_createOrGetLabel (ls : List EmailLabel) (n : String) :
    sleepEvents (createOrGetLabel ls n).2.2 = [] := by
  apply sleepEvents_eq_nil
  intro e he ms
  rcases mem_createOrGetLabel_events ls n e he with rfl | rfl <;> simp

theorem sleepEvents_collectLabelIds (src : String) (ls : List String) (st : V2State) :
    sleepEvents (collectLabelIds src st ls).2.2 = [] := by
  apply sleepEvents_eq_nil
  intro e he ms
  obtain ⟨l, _, _, h | h⟩ := mem_collectLabelIds_events src ls st e he <;> subst h <;> simp

theorem dryCollectLabels_transferred (src : String) (ls : List String) :
    ∀ st, (dryCollectLabels src st ls).transferred = st.transferred := by
  induction ls with
  | nil => intro st; rw [dryCollectLabels_nil]
  | cons l ls ih =>
    intro st
    cases hc : (keepLabel l && (mapLookup st.labelMap l).isNone) with
    | true => rw [dryCollectLabels_cons_add src st l ls hc]; exact ih _
    | false => rw [dryCollectLabels_cons_skip src st l ls hc]; exact ih _

theorem collectLabelIds_transferred (src : String) (ls : List String) :
    ∀ st, (collectLabelIds src st ls).1.transferred = st.transferred := by
  induction ls with
  | nil => intro st; rw [collectLabelIds_nil]
  | cons l ls ih =>
    intro st
    cases hk : keepLabel l with
    | false => rw [collectLabelIds_cons_skip src st l ls hk]; exact ih _
    | true =>
      cases hm : mapLookup st.labelMap l with
      | some id => rw [collectLabelIds_cons_hit src st l ls id hk hm]; exact ih _
      | none => rw [collectLabelIds_cons_miss src st l ls hk hm]; exact ih _

theorem processOneEmail_ok_spec (src mid : String) (dry : Bool)
    (imp : String → Except String String) (st : V2State) (email : EmailWithLabels)
    (h : (processOneEmail src mid dry imp st email).2.2 = none) :
    (processOneEmail src mid dry imp st email).1.transferred = st.transferred + 1 ∧
    sleepEvents (processOneEmail src mid dry imp st email).2.1 = [100] := by
  cases dry with
  | true =>
    rw [processOneEmail_dry]
    exact ⟨by simp [dryCollectLabels_transferred], rfl⟩
  | false =>
    cases himp : imp email.raw with
    | error er =>
      rw [processOneEmail_live_err src mid imp st email er himp] at h
      simp at h
    | ok iid =>
      have htr : (processOneEmail src mid false imp st email).2.1 =
          [ApiEvent.importCall email.raw] ++ (collectLabelIds src st email.labels).2.2
            ++ [ApiEvent.modifyCall iid (mid :: (collectLabelIds src st email.labels).2.1),
                ApiEvent.sleepDelay 100] := by
        rw [processOneEmail_live_ok src mid imp st email iid himp]
        rfl
      constructor
      · rw [processOneEmail_live_ok src mid imp st email iid himp]
        simp [collectLabelIds_transferred]
      · rw [htr, sleepEvents_append, sleepEvents_append, sleepEvents_collectLabelIds]
        rfl

theorem runLoopV2_ok_spec (src mid : String) (dry : Bool)
    (imp : String → Except String String) (es : List EmailWithLabels) :
    ∀ st, (runLoopV2 src mid dry imp st es).2.2 = none →
      ∃ k, (runLoopV2 src mid dry imp st es).1.transferred = st.transferred + k ∧
        sleepEvents (runLoopV2 src mid dry imp st es).2.1 = List.replicate k 100 := by
  induction es with
  | nil =>
    intro st _
    exact ⟨0, by rw [runLoopV2_nil]; rfl, by rw [runLoopV2_nil]; rfl⟩
  | cons em es ih =>
    intro st h
    cases hp : (processOneEmail src mid dry imp st em).2.2 with
    | some err =>
      rw [runLoopV2_cons_err src mid dry imp st em es err hp] at h
      simp at h
    | none =>
      have hspec := processOneEmail_ok_spec src mid dry imp st em hp
      have h' : (runLoopV2 src mid dry imp (processOneEmail src mid dry imp st em).1 es).2.2
          = none := by
        rw [runLoopV2_cons_ok src mid dry imp st em es hp] at h
        exact h
      obtain ⟨k, hk, hs⟩ := ih _ h'
      refine ⟨k + 1, ?_, ?_⟩
      · rw [runLoopV2_cons_ok src mid dry imp st em es hp]
        show (runLoopV2 src mid dry imp (processOneEmail src mid dry imp st em).1 es).1.transferred
          = st.transferred + (k + 1)
        omega
      · rw [runLoopV2_cons_ok src mid dry imp st em es hp]
        show sleepEvents ((processOneEmail src mid dry imp st em).2.1
          ++ (runLoopV2 src mid dry imp (processOneEmail src mid dry imp st em).1 es).2.1)
          = List.replicate (k + 1) 100
        rw [sleepEvents_append, hspec.2, hs]
        simp [List.replicate_succ]

theorem processMsgV1_count_sleep (mid sid : String) (dry : Bool) (dest : DestState)
    (m : SrcMsg) :
    sleepEvents (processMsgV1 mid sid dry dest m).2.2 =
      List.replicate (processMsgV1 mid sid dry dest m).2.1 100 := by
  cases hck : checkIfEmailExists dest.msgs (subjectOf m) m.internalDate with
  | true => rw [processMsgV1_skip mid sid dry dest m hck]; rfl
  | false =>
    cases dry with
    | true => rw [processMsgV1_dry_new mid sid dest m hck]; rfl
    | false => rw [processMsgV1_live_new mid sid dest m hck]; rfl

theorem msgLoopV1_count_sleep (mid sid : String) (dry : Bool) (ms : List SrcMsg) :
    ∀ dest, sleepEvents (msgLoopV1 mid sid dry dest ms).2.2 =
      List.replicate (msgLoopV1 mid sid dry dest ms).2.1 100 := by
  induction ms with
  | nil => intro dest; rw [msgLoopV1_nil]; rfl
  | cons m ms ih =>
    intro dest
    rw [msgLoopV1_cons]
    show sleepEvents ((processMsgV1 mid sid dry dest m).2.2
        ++ (msgLoopV1 mid sid dry (processMsgV1 mid sid dry dest m).1 ms).2.2)
      = List.replicate ((processMsgV1 mid sid dry dest m).2.1
        + (msgLoopV1 mid sid dry (processMsgV1 mid sid dry dest m).1 ms).2.1) 100
    rw [sleepEvents_append, processMsgV1_count_sleep, ih, List.replicate_add]

theorem transferEmailsForLabel_count_sleep (api : SourceApiV1) (src : String)
    (label : EmailLabel) (mid : String) (dry : Bool) (dest : DestState) :
    sleepEvents (transferEmailsForLabel api src label mid dry dest).2.2 =
      List.replicate (transferEmailsForLabel api src label mid dry dest).1 100 := by
  cases hne : (api.msgsOf label.id).isEmpty with
  | true => rw [transferEmailsForLabel_noMsgs api src label mid dry dest hne]; rfl
  | false =>
    cases dry with
    | true =>
      rw [transferEmailsForLabel_dry api src label mid dest hne]
      show sleepEvents (ApiEvent.listByLabel label.id
          :: (msgLoopV1 mid ("dry-run-sublabel-" ++ label.id) true dest (api.msgsOf label.id)).2.2)
        = List.replicate (msgLoopV1 mid ("dry-run-sublabel-" ++ label.id) true dest
            (api.msgsOf label.id)).2.1 100
      rw [show ApiEvent.listByLabel label.id
          :: (msgLoopV1 mid ("dry-run-sublabel-" ++ label.id) true dest (api.msgsOf label.id)).2.2
        = [ApiEvent.listByLabel label.id]
          ++ (msgLoopV1 mid ("dry-run-sublabel-" ++ label.id) true dest
              (api.msgsOf label.id)).2.2 from rfl]
      rw [sleepEvents_append, msgLoopV1_count_sleep]
      rfl
    | false =>
      rw [transferEmailsForLabel_live api src label mid dest hne]
      show sleepEvents (ApiEvent.listByLabel label.id
          :: ((createOrGetLabel dest.labels (src ++ "/" ++ label.name)).2.2
            ++ (msgLoopV1 mid (createOrGetLabel dest.labels (src ++ "/" ++ label.name)).1 false
                 { dest with labels := (createOrGetLabel dest.labels (src ++ "/" ++ label.name)).2.1 }
                 (api.msgsOf label.id)).2.2))
        = List.replicate (msgLoopV1 mid (createOrGetLabel dest.labels (src ++ "/" ++ label.name)).1
            false
            { dest with labels := (createOrGetLabel dest.labels (src ++ "/" ++ label.name)).2.1 }
            (api.msgsOf label.id)).2.1 100
      rw [show ∀ (a : ApiEvent) (x y : List ApiEvent), a :: (x ++ y) = [a] ++ x ++ y
        from fun a x y => rfl]
      rw [sleepEvents_append, sleepEvents_append, sleepEvents_createOrGetLabel,
        msgLoopV1_count_sleep]
      rfl

theorem specialsLoopV1_count_sleep (api : SourceApiV1) (src mid : String) (dry : Bool)
    (sps : List String) :
    ∀ dest, sleepEvents (specialsLoopV1 api src mid dry dest sps).2.2 =
      List.replicate (specialsLoopV1 api src mid dry dest sps).2.1 100 := by
  induction sps with
  | nil => intro dest; rw [specialsLoopV1_nil]; rfl
  | cons sp sps ih =>
    intro dest
    rw [specialsLoopV1_cons]
    show sleepEvents ((transferEmailsForLabel api src ⟨sp, sp⟩ mid dry dest).2.2
        ++ (specialsLoopV1 api src mid dry
            (transferEmailsForLabel api src ⟨sp, sp⟩ mid dry dest).2.1 sps).2.2)
      = List.replicate ((transferEmailsForLabel api src ⟨sp, sp⟩ mid dry dest).1
        + (specialsLoopV1 api src mid dry
            (transferEmailsForLabel api src ⟨sp, sp⟩ mid dry dest).2.1 sps).2.1) 100
    rw [sleepEvents_append, transferEmailsForLabel_count_sleep, ih, List.replicate_add]

theorem ite_pos_self (n : ℕ) : (if 0 < n then n else 0) = n := by
  cases n <;> simp

theorem otherLabelsLoopV1_count_sleep (api : SourceApiV1) (src mid : String) (dry : Bool)
    (ls : List EmailLabel) :
    ∀ dest, sleepEvents (otherLabelsLoopV1 api src mid dry dest ls).2.2.2 =
      List.replicate (otherLabelsLoopV1 api src mid dry dest ls).2.2.1 100 := by
  induction ls with
  | nil => intro dest; rw [otherLabelsLoopV1_nil]; rfl
  | cons l ls ih =>
    intro dest
    rw [otherLabelsLoopV1_cons]
    show sleepEvents ((transferEmailsForLabel api src l mid dry dest).2.2
        ++ (otherLabelsLoopV1 api src mid dry
            (transferEmailsForLabel api src l mid dry dest).2.1 ls).2.2.2)
      = List.replicate ((if 0 < (transferEmailsForLabel api src l mid dry dest).1
          then (transferEmailsForLabel api src l mid dry dest).1 else 0)
        + (otherLabelsLoopV1 api src mid dry
            (transferEmailsForLabel api src l mid dry dest).2.1 ls).2.2.1) 100
    rw [sleepEvents_append, transferEmailsForLabel_count_sleep, ih, ite_pos_self,
      List.replicate_add]

theorem sleepEvents_countPhaseV1 (sourceLabels : List EmailLabel) :
    sleepEvents (countPhaseV1 sourceLabels) = [] := by
  apply sleepEvents_eq_nil
  intro e he ms
  simp only [countPhaseV1, List.mem_append, List.mem_map] at he
  rcases he with ⟨_, _, rfl⟩ | ⟨_, _, rfl⟩ <;> simp

theorem transferEmailsV2_ok_sleep (api : SourceApi) (imp : String → Except String String)
    (dest0 : List EmailLabel) (src : String) (dry : Bool) (answer : String) (s : TransferSummary)
    (hok : (transferEmailsV2 api imp dest0 src dry answer).1 = RunOutcome.ok s) :
    sleepEvents (transferEmailsV2 api imp dest0 src dry answer).2.2 =
      List.replicate s.totalEmailsTransferred 100 := by
  cases hc : promptForConfirmation answer with
  | false =>
    rw [transferEmailsV2_declined api imp dest0 src dry answer hc] at hok
    exact absurd hok (by simp)
  | true =>
    cases dry with
    | true =>
      have hl := runLoopV2_dry_none src "dry-run-main-label" imp (getAllUniqueEmails api).1
        ⟨[], dest0, [src], 0⟩
      obtain ⟨k, hk, hs⟩ := runLoopV2_ok_spec src "dry-run-main-label" true imp
        (getAllUniqueEmails api).1 ⟨[], dest0, [src], 0⟩ hl
      rw [transferEmailsV2_dry api imp dest0 src answer hc hl] at hok ⊢
      simp only [] at hok
      have hok' : RunOutcome.ok
          (⟨(runLoopV2 src "dry-run-main-label" true imp ⟨[], dest0, [src], 0⟩
              (getAllUniqueEmails api).1).1.labelsCreated,
            (runLoopV2 src "dry-run-main-label" true imp ⟨[], dest0, [src], 0⟩
              (getAllUniqueEmails api).1).1.transferred⟩ : TransferSummary)
          = RunOutcome.ok s := hok
      have hT : s.totalEmailsTransferred = k := by
        rw [← (RunOutcome.ok.injEq _ _).mp hok']
        show (runLoopV2 src "dry-run-main-label" true imp ⟨[], dest0, [src], 0⟩
          (getAllUniqueEmails api).1).1.transferred = k
        rw [hk]
        simp
      show sleepEvents ((getAllUniqueEmails api).2
          ++ (runLoopV2 src "dry-run-main-label" true imp ⟨[], dest0, [src], 0⟩
              (getAllUniqueEmails api).1).2.1)
        = List.replicate s.totalEmailsTransferred 100
      rw [sleepEvents_append, sleepEvents_getAllUniqueEmails, hs, hT, List.nil_append]
    | false =>
      cases hl : (runLoopV2 src (createOrGetLabel dest0 src).1 false imp
          ⟨[], (createOrGetLabel dest0 src).2.1, [src], 0⟩ (getAllUniqueEmails api).1).2.2 with
      | some err =>
        rw [transferEmailsV2_live_fail api imp dest0 src answer err hc hl] at hok
        exact absurd hok (by simp)
      | none =>
        obtain ⟨k, hk, hs⟩ := runLoopV2_ok_spec src (createOrGetLabel dest0 src).1 false imp
          (getAllUniqueEmails api).1 ⟨[], (createOrGetLabel dest0 src).2.1, [src], 0⟩ hl
        rw [transferEmailsV2_live_done api imp dest0 src answer hc hl] at hok ⊢
        have hok' : RunOutcome.ok
            (⟨(runLoopV2 src (createOrGetLabel dest0 src).1 false imp
                ⟨[], (createOrGetLabel dest0 src).2.1, [src], 0⟩
                (getAllUniqueEmails api).1).1.labelsCreated,
              (runLoopV2 src (createOrGetLabel dest0 src).1 false imp
                ⟨[], (createOrGetLabel dest0 src).2.1, [src], 0⟩
                (getAllUniqueEmails api).1).1.transferred⟩ : TransferSummary)
            = RunOutcome.ok s := hok
        have hT : s.totalEmailsTransferred = k := by
          rw [← (RunOutcome.ok.injEq _ _).mp hok']
          show (runLoopV2 src (createOrGetLabel dest0 src).1 false imp
            ⟨[], (createOrGetLabel dest0 src).2.1, [src], 0⟩
            (getAllUniqueEmails api).1).1.transferred = k
          rw [hk]
          simp
        show sleepEvents ((getAllUniqueEmails api).2 ++ (createOrGetLabel dest0 src).2.2
            ++ (runLoopV2 src (createOrGetLabel dest0 src).1 false imp
                ⟨[], (createOrGetLabel dest0 src).2.1, [src], 0⟩
                (getAllUniqueEmails api).1).2.1)
          = List.replicate s.totalEmailsTransferred 100
        rw [sleepEvents_append, sleepEvents_append, sleepEvents_getAllUniqueEmails,
          sleepEvents_createOrGetLabel, hs, hT, List.nil_append, List.nil_append]

theorem transferEmailsV1_ok_sleep (api : SourceApiV1) (dest0 : DestState) (src : String)
    (dry : Bool) (answer : String) (s : TransferSummary)
    (hok : (transferEmailsV1 api dest0 src dry answer).1 = RunOutcome.ok s) :
    sleepEvents (transferEmailsV1 api dest0 src dry answer).2.2 =
      List.replicate s.totalEmailsTransferred 100 := by
  cases hc : promptForConfirmation answer with
  | false =>
    rw [transferEmailsV1_declined api dest0 src dry answer hc] at hok
    exact absurd hok (by simp)
  | true =>
    cases dry with
    | true =>
      rw [transferEmailsV1_dry api dest0 src answer hc] at hok ⊢
      have hok' : RunOutcome.ok
          (⟨src :: (otherLabelsLoopV1 api src "dry-run-main-label" true
              (specialsLoopV1 api src "dry-run-main-label" true dest0 specialLabels).1
              ((getLabelsV1 api).1.filter (fun l => !(specialLabels.contains l.name)))).2.1,
            (specialsLoopV1 api src "dry-run-main-label" true dest0 specialLabels).2.1
             + (otherLabelsLoopV1 api src "dry-run-main-label" true
                (specialsLoopV1 api src "dry-run-main-label" true dest0 specialLabels).1
                ((getLabelsV1 api).1.filter (fun l => !(specialLabels.contains l.name)))).2.2.1⟩
           : TransferSummary) = RunOutcome.ok s := hok
      have hT : s.totalEmailsTransferred =
          (specialsLoopV1 api src "dry-run-main-label" true dest0 specialLabels).2.1
           + (otherLabelsLoopV1 api src "dry-run-main-label" true
              (specialsLoopV1 api src "dry-run-main-label" true dest0 specialLabels).1
              ((getLabelsV1 api).1.filter (fun l => !(specialLabels.contains l.name)))).2.2.1 := by
        rw [← (RunOutcome.ok.injEq _ _).mp hok']
      show sleepEvents (([ApiEvent.labelsList] ++ countPhaseV1 (getLabelsV1 api).1)
          ++ (specialsLoopV1 api src "dry-run-main-label" true dest0 specialLabels).2.2
          ++ (otherLabelsLoopV1 api src "dry-run-main-label" true
              (specialsLoopV1 api src "dry-run-main-label" true dest0 specialLabels).1
              ((getLabelsV1 api).1.filter (fun l => !(specialLabels.contains l.name)))).2.2.2)
        = List.replicate s.totalEmailsTransferred 100
      rw [sleepEvents_append, sleepEvents_append, sleepEvents_append,
        sleepEvents_countPhaseV1, specialsLoopV1_count_sleep, otherLabelsLoopV1_count_sleep,
        hT, List.replicate_add]
      rfl
    | false =>
      rw [transferEmailsV1_live api dest0 src answer hc] at hok ⊢
      have hok' : RunOutcome.ok
          (⟨src :: (otherLabelsLoopV1 api src (createOrGetLabel dest0.labels src).1 false
              (specialsLoopV1 api src (createOrGetLabel dest0.labels src).1 false
                { dest0 with labels := (createOrGetLabel dest0.labels src).2.1 } specialLabels).1
              ((getLabelsV1 api).1.filter (fun l => !(specialLabels.contains l.name)))).2.1,
            (specialsLoopV1 api src (createOrGetLabel dest0.labels src).1 false
              { dest0 with labels := (createOrGetLabel dest0.labels src).2.1 } specialLabels).2.1
             + (otherLabelsLoopV1 api src (createOrGetLabel dest0.labels src).1 false
                (specialsLoopV1 api src (createOrGetLabel dest0.labels src).1 false
                  { dest0 with labels := (createOrGetLabel dest0.labels src).2.1 } specialLabels).1
                ((getLabelsV1 api).1.filter (fun l => !(specialLabels.contains l.name)))).2.2.1⟩
           : TransferSummary) = RunOutcome.ok s := hok
      have hT : s.totalEmailsTransferred =
          (specialsLoopV1 api src (createOrGetLabel dest0.labels src).1 false
            { dest0 with labels := (createOrGetLabel dest0.labels src).2.1 } specialLabels).2.1
           + (otherLabelsLoopV1 api src (createOrGetLabel dest0.labels src).1 false
              (specialsLoopV1 api src (createOrGetLabel dest0.labels src).1 false
                { dest0 with labels := (createOrGetLabel dest0.labels src).2.1 } specialLabels).1
              ((getLabelsV1 api).1.filter (fun l => !(specialLabels.contains l.name)))).2.2.1 := by
        rw [← (RunOutcome.ok.injEq _ _).mp hok']
      show sleepEvents (([ApiEvent.labelsList] ++ countPhaseV1 (getLabelsV1 api).1)
          ++ (createOrGetLabel dest0.labels src).2.2
          ++ (specialsLoopV1 api src (createOrGetLabel dest0.labels src).1 false
              { dest0 with labels := (createOrGetLabel dest0.labels src).2.1 } specialLabels).2.2
          ++ (otherLabelsLoopV1 api src (createOrGetLabel dest0.labels src).1 false
              (specialsLoopV1 api src (createOrGetLabel dest0.labels src).1 false
                { dest0 with labels := (createOrGetLabel dest0.labels src).2.1 } specialLabels).1
              ((getLabelsV1 api).1.filter (fun l => !(specialLabels.contains l.name)))).2.2.2)
        = List.replicate s.totalEmailsTransferred 100
      rw [sleepEvents_append, sleepEvents_append, sleepEvents_append, sleepEvents_append,
        sleepEvents_countPhaseV1, sleepEvents_createOrGetLabel, specialsLoopV1_count_sleep,
        otherLabelsLoopV1_count_sleep, hT, List.replicate_add]
      rfl

/-! ## C1: sequencing and pacing of remote calls -/

/-- C1 counterexample: in a live variant-2 run over a two-message mailbox,
an outbound `messages.import` call is issued while the run's whole trace
contains no `waitForToken` acquisition at all — so this import (like every
other call of the run) is not preceded by a token acquisition. -/
theorem C1_counterexample :
    ApiEvent.importCall "raw-m1" ∈ (transferEmailsV2 apiA importOk [] "src@x" false "y").2.2 ∧
    ApiEvent.waitForTokenCall ∉ (transferEmailsV2 apiA importOk [] "src@x" false "y").2.2 := by
  constructor
  · decide
  · decide

/-- C1 (amended): all remote calls of a run are issued sequentially from a
single per-message loop, but none is preceded by a rate-token acquisition:
in both variants the run trace never contains a `waitForToken` (or
`exponentialBackoff`) invocation, even though the shared limiter exists
with its default sustained rate of 2 tokens per second; pacing is instead
a fixed 100 ms `delay` after each transferred message (one sleep per
counted message in every completed run). -/
theorem C1_fixed_delay_pacing (api : SourceApi) (imp : String → Except String String)
    (dest0 : List EmailLabel) (src : String) (dry : Bool) (answer : String)
    (api1 : SourceApiV1) (dest1 : DestState) (src1 : String) (dry1 : Bool)
    (answer1 : String) (t : ℚ) :
    (∀ e ∈ (transferEmailsV2 api imp dest0 src dry answer).2.2, isPacing e = false) ∧
    (∀ e ∈ (transferEmailsV1 api1 dest1 src1 dry1 answer1).2.2, isPacing e = false) ∧
    (rateLimiter t).tokensPerSecond = 2 ∧
    (∀ s, (transferEmailsV2 api imp dest0 src dry answer).1 = RunOutcome.ok s →
        sleepEvents (transferEmailsV2 api imp dest0 src dry answer).2.2 =
          List.replicate s.totalEmailsTransferred 100) ∧
    (∀ s, (transferEmailsV1 api1 dest1 src1 dry1 answer1).1 = RunOutcome.ok s →
        sleepEvents (transferEmailsV1 api1 dest1 src1 dry1 answer1).2.2 =
          List.replicate s.totalEmailsTransferred 100) :=
  ⟨pacing_transferEmailsV2 api imp dest0 src dry answer,
   pacing_transferEmailsV1 api1 dest1 src1 dry1 answer1,
   rfl,
   fun s hok => transferEmailsV2_ok_sleep api imp dest0 src dry answer s hok,
   fun s hok => transferEmailsV1_ok_sleep api1 dest1 src1 dry1 answer1 s hok⟩

theorem C1_fixed_delay_pacing_witness :
    ((transferEmailsV2 apiA importOk [] "src@x" false "y").1 =
      RunOutcome.ok ⟨["src@x", "src@x/Work"], 2⟩) ∧
    sleepEvents (transferEmailsV2 apiA importOk [] "src@x" false "y").2.2 =
      List.replicate 2 100 :=
  have hok : (transferEmailsV2 apiA importOk [] "src@x" false "y").1 =
      RunOutcome.ok ⟨["src@x", "src@x/Work"], 2⟩ := by decide
  ⟨hok, (C1_fixed_delay_pacing apiA importOk [] "src@x" false "y"
      apiC8 ⟨[], []⟩ "src@x" true "y" 0).2.2.2.1 ⟨["src@x", "src@x/Work"], 2⟩ hok⟩

/-! ## C2: error handling — no retry, and a per-item failure aborts the run -/

theorem importEvents_fetchEmails (api : SourceApi) (ids : List String) :
    importEvents (fetchEmails api ids).2 = [] := by
  apply importEvents_eq_nil
  intro e he r
  rcases mem_fetchEmails_events api ids e he with ⟨i, rfl⟩ | ⟨i, rfl⟩ <;> simp

theorem importEvents_getAllUniqueEmails (api : SourceApi) :
    importEvents (getAllUniqueEmails api).2 = [] := by
  apply importEvents_eq_nil
  intro e he r
  have h : e = ApiEvent.listCall none 500 ∨
      e ∈ (fetchEmails api ((api.listResp none 500).messages.getD [])).2 := by
    simpa [getAllUniqueEmails] using he
  rcases h with rfl | h
  · simp
  · rcases mem_fetchEmails_events api _ e h with ⟨i, rfl⟩ | ⟨i, rfl⟩ <;> simp

theorem importEvents_createOrGetLabel (ls : List EmailLabel) (n : String) :
    importEvents (createOrGetLabel ls n).2.2 = [] := by
  apply importEvents_eq_nil
  intro e he r
  rcases mem_createOrGetLabel_events ls n e he with rfl | rfl <;> simp

theorem importEvents_collectLabelIds (src : String) (ls : List String) (st : V2State) :
    importEvents (collectLabelIds src st ls).2.2 = [] := by
  apply importEvents_eq_nil
  intro e he r
  obtain ⟨l, _, _, h | h⟩ := mem_collectLabelIds_events src ls st e he <;> subst h <;> simp

theorem processOneEmail_live_ok_imports (src mid : String)
    (imp : String → Except String String) (st : V2State) (email : EmailWithLabels)
    (iid : String) (himp : imp email.raw = Except.ok iid) :
    importEvents (processOneEmail src mid false imp st email).2.1 = [email.raw] := by
  have htr : (processOneEmail src mid false imp st email).2.1 =
      [ApiEvent.importCall email.raw] ++ (collectLabelIds src st email.labels).2.2
        ++ [ApiEvent.modifyCall iid (mid :: (collectLabelIds src st email.labels).2.1),
            ApiEvent.sleepDelay 100] := by
    rw [processOneEmail_live_ok src mid imp st email iid himp]
    rfl
  rw [htr, importEvents_append, importEvents_append, importEvents_collectLabelIds]
  rfl

theorem runLoopV2_abort (src mid : String) (imp : String → Except String String)
    (bad : EmailWithLabels) (post : List EmailWithLabels) (err : String)
    (hbad : imp bad.raw = Except.error err) :
    ∀ pre : List EmailWithLabels, (∀ p ∈ pre, ∃ i, imp p.raw = Except.ok i) →
    ∀ st, (runLoopV2 src mid false imp st (pre ++ bad :: post)).2.2 = some err ∧
      importEvents (runLoopV2 src mid false imp st (pre ++ bad :: post)).2.1 =
        pre.map (fun p => p.raw) ++ [bad.raw] := by
  intro pre
  induction pre with
  | nil =>
    intro _ st
    have hp : (processOneEmail src mid false imp st bad).2.2 = some err := by
      rw [processOneEmail_live_err src mid imp st bad err hbad]
    rw [List.nil_append, runLoopV2_cons_err src mid false imp st bad post err hp]
    refine ⟨rfl, ?_⟩
    show importEvents (processOneEmail src mid false imp st bad).2.1
      = List.map (fun p : EmailWithLabels => p.raw) [] ++ [bad.raw]
    rw [processOneEmail_live_err src mid imp st bad err hbad]
    rfl
  | cons p pre ih =>
    intro hpre st
    obtain ⟨i, hi⟩ := hpre p (List.mem_cons_self _ _)
    have hp : (processOneEmail src mid false imp st p).2.2 = none := by
      rw [processOneEmail_live_ok src mid imp st p i hi]
    have hcons : (p :: pre) ++ bad :: post = p :: (pre ++ bad :: post) := rfl
    rw [hcons, runLoopV2_cons_ok src mid false imp st p (pre ++ bad :: post) hp]
    have ih' := ih (fun q hq => hpre q (List.mem_cons_of_mem _ hq))
      ((processOneEmail src mid false imp st p).1)
    constructor
    · show (runLoopV2 src mid false imp (processOneEmail src mid false imp st p).1
        (pre ++ bad :: post)).2.2 = some err
      exact ih'.1
    · show importEvents ((processOneEmail src mid false imp st p).2.1
          ++ (runLoopV2 src mid false imp (processOneEmail src mid false imp st p).1
              (pre ++ bad :: post)).2.1)
        = List.map (fun q : EmailWithLabels => q.raw) (p :: pre) ++ [bad.raw]
      rw [importEvents_append, processOneEmail_live_ok_imports src mid imp st p i hi, ih'.2]
      simp

/-- C2 (amended): the transfer loop contains no retry and never invokes the
backoff helper; the first per-message operation that fails (here: a
`messages.import` rejection, e.g. with a rate-limit signature) is attempted
exactly once, the whole run aborts with that error, and no later message is
processed — the import calls issued are exactly those of the preceding
successful messages plus the single failed attempt. -/
theorem C2_no_retry_failure_aborts (api : SourceApi) (imp : String → Except String String)
    (dest0 : List EmailLabel) (src answer : String)
    (pre post : List EmailWithLabels) (bad : EmailWithLabels) (err : String)
    (hc : promptForConfirmation answer = true)
    (hsplit : (getAllUniqueEmails api).1 = pre ++ bad :: post)
    (hpre : ∀ p ∈ pre, ∃ i, imp p.raw = Except.ok i)
    (hbad : imp bad.raw = Except.error err) :
    (transferEmailsV2 api imp dest0 src false answer).1 = RunOutcome.failed err ∧
    importEvents (transferEmailsV2 api imp dest0 src false answer).2.2 =
      pre.map (fun p => p.raw) ++ [bad.raw] ∧
    ∀ e ∈ (transferEmailsV2 api imp dest0 src false answer).2.2, isPacing e = false := by
  have habort := runLoopV2_abort src (createOrGetLabel dest0 src).1 imp bad post err hbad
    pre hpre ⟨[], (createOrGetLabel dest0 src).2.1, [src], 0⟩
  have hl : (runLoopV2 src (createOrGetLabel dest0 src).1 false imp
      ⟨[], (createOrGetLabel dest0 src).2.1, [src], 0⟩
      (getAllUniqueEmails api).1).2.2 = some err := by
    rw [hsplit]; exact habort.1
  refine ⟨?_, ?_, pacing_transferEmailsV2 api imp dest0 src false answer⟩
  · rw [transferEmailsV2_live_fail api imp dest0 src answer err hc hl]
  · have htr : (transferEmailsV2 api imp dest0 src false answer).2.2 =
        (getAllUniqueEmails api).2 ++ (createOrGetLabel dest0 src).2.2
          ++ (runLoopV2 src (createOrGetLabel dest0 src).1 false imp
              ⟨[], (createOrGetLabel dest0 src).2.1, [src], 0⟩
              (getAllUniqueEmails api).1).2.1 := by
      rw [transferEmailsV2_live_fail api imp dest0 src answer err hc hl]
    rw [htr, importEvents_append, importEvents_append, importEvents_getAllUniqueEmails,
      importEvents_createOrGetLabel, hsplit, habort.2]
    simp

/-- C2 counterexample: with the first message's import rejected with a
rate-limit signature, the run is not retried (the failing raw body appears
exactly once in the import calls), the second message is never imported,
the whole run aborts with the error — and the trace holds no backoff (or
token) wait at all.  The claim's promised per-item recovery and
loop-continuation do not happen. -/
theorem C2_counterexample :
    (transferEmailsV2 apiA importFailFirst [] "src@x" false "y").1 =
      RunOutcome.failed "rateLimitExceeded" ∧
    importEvents (transferEmailsV2 apiA importFailFirst [] "src@x" false "y").2.2 =
      ["raw-m1"] ∧
    List.filter isPacing (transferEmailsV2 apiA importFailFirst [] "src@x" false "y").2.2
      = [] := by
  refine ⟨?_, ?_, ?_⟩ <;> decide

theorem C2_no_retry_failure_aborts_witness :
    (promptForConfirmation "y" = true ∧
     (getAllUniqueEmails apiA).1 =
       [] ++ (⟨"m1", "raw-m1", ["Work"]⟩ : EmailWithLabels)
         :: [⟨"m2", "raw-m2", ["Work"]⟩] ∧
     importFailFirst "raw-m1" = Except.error "rateLimitExceeded") ∧
    (transferEmailsV2 apiA importFailFirst [] "src@x" false "y").1 =
      RunOutcome.failed "rateLimitExceeded" :=
  have h1 : promptForConfirmation "y" = true := by decide
  have h2 : (getAllUniqueEmails apiA).1 =
      [] ++ (⟨"m1", "raw-m1", ["Work"]⟩ : EmailWithLabels)
        :: [⟨"m2", "raw-m2", ["Work"]⟩] := by decide
  have h3 : importFailFirst "raw-m1" = Except.error "rateLimitExceeded" := by
    simp [importFailFirst]
  ⟨⟨h1, h2, h3⟩,
   (C2_no_retry_failure_aborts apiA importFailFirst [] "src@x" "y" []
      [⟨"m2", "raw-m2", ["Work"]⟩] ⟨"m1", "raw-m1", ["Work"]⟩ "rateLimitExceeded"
      h1 h2 (fun p hp => absurd hp (List.not_mem_nil p)) h3).1⟩

/-! ## C3: pagination -/

/-- C3 (amended): `getAllUniqueEmails` issues exactly one `messages.list`
call, with no page token and `maxResults 500`; only the messages of that
single response are processed, in response order; the `nextPageToken` is
ignored. -/
theorem C3_single_unpaginated_list (api : SourceApi) :
    listEvents (getAllUniqueEmails api).2 = [(none, 500)] ∧
    (getAllUniqueEmails api).1.map (fun e => e.id) =
      (api.listResp none 500).messages.getD [] := by
  constructor
  · show listEvents (ApiEvent.listCall none 500 :: (fetchEmails api _).2) = _
    have hz : listEvents (fetchEmails api ((api.listResp none 500).messages.getD [])).2 = [] := by
      apply listEvents_eq_nil
      intro e he t n
      rcases mem_fetchEmails_events api _ e he with ⟨i, rfl⟩ | ⟨i, rfl⟩ <;> simp
    simp [listEvents] at hz ⊢
    exact hz
  · exact fetchEmails_ids api _

/-- C3 counterexample: on a source mailbox requiring three pages (the first
response carries `nextPageToken "page2"`, the second `"page3"`), the code
issues exactly one `listMessages` call — with no page token and
`maxResults 500`, not 100 — and processes only the first response's
message `m1`; the second page's `m2` is never fetched. -/
theorem C3_counterexample :
    listEvents (getAllUniqueEmails api3).2 = [(none, 500)] ∧
    (getAllUniqueEmails api3).1.map (fun e => e.id) = ["m1"] ∧
    "m2" ∉ (getAllUniqueEmails api3).1.map (fun e => e.id) := by
  refine ⟨?_, ?_, ?_⟩ <;> decide

/-! ## C10: duplicate detection in variant 1 -/

theorem msgLoopV1_dry_spec (mid sid : String) (ms : List SrcMsg) :
    ∀ dest, (msgLoopV1 mid sid true dest ms).1 = dest ∧
      (msgLoopV1 mid sid true dest ms).2.1 =
        (ms.filter
          (fun x => !(checkIfEmailExists dest.msgs (subjectOf x) x.internalDate))).length := by
  induction ms with
  | nil => intro dest; rw [msgLoopV1_nil]; exact ⟨rfl, rfl⟩
  | cons m ms ih =>
    intro dest
    rw [msgLoopV1_cons]
    cases hck : checkIfEmailExists dest.msgs (subjectOf m) m.internalDate with
    | true =>
      rw [processMsgV1_skip mid sid true dest m hck]
      constructor
      · show (msgLoopV1 mid sid true dest ms).1 = dest
        exact (ih dest).1
      · show 0 + (msgLoopV1 mid sid true dest ms).2.1 = _
        rw [List.filter_cons_of_neg (by simp [hck]), (ih dest).2, Nat.zero_add]
    | false =>
      rw [processMsgV1_dry_new mid sid dest m hck]
      constructor
      · show (msgLoopV1 mid sid true dest ms).1 = dest
        exact (ih dest).1
      · show 1 + (msgLoopV1 mid sid true dest ms).2.1 = _
        rw [List.filter_cons_of_pos (by simp [hck]), (ih dest).2, List.length_cons]
        omega

/-- C10: before transferring each message, variant 1 queries the
destination for an existing message whose Subject matches and whose date
lies within ±1 second of the source message's `internalDate`; on a hit the
message is silently skipped — no raw fetch, no import, no label
application, no count, destination unchanged — and this happens identically
in live and dry mode.  The existence query is issued for every processed
message, dry run included, and the dry-run total is exactly the number of
source messages without a match in the destination's current contents — so
dry-run and live counts depend on what the destination already holds. -/
theorem C10_dedup_check_and_skip (mid sid : String) (dry : Bool) (dest : DestState)
    (m : SrcMsg) (ms : List SrcMsg)
    (h : checkIfEmailExists dest.msgs (subjectOf m) m.internalDate = true) :
    processMsgV1 mid sid dry dest m =
      (dest, 0, [ApiEvent.getMetadata m.id,
                 ApiEvent.existsQuery (subjectOf m) m.internalDate]) ∧
    (∀ dry' : Bool, ApiEvent.existsQuery (subjectOf m) m.internalDate
        ∈ (processMsgV1 mid sid dry' dest m).2.2) ∧
    (msgLoopV1 mid sid true dest ms).2.1 =
      (ms.filter
        (fun x => !(checkIfEmailExists dest.msgs (subjectOf x) x.internalDate))).length ∧
    (msgLoopV1 mid sid true dest ms).1 = dest := by
  refine ⟨processMsgV1_skip mid sid dry dest m h, ?_, (msgLoopV1_dry_spec mid sid ms dest).2,
    (msgLoopV1_dry_spec mid sid ms dest).1⟩
  intro dry'
  cases hck : checkIfEmailExists dest.msgs (subjectOf m) m.internalDate with
  | true =>
    rw [processMsgV1_skip mid sid dry' dest m hck]
    simp
  | false =>
    cases dry' with
    | true =>
      rw [processMsgV1_dry_new mid sid dest m hck]
      simp
    | false =>
      rw [processMsgV1_live_new mid sid dest m hck]
      simp

theorem C10_dedup_check_and_skip_witness :
    checkIfEmailExists [⟨"Invoice", 1700000000000⟩] (subjectOf dupMsg2)
      dupMsg2.internalDate = true ∧
    processMsgV1 "main-id" "sub-id" false ⟨[⟨"Invoice", 1700000000000⟩], []⟩ dupMsg2 =
      (⟨[⟨"Invoice", 1700000000000⟩], []⟩, 0,
       [ApiEvent.getMetadata "d2", ApiEvent.existsQuery "Invoice" 1700000000000]) :=
  have h : checkIfEmailExists [⟨"Invoice", 1700000000000⟩] (subjectOf dupMsg2)
      dupMsg2.internalDate = true := by decide
  ⟨h, (C10_dedup_check_and_skip "main-id" "sub-id" false
      ⟨[⟨"Invoice", 1700000000000⟩], []⟩ dupMsg2 [] h).1⟩

/-! ## C7: declined confirmation -/

theorem mutating_getAllUniqueEmails (api : SourceApi) :
    ∀ e ∈ (getAllUniqueEmails api).2, e.isMutating = false := by
  intro e he
  have h : e = ApiEvent.listCall none 500 ∨
      e ∈ (fetchEmails api ((api.listResp none 500).messages.getD [])).2 := by
    simpa [getAllUniqueEmails] using he
  rcases h with rfl | h
  · rfl
  · rcases mem_fetchEmails_events api _ e h with ⟨i, rfl⟩ | ⟨i, rfl⟩ <;> rfl

theorem mutating_countPhaseV1 (sourceLabels : List EmailLabel) :
    ∀ e ∈ countPhaseV1 sourceLabels, e.isMutating = false := by
  intro e he
  simp only [countPhaseV1, List.mem_append, List.mem_map] at he
  rcases he with ⟨_, _, rfl⟩ | ⟨_, _, rfl⟩ <;> rfl

/-- C7 counterexample: on a declined confirmation the run does not return a
zero-progress summary at all — `transferEmails` never returns, the process
is terminated via `process.exit(0)`. -/
theorem C7_counterexample :
    (transferEmailsV2 apiA importOk [] "src@x" false "n").1 = RunOutcome.exited 0 ∧
    (transferEmailsV2 apiA importOk [] "src@x" false "n").1 ≠
      RunOutcome.ok ⟨[], 0⟩ := by
  refine ⟨?_, ?_⟩ <;> decide

/-- C7 (amended): when the user declines the confirmation prompt, both
variants terminate the whole process cleanly with exit code 0 before any
mutating remote call is issued (the trace up to that point holds only
reads); no summary value is returned by `transferEmails`, and the clean
exit code means the outcome is not treated as an error. -/
theorem C7_decline_exits_cleanly (api : SourceApi) (imp : String → Except String String)
    (dest0 : List EmailLabel) (src : String) (dry : Bool) (answer : String)
    (api1 : SourceApiV1) (dest1 : DestState) (src1 : String) (dry1 : Bool) (answer1 : String)
    (h2 : promptForConfirmation answer = false)
    (h1 : promptForConfirmation answer1 = false) :
    (transferEmailsV2 api imp dest0 src dry answer).1 = RunOutcome.exited 0 ∧
    (∀ e ∈ (transferEmailsV2 api imp dest0 src dry answer).2.2, e.isMutating = false) ∧
    (transferEmailsV1 api1 dest1 src1 dry1 answer1).1 = RunOutcome.exited 0 ∧
    (∀ e ∈ (transferEmailsV1 api1 dest1 src1 dry1 answer1).2.2, e.isMutating = false) := by
  refine ⟨?_, ?_, ?_, ?_⟩
  · rw [transferEmailsV2_declined api imp dest0 src dry answer h2]
  · intro e he
    rw [transferEmailsV2_declined api imp dest0 src dry answer h2] at he
    exact mutating_getAllUniqueEmails api e he
  · rw [transferEmailsV1_declined api1 dest1 src1 dry1 answer1 h1]
  · intro e he
    rw [transferEmailsV1_declined api1 dest1 src1 dry1 answer1 h1] at he
    simp only [List.mem_append, List.mem_singleton] at he
    rcases he with rfl | he
    · rfl
    · exact mutating_countPhaseV1 _ e he

theorem C7_decline_exits_cleanly_witness :
    (promptForConfirmation "n" = false ∧ promptForConfirmation "no" = false) ∧
    (transferEmailsV2 apiA importOk [] "src@x" false "n").1 = RunOutcome.exited 0 ∧
    (transferEmailsV1 apiC8 ⟨[], []⟩ "src@x" false "no").1 = RunOutcome.exited 0 :=
  have h2 : promptForConfirmation "n" = false := by decide
  have h1 : promptForConfirmation "no" = false := by decide
  ⟨⟨h2, h1⟩,
   (C7_decline_exits_cleanly apiA importOk [] "src@x" false "n"
      apiC8 ⟨[], []⟩ "src@x" false "no" h2 h1).1,
   (C7_decline_exits_cleanly apiA importOk [] "src@x" false "n"
      apiC8 ⟨[], []⟩ "src@x" false "no" h2 h1).2.2.1⟩

/-! ## C6: label memoization -/

theorem append_slash_inj (src a b : String) (h : src ++ "/" ++ a = src ++ "/" ++ b) :
    a = b := by
  have hd := congrArg String.data h
  simp only [String.data_append] at hd
  exact String.ext (List.append_cancel_left hd)

theorem ne_append_slash (src n : String) : src ≠ src ++ "/" ++ n := by
  intro h
  have hl := congrArg String.length h
  simp only [String.length_append] at hl
  have : "/".length = 1 := rfl
  omega

theorem mapLookup_nil (n : String) : mapLookup [] n = none := rfl

theorem mapLookup_append_of_isSome (m t : List (String × String)) (n : String)
    (h : (mapLookup m n).isSome = true) : mapLookup (m ++ t) n = mapLookup m n := by
  simp only [mapLookup] at h ⊢
  cases hf : m.find? (fun p => p.1 == n) with
  | none => rw [hf] at h; simp at h
  | some p => rw [List.find?_append, hf]; rfl

theorem mapLookup_append_singleton_of_ne (m : List (String × String)) (l id n : String)
    (hne : l ≠ n) (h : mapLookup m n = none) : mapLookup (m ++ [(l, id)]) n = none := by
  simp only [mapLookup] at h ⊢
  cases hf : m.find? (fun p => p.1 == n) with
  | some p => rw [hf] at h; simp at h
  | none =>
    rw [List.find?_append, hf]
    have hb : (l == n) = false := by simp [hne]
    simp [List.find?, hb]

theorem mapLookup_append_singleton_self (m : List (String × String)) (n id : String)
    (h : mapLookup m n = none) : mapLookup (m ++ [(n, id)]) n = some id := by
  simp only [mapLookup] at h ⊢
  cases hf : m.find? (fun p => p.1 == n) with
  | some p => rw [hf] at h; simp at h
  | none =>
    rw [List.find?_append, hf]
    simp [List.find?]

theorem mapLookup_eq_none_forall (m : List (String × String)) (n : String)
    (h : mapLookup m n = none) : ∀ i, (n, i) ∉ m := by
  intro i hmem
  simp only [mapLookup, Option.map_eq_none'] at h
  have := List.find?_eq_none.mp h (n, i) hmem
  simp at this

theorem lookupCount_createOrGetLabel_self (ls : List EmailLabel) (nm : String) :
    lookupCount (createOrGetLabel ls nm).2.2 nm = 1 := by
  cases hf : getLabelByName ls nm with
  | some l => rw [createOrGetLabel_found ls nm l hf]; simp [lookupCount]
  | none => rw [createOrGetLabel_missing ls nm hf]; simp [lookupCount]

theorem lookupCount_createOrGetLabel_ne (ls : List EmailLabel) (nm m : String) (h : nm ≠ m) :
    lookupCount (createOrGetLabel ls nm).2.2 m = 0 := by
  cases hf : getLabelByName ls nm with
  | some l => rw [createOrGetLabel_found ls nm l hf]; simp [lookupCount, h]
  | none => rw [createOrGetLabel_missing ls nm hf]; simp [lookupCount, h]

theorem lookupCount_getAllUniqueEmails (api : SourceApi) (m : String) :
    lookupCount (getAllUniqueEmails api).2 m = 0 := by
  apply lookupCount_eq_zero
  intro e he
  have h : e = ApiEvent.listCall none 500 ∨
      e ∈ (fetchEmails api ((api.listResp none 500).messages.getD [])).2 := by
    simpa [getAllUniqueEmails] using he
  rcases h with rfl | h
  · simp
  · rcases mem_fetchEmails_events api _ e h with ⟨i, rfl⟩ | ⟨i, rfl⟩ <;> simp

theorem collectLabelIds_map_append (src : String) (ls : List String) :
    ∀ st, ∃ t, (collectLabelIds src st ls).1.labelMap = st.labelMap ++ t := by
  induction ls with
  | nil => intro st; exact ⟨[], by rw [collectLabelIds_nil]; simp⟩
  | cons l ls ih =>
    intro st
    cases hk : keepLabel l with
    | false => rw [collectLabelIds_cons_skip src st l ls hk]; exact ih st
    | true =>
      cases hm : mapLookup st.labelMap l with
      | some id => rw [collectLabelIds_cons_hit src st l ls id hk hm]; exact ih st
      | none =>
        rw [collectLabelIds_cons_miss src st l ls hk hm]
        obtain ⟨t, ht⟩ := ih
          { st with
            labelMap := st.labelMap
              ++ [(l, (createOrGetLabel st.destLabels (src ++ "/" ++ l)).1)]
            destLabels := (createOrGetLabel st.destLabels (src ++ "/" ++ l)).2.1
            labelsCreated := st.labelsCreated ++ [src ++ "/" ++ l] }
        exact ⟨(l, (createOrGetLabel st.destLabels (src ++ "/" ++ l)).1) :: t,
          by rw [ht]; simp⟩

theorem dryCollectLabels_map_append (src : String) (ls : List String) :
    ∀ st, ∃ t, (dryCollectLabels src st ls).labelMap = st.labelMap ++ t := by
  induction ls with
  | nil => intro st; exact ⟨[], by rw [dryCollectLabels_nil]; simp⟩
  | cons l ls ih =>
    intro st
    cases hc : (keepLabel l && (mapLookup st.labelMap l).isNone) with
    | false => rw [dryCollectLabels_cons_skip src st l ls hc]; exact ih st
    | true =>
      rw [dryCollectLabels_cons_add src st l ls hc]
      obtain ⟨t, ht⟩ := ih
        { st with
          labelMap := st.labelMap ++ [(l, "dry-run-label-" ++ l)]
          labelsCreated := st.labelsCreated ++ [src ++ "/" ++ l] }
      exact ⟨(l, "dry-run-label-" ++ l) :: t, by rw [ht]; simp⟩

theorem processOneEmail_map_append (src mid : String) (dry : Bool)
    (imp : String → Except String String) (st : V2State) (email : EmailWithLabels) :
    ∃ t, (processOneEmail src mid dry imp st email).1.labelMap = st.labelMap ++ t := by
  cases dry with
  | true =>
    rw [processOneEmail_dry]
    obtain ⟨t, ht⟩ := dryCollectLabels_map_append src email.labels st
    exact ⟨t, ht⟩
  | false =>
    cases himp : imp email.raw with
    | error er =>
      rw [processOneEmail_live_err src mid imp st email er himp]
      exact ⟨[], by simp⟩
    | ok iid =>
      rw [processOneEmail_live_ok src mid imp st email iid himp]
      obtain ⟨t, ht⟩ := collectLabelIds_map_append src email.labels st
      exact ⟨t, ht⟩

theorem runLoopV2_map_append (src mid : String) (dry : Bool)
    (imp : String → Except String String) (es : List EmailWithLabels) :
    ∀ st, ∃ t, (runLoopV2 src mid dry imp st es).1.labelMap = st.labelMap ++ t := by
  induction es with
  | nil => intro st; exact ⟨[], by rw [runLoopV2_nil]; simp⟩
  | cons em es ih =>
    intro st
    cases hp : (processOneEmail src mid dry imp st em).2.2 with
    | some err =>
      rw [runLoopV2_cons_err src mid dry imp st em es err hp]
      exact processOneEmail_map_append src mid dry imp st em
    | none =>
      rw [runLoopV2_cons_ok src mid dry imp st em es hp]
      obtain ⟨t1, ht1⟩ := processOneEmail_map_append src mid dry imp st em
      obtain ⟨t2, ht2⟩ := ih ((processOneEmail src mid dry imp st em).1)
      refine ⟨t1 ++ t2, ?_⟩
      show (runLoopV2 src mid dry imp (processOneEmail src mid dry imp st em).1 es).1.labelMap
        = st.labelMap ++ (t1 ++ t2)
      rw [ht2, ht1, List.append_assoc]

theorem collectLabelIds_has_mono (src n : String) (ls : List String) (st : V2State)
    (h : (mapLookup st.labelMap n).isSome = true) :
    (mapLookup (collectLabelIds src st ls).1.labelMap n).isSome = true := by
  obtain ⟨t, ht⟩ := collectLabelIds_map_append src ls st
  rw [ht, mapLookup_append_of_isSome _ _ _ h]
  exact h

theorem dryCollectLabels_has_mono (src n : String) (ls : List String) (st : V2State)
    (h : (mapLookup st.labelMap n).isSome = true) :
    (mapLookup (dryCollectLabels src st ls).labelMap n).isSome = true := by
  obtain ⟨t, ht⟩ := dryCollectLabels_map_append src ls st
  rw [ht, mapLookup_append_of_isSome _ _ _ h]
  exact h

theorem processOneEmail_has_mono (src mid : String) (dry : Bool)
    (imp : String → Except String String) (st : V2State) (email : EmailWithLabels)
    (n : String) (h : (mapLookup st.labelMap n).isSome = true) :
    (mapLookup (processOneEmail src mid dry imp st email).1.labelMap n).isSome = true := by
  obtain ⟨t, ht⟩ := processOneEmail_map_append src mid dry imp st email
  rw [ht, mapLookup_append_of_isSome _ _ _ h]
  exact h

theorem runLoopV2_has_mono (src mid : String) (dry : Bool)
    (imp : String → Except String String) (es : List EmailWithLabels) (st : V2State)
    (n : String) (h : (mapLookup st.labelMap n).isSome = true) :
    (mapLookup (runLoopV2 src mid dry imp st es).1.labelMap n).isSome = true := by
  obtain ⟨t, ht⟩ := runLoopV2_map_append src mid dry imp es st
  rw [ht, mapLookup_append_of_isSome _ _ _ h]
  exact h

theorem collectLabelIds_memo (src n : String) (ls : List String) :
    ∀ st,
      ((mapLookup st.labelMap n).isSome = true →
        lookupCount (collectLabelIds src st ls).2.2 (src ++ "/" ++ n) = 0) ∧
      lookupCount (collectLabelIds src st ls).2.2 (src ++ "/" ++ n) ≤ 1 ∧
      (1 ≤ lookupCount (collectLabelIds src st ls).2.2 (src ++ "/" ++ n) →
        (mapLookup (collectLabelIds src st ls).1.labelMap n).isSome = true) := by
  induction ls with
  | nil =>
    intro st
    rw [collectLabelIds_nil]
    exact ⟨fun _ => rfl, by simp [lookupCount], fun h => by simp [lookupCount] at h⟩
  | cons l ls ih =>
    intro st
    cases hk : keepLabel l with
    | false => rw [collectLabelIds_cons_skip src st l ls hk]; exact ih st
    | true =>
      cases hm : mapLookup st.labelMap l with
      | some id => rw [collectLabelIds_cons_hit src st l ls id hk hm]; exact ih st
      | none =>
        rw [collectLabelIds_cons_miss src st l ls hk hm]
        set st' : V2State :=
          { st with
            labelMap := st.labelMap
              ++ [(l, (createOrGetLabel st.destLabels (src ++ "/" ++ l)).1)]
            destLabels := (createOrGetLabel st.destLabels (src ++ "/" ++ l)).2.1
            labelsCreated := st.labelsCreated ++ [src ++ "/" ++ l] } with hst
        have hmap : st'.labelMap = st.labelMap
            ++ [(l, (createOrGetLabel st.destLabels (src ++ "/" ++ l)).1)] := by
          rw [hst]
        by_cases heq : l = n
        · subst heq
          have hself : (mapLookup st'.labelMap l).isSome = true := by
            rw [hmap, mapLookup_append_singleton_self _ _ _ hm]; rfl
          have hrec0 := (ih st').1 hself
          refine ⟨fun habs => ?_, ?_, fun _ => ?_⟩
          · rw [hm] at habs; simp at habs
          · show lookupCount ((createOrGetLabel st.destLabels (src ++ "/" ++ l)).2.2
                ++ (collectLabelIds src st' ls).2.2) (src ++ "/" ++ l) ≤ 1
            rw [lookupCount_append, lookupCount_createOrGetLabel_self, hrec0]
          · show (mapLookup (collectLabelIds src st' ls).1.labelMap l).isSome = true
            exact collectLabelIds_has_mono src l ls st' hself
        · have hne : (src ++ "/" ++ l) ≠ (src ++ "/" ++ n) := by
            intro h; exact heq (append_slash_inj src l n h)
          have hc0 : lookupCount (createOrGetLabel st.destLabels (src ++ "/" ++ l)).2.2
              (src ++ "/" ++ n) = 0 :=
            lookupCount_createOrGetLabel_ne _ _ _ hne
          have hrec := ih st'
          have hsame : (mapLookup st'.labelMap n).isSome = (mapLookup st.labelMap n).isSome := by
            rw [hmap]
            cases hsn : mapLookup st.labelMap n with
            | some v =>
              simp [mapLookup_append_of_isSome _ _ _ (by rw [hsn]; rfl), hsn]
            | none =>
              simp [mapLookup_append_singleton_of_ne _ _ _ _ heq hsn, hsn]
          refine ⟨fun hhas => ?_, ?_, fun hge => ?_⟩
          · show lookupCount ((createOrGetLabel st.destLabels (src ++ "/" ++ l)).2.2
                ++ (collectLabelIds src st' ls).2.2) (src ++ "/" ++ n) = 0
            rw [lookupCount_append, hc0, hrec.1 (by rw [hsame]; exact hhas)]
          · show lookupCount ((createOrGetLabel st.destLabels (src ++ "/" ++ l)).2.2
                ++ (collectLabelIds src st' ls).2.2) (src ++ "/" ++ n) ≤ 1
            rw [lookupCount_append, hc0]
            simpa using hrec.2.1
          · show (mapLookup (collectLabelIds src st' ls).1.labelMap n).isSome = true
            apply hrec.2.2
            have heq0 : lookupCount ((createOrGetLabel st.destLabels (src ++ "/" ++ l)).2.2
                ++ (collectLabelIds src st' ls).2.2) (src ++ "/" ++ n)
                = lookupCount (collectLabelIds src st' ls).2.2 (src ++ "/" ++ n) := by
              rw [lookupCount_append, hc0, Nat.zero_add]
            rw [heq0] at hge
            exact hge

theorem processOneEmail_memo (src mid : String) (dry : Bool)
    (imp : String → Except String String) (st : V2State) (email : EmailWithLabels)
    (n : String) :
    ((mapLookup st.labelMap n).isSome = true →
      lookupCount (processOneEmail src mid dry imp st email).2.1 (src ++ "/" ++ n) = 0) ∧
    lookupCount (processOneEmail src mid dry imp st email).2.1 (src ++ "/" ++ n) ≤ 1 ∧
    (1 ≤ lookupCount (processOneEmail src mid dry imp st email).2.1 (src ++ "/" ++ n) →
      (mapLookup (processOneEmail src mid dry imp st email).1.labelMap n).isSome = true) := by
  cases dry with
  | true =>
    have htr : (processOneEmail src mid true imp st email).2.1
        = [ApiEvent.sleepDelay 100] := by
      rw [processOneEmail_dry]
    have h0 : lookupCount (processOneEmail src mid true imp st email).2.1
        (src ++ "/" ++ n) = 0 := by
      rw [htr]; simp [lookupCount]
    refine ⟨fun _ => h0, by rw [h0]; omega, fun hge => ?_⟩
    rw [h0] at hge
    exact absurd hge (by norm_num)
  | false =>
    cases himp : imp email.raw with
    | error er =>
      have htr : (processOneEmail src mid false imp st email).2.1
          = [ApiEvent.importCall email.raw] := by
        rw [processOneEmail_live_err src mid imp st email er himp]
      have h0 : lookupCount (processOneEmail src mid false imp st email).2.1
          (src ++ "/" ++ n) = 0 := by
        rw [htr]; simp [lookupCount]
      refine ⟨fun _ => h0, by rw [h0]; omega, fun hge => ?_⟩
      rw [h0] at hge
      exact absurd hge (by norm_num)
    | ok iid =>
      have htr : (processOneEmail src mid false imp st email).2.1 =
          [ApiEvent.importCall email.raw] ++ (collectLabelIds src st email.labels).2.2
            ++ [ApiEvent.modifyCall iid (mid :: (collectLabelIds src st email.labels).2.1),
                ApiEvent.sleepDelay 100] := by
        rw [processOneEmail_live_ok src mid imp st email iid himp]
        rfl
      have h1 : lookupCount (processOneEmail src mid false imp st email).2.1
          (src ++ "/" ++ n)
          = lookupCount (collectLabelIds src st email.labels).2.2 (src ++ "/" ++ n) := by
        rw [htr, lookupCount_append, lookupCount_append]
        simp [lookupCount]
      have hstate : (processOneEmail src mid false imp st email).1.labelMap
          = (collectLabelIds src st email.labels).1.labelMap := by
        rw [processOneEmail_live_ok src mid imp st email iid himp]
      obtain ⟨m1, m2, m3⟩ := collectLabelIds_memo src n email.labels st
      refine ⟨fun hhas => by rw [h1]; exact m1 hhas, by rw [h1]; exact m2, fun hge => ?_⟩
      rw [hstate]
      exact m3 (h1 ▸ hge)

theorem runLoopV2_memo (src mid : String) (dry : Bool)
    (imp : String → Except String String) (es : List EmailWithLabels) (n : String) :
    ∀ st,
      ((mapLookup st.labelMap n).isSome = true →
        lookupCount (runLoopV2 src mid dry imp st es).2.1 (src ++ "/" ++ n) = 0) ∧
      lookupCount (runLoopV2 src mid dry imp st es).2.1 (src ++ "/" ++ n) ≤ 1 ∧
      (1 ≤ lookupCount (runLoopV2 src mid dry imp st es).2.1 (src ++ "/" ++ n) →
        (mapLookup (runLoopV2 src mid dry imp st es).1.labelMap n).isSome = true) := by
  induction es with
  | nil =>
    intro st
    have h0 : lookupCount (runLoopV2 src mid dry imp st []).2.1 (src ++ "/" ++ n) = 0 := by
      rw [runLoopV2_nil]
      rfl
    refine ⟨fun _ => h0, by rw [h0]; omega, fun hge => ?_⟩
    rw [h0] at hge
    exact absurd hge (by norm_num)
  | cons em es ih =>
    intro st
    cases hp : (processOneEmail src mid dry imp st em).2.2 with
    | some err =>
      have htr : (runLoopV2 src mid dry imp st (em :: es)).2.1
          = (processOneEmail src mid dry imp st em).2.1 := by
        rw [runLoopV2_cons_err src mid dry imp st em es err hp]
      have hstate : (runLoopV2 src mid dry imp st (em :: es)).1
          = (processOneEmail src mid dry imp st em).1 := by
        rw [runLoopV2_cons_err src mid dry imp st em es err hp]
      obtain ⟨p1, p2, p3⟩ := processOneEmail_memo src mid dry imp st em n
      refine ⟨fun h => by rw [htr]; exact p1 h, by rw [htr]; exact p2, fun hge => ?_⟩
      rw [hstate]
      exact p3 (htr ▸ hge)
    | none =>
      have htr : (runLoopV2 src mid dry imp st (em :: es)).2.1
          = (processOneEmail src mid dry imp st em).2.1
            ++ (runLoopV2 src mid dry imp (processOneEmail src mid dry imp st em).1 es).2.1 := by
        rw [runLoopV2_cons_ok src mid dry imp st em es hp]
      have hstate : (runLoopV2 src mid dry imp st (em :: es)).1
          = (runLoopV2 src mid dry imp (processOneEmail src mid dry imp st em).1 es).1 := by
        rw [runLoopV2_cons_ok src mid dry imp st em es hp]
      obtain ⟨p1, p2, p3⟩ := processOneEmail_memo src mid dry imp st em n
      obtain ⟨r1, r2, r3⟩ := ih ((processOneEmail src mid dry imp st em).1)
      have hcnt : lookupCount (runLoopV2 src mid dry imp st (em :: es)).2.1 (src ++ "/" ++ n)
          = lookupCount (processOneEmail src mid dry imp st em).2.1 (src ++ "/" ++ n)
            + lookupCount (runLoopV2 src mid dry imp
                (processOneEmail src mid dry imp st em).1 es).2.1 (src ++ "/" ++ n) := by
        rw [htr, lookupCount_append]
      refine ⟨fun hhas => ?_, ?_, fun hge => ?_⟩
      · have hcp := p1 hhas
        have hcr := r1 (processOneEmail_has_mono src mid dry imp st em n hhas)
        rw [hcnt, hcp, hcr]
      · by_cases hhas : (mapLookup st.labelMap n).isSome = true
        · have hcp := p1 hhas
          have hcr := r1 (processOneEmail_has_mono src mid dry imp st em n hhas)
          rw [hcnt, hcp, hcr]
          omega
        · have hcp2 := p2
          have : lookupCount (processOneEmail src mid dry imp st em).2.1 (src ++ "/" ++ n) = 0
              ∨ lookupCount (processOneEmail src mid dry imp st em).2.1 (src ++ "/" ++ n)
                = 1 := by omega
          rcases this with h0 | h1
          · rw [hcnt, h0]
            simpa using r2
          · have hcr := r1 (p3 (by omega))
            rw [hcnt, h1, hcr]
      · by_cases hcr : 1 ≤ lookupCount (runLoopV2 src mid dry imp
            (processOneEmail src mid dry imp st em).1 es).2.1 (src ++ "/" ++ n)
        · rw [hstate]
          exact r3 hcr
        · have hcp : 1 ≤ lookupCount (processOneEmail src mid dry imp st em).2.1
              (src ++ "/" ++ n) := by
            rw [hcnt] at hge
            omega
          rw [hstate]
          exact runLoopV2_has_mono src mid dry imp es _ n (p3 hcp)

theorem mapFunctional_insert (m : List (String × String)) (l id : String)
    (h : mapLookup m l = none)
    (hf : ∀ n i₁ i₂, (n, i₁) ∈ m → (n, i₂) ∈ m → i₁ = i₂) :
    ∀ n i₁ i₂, (n, i₁) ∈ m ++ [(l, id)] → (n, i₂) ∈ m ++ [(l, id)] → i₁ = i₂ := by
  intro n i₁ i₂ h1 h2
  simp only [List.mem_append, List.mem_singleton, Prod.mk.injEq] at h1 h2
  rcases h1 with h1 | ⟨hn1, hi1⟩ <;> rcases h2 with h2 | ⟨hn2, hi2⟩
  · exact hf n i₁ i₂ h1 h2
  · rw [hn2] at h1
    exact absurd h1 (mapLookup_eq_none_forall m l h i₁)
  · rw [hn1] at h2
    exact absurd h2 (mapLookup_eq_none_forall m l h i₂)
  · rw [hi1, hi2]

theorem collectLabelIds_functional (src : String) (ls : List String) :
    ∀ st, (∀ n i₁ i₂, (n, i₁) ∈ st.labelMap → (n, i₂) ∈ st.labelMap → i₁ = i₂) →
      ∀ n i₁ i₂, (n, i₁) ∈ (collectLabelIds src st ls).1.labelMap →
        (n, i₂) ∈ (collectLabelIds src st ls).1.labelMap → i₁ = i₂ := by
  induction ls with
  | nil => intro st hf; rw [collectLabelIds_nil]; exact hf
  | cons l ls ih =>
    intro st hf
    cases hk : keepLabel l with
    | false => rw [collectLabelIds_cons_skip src st l ls hk]; exact ih st hf
    | true =>
      cases hm : mapLookup st.labelMap l with
      | some id => rw [collectLabelIds_cons_hit src st l ls id hk hm]; exact ih st hf
      | none =>
        rw [collectLabelIds_cons_miss src st l ls hk hm]
        exact ih _ (mapFunctional_insert st.labelMap l _ hm hf)

theorem dryCollectLabels_functional (src : String) (ls : List String) :
    ∀ st, (∀ n i₁ i₂, (n, i₁) ∈ st.labelMap → (n, i₂) ∈ st.labelMap → i₁ = i₂) →
      ∀ n i₁ i₂, (n, i₁) ∈ (dryCollectLabels src st ls).labelMap →
        (n, i₂) ∈ (dryCollectLabels src st ls).labelMap → i₁ = i₂ := by
  induction ls with
  | nil => intro st hf; rw [dryCollectLabels_nil]; exact hf
  | cons l ls ih =>
    intro st hf
    cases hc : (keepLabel l && (mapLookup st.labelMap l).isNone) with
    | false => rw [dryCollectLabels_cons_skip src st l ls hc]; exact ih st hf
    | true =>
      rw [dryCollectLabels_cons_add src st l ls hc]
      have hm : mapLookup st.labelMap l = none := by
        have := (Bool.and_eq_true _ _).mp hc
        exact Option.isNone_iff_eq_none.mp this.2
      exact ih _ (mapFunctional_insert st.labelMap l _ hm hf)

theorem processOneEmail_functional (src mid : String) (dry : Bool)
    (imp : String → Except String String) (st : V2State) (email : EmailWithLabels)
    (hf : ∀ n i₁ i₂, (n, i₁) ∈ st.labelMap → (n, i₂) ∈ st.labelMap → i₁ = i₂) :
    ∀ n i₁ i₂, (n, i₁) ∈ (processOneEmail src mid dry imp st email).1.labelMap →
      (n, i₂) ∈ (processOneEmail src mid dry imp st email).1.labelMap → i₁ = i₂ := by
  cases dry with
  | true =>
    rw [processOneEmail_dry]
    exact dryCollectLabels_functional src email.labels st hf
  | false =>
    cases himp : imp email.raw with
    | error er =>
      rw [processOneEmail_live_err src mid imp st email er himp]
      exact hf
    | ok iid =>
      rw [processOneEmail_live_ok src mid imp st email iid himp]
      exact collectLabelIds_functional src email.labels st hf

theorem runLoopV2_functional (src mid : String) (dry : Bool)
    (imp : String → Except String String) (es : List EmailWithLabels) :
    ∀ st, (∀ n i₁ i₂, (n, i₁) ∈ st.labelMap → (n, i₂) ∈ st.labelMap → i₁ = i₂) →
      ∀ n i₁ i₂, (n, i₁) ∈ (runLoopV2 src mid dry imp st es).1.labelMap →
        (n, i₂) ∈ (runLoopV2 src mid dry imp st es).1.labelMap → i₁ = i₂ := by
  induction es with
  | nil => intro st hf; rw [runLoopV2_nil]; exact hf
  | cons em es ih =>
    intro st hf
    cases hp : (processOneEmail src mid dry imp st em).2.2 with
    | some err =>
      rw [runLoopV2_cons_err src mid dry imp st em es err hp]
      exact processOneEmail_functional src mid dry imp st em hf
    | none =>
      rw [runLoopV2_cons_ok src mid dry imp st em es hp]
      exact ih _ (processOneEmail_functional src mid dry imp st em hf)

/-- C6: for every run, at most one create-or-lookup round trip is issued
per distinct source label name, regardless of how many messages carry it;
the in-memory `labelMap` grows append-only throughout the per-message loop;
and the final map never holds two destination ids for the same source
name. -/
theorem C6_label_memoization (api : SourceApi) (imp : String → Except String String)
    (dest0 : List EmailLabel) (src : String) (dry : Bool) (answer : String) :
    (∀ n, lookupCount (transferEmailsV2 api imp dest0 src dry answer).2.2
        (src ++ "/" ++ n) ≤ 1) ∧
    (∀ (src' mid : String) (dry' : Bool) (imp' : String → Except String String)
        (st : V2State) (es : List EmailWithLabels),
        ∃ t, (runLoopV2 src' mid dry' imp' st es).1.labelMap = st.labelMap ++ t) ∧
    (∀ n i₁ i₂,
        (n, i₁) ∈ (transferEmailsV2 api imp dest0 src dry answer).2.1.labelMap →
        (n, i₂) ∈ (transferEmailsV2 api imp dest0 src dry answer).2.1.labelMap →
        i₁ = i₂) := by
  have hempty : ∀ n i₁ i₂, (n, i₁) ∈ ([] : List (String × String)) →
      (n, i₂) ∈ ([] : List (String × String)) → i₁ = i₂ := by
    intro n i₁ i₂ h _
    exact absurd h (List.not_mem_nil _)
  refine ⟨?_, fun src' mid dry' imp' st es => runLoopV2_map_append src' mid dry' imp' es st, ?_⟩
  · intro n
    cases hc : promptForConfirmation answer with
    | false =>
      have htr : (transferEmailsV2 api imp dest0 src dry answer).2.2
          = (getAllUniqueEmails api).2 := by
        rw [transferEmailsV2_declined api imp dest0 src dry answer hc]
      rw [htr, lookupCount_getAllUniqueEmails]
      omega
    | true =>
      cases dry with
      | true =>
        have hl := runLoopV2_dry_none src "dry-run-main-label" imp (getAllUniqueEmails api).1
          ⟨[], dest0, [src], 0⟩
        have htr : (transferEmailsV2 api imp dest0 src true answer).2.2
            = (getAllUniqueEmails api).2
              ++ (runLoopV2 src "dry-run-main-label" true imp ⟨[], dest0, [src], 0⟩
                  (getAllUniqueEmails api).1).2.1 := by
          rw [transferEmailsV2_dry api imp dest0 src answer hc hl]
        rw [htr, lookupCount_append, lookupCount_getAllUniqueEmails]
        have := (runLoopV2_memo src "dry-run-main-label" true imp (getAllUniqueEmails api).1 n
          ⟨[], dest0, [src], 0⟩).2.1
        omega
      | false =>
        have hmain : lookupCount (createOrGetLabel dest0 src).2.2 (src ++ "/" ++ n) = 0 :=
          lookupCount_createOrGetLabel_ne dest0 src (src ++ "/" ++ n) (ne_append_slash src n)
        have hloop := (runLoopV2_memo src (createOrGetLabel dest0 src).1 false imp
          (getAllUniqueEmails api).1 n ⟨[], (createOrGetLabel dest0 src).2.1, [src], 0⟩).2.1
        cases hl : (runLoopV2 src (createOrGetLabel dest0 src).1 false imp
            ⟨[], (createOrGetLabel dest0 src).2.1, [src], 0⟩ (getAllUniqueEmails api).1).2.2 with
        | some err =>
          have htr : (transferEmailsV2 api imp dest0 src false answer).2.2
              = (getAllUniqueEmails api).2 ++ (createOrGetLabel dest0 src).2.2
                ++ (runLoopV2 src (createOrGetLabel dest0 src).1 false imp
                    ⟨[], (createOrGetLabel dest0 src).2.1, [src], 0⟩
                    (getAllUniqueEmails api).1).2.1 := by
            rw [transferEmailsV2_live_fail api imp dest0 src answer err hc hl]
          rw [htr, lookupCount_append, lookupCount_append, lookupCount_getAllUniqueEmails,
            hmain]
          omega
        | none =>
          have htr : (transferEmailsV2 api imp dest0 src false answer).2.2
              = (getAllUniqueEmails api).2 ++ (createOrGetLabel dest0 src).2.2
                ++ (runLoopV2 src (createOrGetLabel dest0 src).1 false imp
                    ⟨[], (createOrGetLabel dest0 src).2.1, [src], 0⟩
                    (getAllUniqueEmails api).1).2.1 := by
            rw [transferEmailsV2_live_done api imp dest0 src answer hc hl]
          rw [htr, lookupCount_append, lookupCount_append, lookupCount_getAllUniqueEmails,
            hmain]
          omega
  · cases hc : promptForConfirmation answer with
    | false =>
      have hstate : (transferEmailsV2 api imp dest0 src dry answer).2.1
          = ⟨[], dest0, [], 0⟩ := by
        rw [transferEmailsV2_declined api imp dest0 src dry answer hc]
      rw [hstate]
      exact hempty
    | true =>
      cases dry with
      | true =>
        have hl := runLoopV2_dry_none src "dry-run-main-label" imp (getAllUniqueEmails api).1
          ⟨[], dest0, [src], 0⟩
        have hstate : (transferEmailsV2 api imp dest0 src true answer).2.1
            = (runLoopV2 src "dry-run-main-label" true imp ⟨[], dest0, [src], 0⟩
                (getAllUniqueEmails api).1).1 := by
          rw [transferEmailsV2_dry api imp dest0 src answer hc hl]
        rw [hstate]
        exact runLoopV2_functional src "dry-run-main-label" true imp
          (getAllUniqueEmails api).1 ⟨[], dest0, [src], 0⟩ hempty
      | false =>
        cases hl : (runLoopV2 src (createOrGetLabel dest0 src).1 false imp
            ⟨[], (createOrGetLabel dest0 src).2.1, [src], 0⟩ (getAllUniqueEmails api).1).2.2 with
        | some err =>
          have hstate : (transferEmailsV2 api imp dest0 src false answer).2.1
              = (runLoopV2 src (createOrGetLabel dest0 src).1 false imp
                  ⟨[], (createOrGetLabel dest0 src).2.1, [src], 0⟩
                  (getAllUniqueEmails api).1).1 := by
            rw [transferEmailsV2_live_fail api imp dest0 src answer err hc hl]
          rw [hstate]
          exact runLoopV2_functional src (createOrGetLabel dest0 src).1 false imp
            (getAllUniqueEmails api).1 ⟨[], (createOrGetLabel dest0 src).2.1, [src], 0⟩ hempty
        | none =>
          have hstate : (transferEmailsV2 api imp dest0 src false answer).2.1
              = (runLoopV2 src (createOrGetLabel dest0 src).1 false imp
                  ⟨[], (createOrGetLabel dest0 src).2.1, [src], 0⟩
                  (getAllUniqueEmails api).1).1 := by
            rw [transferEmailsV2_live_done api imp dest0 src answer hc hl]
          rw [hstate]
          exact runLoopV2_functional src (createOrGetLabel dest0 src).1 false imp
            (getAllUniqueEmails api).1 ⟨[], (createOrGetLabel dest0 src).2.1, [src], 0⟩ hempty

theorem C6_label_memoization_witness :
    (("Work", "created-src@x/Work")
        ∈ (transferEmailsV2 apiA importOk [] "src@x" false "y").2.1.labelMap) ∧
    lookupCount (transferEmailsV2 apiA importOk [] "src@x" false "y").2.2
      ("src@x" ++ "/" ++ "Work") ≤ 1 ∧
    "created-src@x/Work" = "created-src@x/Work" :=
  have hmem : ("Work", "created-src@x/Work")
      ∈ (transferEmailsV2 apiA importOk [] "src@x" false "y").2.1.labelMap := by decide
  ⟨hmem,
   (C6_label_memoization apiA importOk [] "src@x" false "y").1 "Work",
   (C6_label_memoization apiA importOk [] "src@x" false "y").2.2 "Work"
     "created-src@x/Work" "created-src@x/Work" hmem hmem⟩

/-! ## C5: label filtering -/

theorem mapLookup_some_mem (m : List (String × String)) (n i : String)
    (h : mapLookup m n = some i) : (n, i) ∈ m := by
  simp only [mapLookup] at h
  cases hf : m.find? (fun p => p.1 == n) with
  | none => rw [hf] at h; simp at h
  | some p =>
    rw [hf] at h
    simp only [Option.map_some'] at h
    have hmem := List.mem_of_find?_eq_some hf
    have hp := List.find?_some hf
    simp only [beq_iff_eq] at hp
    have : (n, i) = p := by
      cases p with
      | mk a b =>
        simp only at hp h
        simp only [Option.some.injEq] at h
        simp [hp, h.symm]
    rw [this]
    exact hmem

theorem mem_map_append_of_mem {m t : List (String × String)} {pair : String × String}
    (h : pair ∈ m) : pair ∈ m ++ t :=
  List.mem_append_left t h

theorem collectLabelIds_keys_kept (src : String) (ls : List String) :
    ∀ st, (∀ p ∈ st.labelMap, keepLabel p.1 = true) →
      ∀ p ∈ (collectLabelIds src st ls).1.labelMap, keepLabel p.1 = true := by
  induction ls with
  | nil => intro st hk; rw [collectLabelIds_nil]; exact hk
  | cons l ls ih =>
    intro st hkept
    cases hk : keepLabel l with
    | false => rw [collectLabelIds_cons_skip src st l ls hk]; exact ih st hkept
    | true =>
      cases hm : mapLookup st.labelMap l with
      | some id => rw [collectLabelIds_cons_hit src st l ls id hk hm]; exact ih st hkept
      | none =>
        rw [collectLabelIds_cons_miss src st l ls hk hm]
        apply ih
        intro p hp
        rcases List.mem_append.mp hp with hp | hp
        · exact hkept p hp
        · rw [List.mem_singleton] at hp
          rw [hp]
          exact hk

theorem dryCollectLabels_keys_kept (src : String) (ls : List String) :
    ∀ st, (∀ p ∈ st.labelMap, keepLabel p.1 = true) →
      ∀ p ∈ (dryCollectLabels src st ls).labelMap, keepLabel p.1 = true := by
  induction ls with
  | nil => intro st hk; rw [dryCollectLabels_nil]; exact hk
  | cons l ls ih =>
    intro st hkept
    cases hc : (keepLabel l && (mapLookup st.labelMap l).isNone) with
    | false => rw [dryCollectLabels_cons_skip src st l ls hc]; exact ih st hkept
    | true =>
      rw [dryCollectLabels_cons_add src st l ls hc]
      apply ih
      intro p hp
      rcases List.mem_append.mp hp with hp | hp
      · exact hkept p hp
      · rw [List.mem_singleton] at hp
        rw [hp]
        exact ((Bool.and_eq_true _ _).mp hc).1

theorem processOneEmail_keys_kept (src mid : String) (dry : Bool)
    (imp : String → Except String String) (st : V2State) (email : EmailWithLabels)
    (hkept : ∀ p ∈ st.labelMap, keepLabel p.1 = true) :
    ∀ p ∈ (processOneEmail src mid dry imp st email).1.labelMap, keepLabel p.1 = true := by
  cases dry with
  | true =>
    rw [processOneEmail_dry]
    exact dryCollectLabels_keys_kept src email.labels st hkept
  | false =>
    cases himp : imp email.raw with
    | error er => rw [processOneEmail_live_err src mid imp st email er himp]; exact hkept
    | ok iid =>
      rw [processOneEmail_live_ok src mid imp st email iid himp]
      exact collectLabelIds_keys_kept src email.labels st hkept

theorem runLoopV2_keys_kept (src mid : String) (dry : Bool)
    (imp : String → Except String String) (es : List EmailWithLabels) :
    ∀ st, (∀ p ∈ st.labelMap, keepLabel p.1 = true) →
      ∀ p ∈ (runLoopV2 src mid dry imp st es).1.labelMap, keepLabel p.1 = true := by
  induction es with
  | nil => intro st hk; rw [runLoopV2_nil]; exact hk
  | cons em es ih =>
    intro st hkept
    cases hp : (processOneEmail src mid dry imp st em).2.2 with
    | some err =>
      rw [runLoopV2_cons_err src mid dry imp st em es err hp]
      exact processOneEmail_keys_kept src mid dry imp st em hkept
    | none =>
      rw [runLoopV2_cons_ok src mid dry imp st em es hp]
      exact ih _ (processOneEmail_keys_kept src mid dry imp st em hkept)

theorem collectLabelIds_created_shape (src : String) (ls : List String) :
    ∀ st, ∀ x ∈ (collectLabelIds src st ls).1.labelsCreated,
      x ∈ st.labelsCreated ∨ ∃ k, keepLabel k = true ∧ x = src ++ "/" ++ k := by
  induction ls with
  | nil => intro st x hx; rw [collectLabelIds_nil] at hx; exact Or.inl hx
  | cons l ls ih =>
    intro st x hx
    cases hk : keepLabel l with
    | false => rw [collectLabelIds_cons_skip src st l ls hk] at hx; exact ih st x hx
    | true =>
      cases hm : mapLookup st.labelMap l with
      | some id => rw [collectLabelIds_cons_hit src st l ls id hk hm] at hx; exact ih st x hx
      | none =>
        rw [collectLabelIds_cons_miss src st l ls hk hm] at hx
        rcases ih _ x hx with hx' | hx'
        · rcases List.mem_append.mp hx' with hx'' | hx''
          · exact Or.inl hx''
          · rw [List.mem_singleton] at hx''
            exact Or.inr ⟨l, hk, hx''⟩
        · exact Or.inr hx'

theorem dryCollectLabels_created_shape (src : String) (ls : List String) :
    ∀ st, ∀ x ∈ (dryCollectLabels src st ls).labelsCreated,
      x ∈ st.labelsCreated ∨ ∃ k, keepLabel k = true ∧ x = src ++ "/" ++ k := by
  induction ls with
  | nil => intro st x hx; rw [dryCollectLabels_nil] at hx; exact Or.inl hx
  | cons l ls ih =>
    intro st x hx
    cases hc : (keepLabel l && (mapLookup st.labelMap l).isNone) with
    | false => rw [dryCollectLabels_cons_skip src st l ls hc] at hx; exact ih st x hx
    | true =>
      rw [dryCollectLabels_cons_add src st l ls hc] at hx
      rcases ih _ x hx with hx' | hx'
      · rcases List.mem_append.mp hx' with hx'' | hx''
        · exact Or.inl hx''
        · rw [List.mem_singleton] at hx''
          exact Or.inr ⟨l, ((Bool.and_eq_true _ _).mp hc).1, hx''⟩
      · exact Or.inr hx'

theorem processOneEmail_created_shape (src mid : String) (dry : Bool)
    (imp : String → Except String String) (st : V2State) (email : EmailWithLabels) :
    ∀ x ∈ (processOneEmail src mid dry imp st email).1.labelsCreated,
      x ∈ st.labelsCreated ∨ ∃ k, keepLabel k = true ∧ x = src ++ "/" ++ k := by
  cases dry with
  | true =>
    rw [processOneEmail_dry]
    exact dryCollectLabels_created_shape src email.labels st
  | false =>
    cases himp : imp email.raw with
    | error er =>
      rw [processOneEmail_live_err src mid imp st email er himp]
      exact fun x hx => Or.inl hx
    | ok iid =>
      rw [processOneEmail_live_ok src mid imp st email iid himp]
      exact collectLabelIds_created_shape src email.labels st

theorem runLoopV2_created_shape (src mid : String) (dry : Bool)
    (imp : String → Except String String) (es : List EmailWithLabels) :
    ∀ st, ∀ x ∈ (runLoopV2 src mid dry imp st es).1.labelsCreated,
      x ∈ st.labelsCreated ∨ ∃ k, keepLabel k = true ∧ x = src ++ "/" ++ k := by
  induction es with
  | nil => intro st x hx; rw [runLoopV2_nil] at hx; exact Or.inl hx
  | cons em es ih =>
    intro st x hx
    cases hp : (processOneEmail src mid dry imp st em).2.2 with
    | some err =>
      rw [runLoopV2_cons_err src mid dry imp st em es err hp] at hx
      exact processOneEmail_created_shape src mid dry imp st em x hx
    | none =>
      rw [runLoopV2_cons_ok src mid dry imp st em es hp] at hx
      rcases ih _ x hx with hx' | hx'
      · exact processOneEmail_created_shape src mid dry imp st em x hx'
      · exact Or.inr hx'

theorem collectLabelIds_ids (src : String) (ls : List String) :
    ∀ st, ∀ id ∈ (collectLabelIds src st ls).2.1,
      ∃ k, keepLabel k = true ∧ (k, id) ∈ (collectLabelIds src st ls).1.labelMap := by
  induction ls with
  | nil => intro st id hid; rw [collectLabelIds_nil] at hid; cases hid
  | cons l ls ih =>
    intro st
    cases hk : keepLabel l with
    | false =>
      rw [collectLabelIds_cons_skip src st l ls hk]
      exact ih st
    | true =>
      cases hm : mapLookup st.labelMap l with
      | some id0 =>
        rw [collectLabelIds_cons_hit src st l ls id0 hk hm]
        intro id hid
        cases hid with
        | head =>
          refine ⟨l, hk, ?_⟩
          obtain ⟨t, ht⟩ := collectLabelIds_map_append src ls st
          rw [ht]
          exact mem_map_append_of_mem (mapLookup_some_mem st.labelMap l id0 hm)
        | tail _ hid' => exact ih st id hid'
      | none =>
        rw [collectLabelIds_cons_miss src st l ls hk hm]
        intro id hid
        cases hid with
        | head =>
          refine ⟨l, hk, ?_⟩
          obtain ⟨t, ht⟩ := collectLabelIds_map_append src ls
            { st with
              labelMap := st.labelMap
                ++ [(l, (createOrGetLabel st.destLabels (src ++ "/" ++ l)).1)]
              destLabels := (createOrGetLabel st.destLabels (src ++ "/" ++ l)).2.1
              labelsCreated := st.labelsCreated ++ [src ++ "/" ++ l] }
          rw [ht]
          apply mem_map_append_of_mem
          exact List.mem_append_right _ (List.mem_singleton.mpr rfl)
        | tail _ hid' => exact ih _ id hid'

theorem processOneEmail_modify (src mid : String) (dry : Bool)
    (imp : String → Except String String) (st : V2State) (email : EmailWithLabels) :
    ∀ x ids, ApiEvent.modifyCall x ids ∈ (processOneEmail src mid dry imp st email).2.1 →
      ∀ id ∈ ids, id = mid ∨ ∃ k, keepLabel k = true ∧
        (k, id) ∈ (processOneEmail src mid dry imp st email).1.labelMap := by
  intro x ids hmem id hid
  cases dry with
  | true =>
    rw [processOneEmail_dry] at hmem
    simp at hmem
  | false =>
    cases himp : imp email.raw with
    | error er =>
      rw [processOneEmail_live_err src mid imp st email er himp] at hmem
      simp at hmem
    | ok iid =>
      have htr : (processOneEmail src mid false imp st email).2.1 =
          [ApiEvent.importCall email.raw] ++ (collectLabelIds src st email.labels).2.2
            ++ [ApiEvent.modifyCall iid (mid :: (collectLabelIds src st email.labels).2.1),
                ApiEvent.sleepDelay 100] := by
        rw [processOneEmail_live_ok src mid imp st email iid himp]
        rfl
      have hstate : (processOneEmail src mid false imp st email).1.labelMap
          = (collectLabelIds src st email.labels).1.labelMap := by
        rw [processOneEmail_live_ok src mid imp st email iid himp]
      rw [htr] at hmem
      simp only [List.mem_append, List.mem_cons, List.mem_singleton] at hmem
      rcases hmem with (hmem | hmem) | hmem
      · simp at hmem
      · obtain ⟨l', _, _, h | h⟩ := mem_collectLabelIds_events src email.labels st _ hmem <;>
          simp at h
      · rcases hmem with hmem | hmem
        · have hids : ids = mid :: (collectLabelIds src st email.labels).2.1 := by
            injection hmem with _ h
          rw [hids] at hid
          cases hid with
          | head => exact Or.inl rfl
          | tail _ hid' =>
            obtain ⟨k, hk, hkid⟩ := collectLabelIds_ids src email.labels st id hid'
            exact Or.inr ⟨k, hk, by rw [hstate]; exact hkid⟩
        · simp at hmem

theorem runLoopV2_modify (src mid : String) (dry : Bool)
    (imp : String → Except String String) (es : List EmailWithLabels) :
    ∀ st, ∀ x ids, ApiEvent.modifyCall x ids ∈ (runLoopV2 src mid dry imp st es).2.1 →
      ∀ id ∈ ids, id = mid ∨ ∃ k, keepLabel k = true ∧
        (k, id) ∈ (runLoopV2 src mid dry imp st es).1.labelMap := by
  induction es with
  | nil => intro st x ids hmem; rw [runLoopV2_nil] at hmem; cases hmem
  | cons em es ih =>
    intro st x ids hmem id hid
    cases hp : (processOneEmail src mid dry imp st em).2.2 with
    | some err =>
      rw [runLoopV2_cons_err src mid dry imp st em es err hp] at hmem
      have hstate : (runLoopV2 src mid dry imp st (em :: es)).1
          = (processOneEmail src mid dry imp st em).1 := by
        rw [runLoopV2_cons_err src mid dry imp st em es err hp]
      rcases processOneEmail_modify src mid dry imp st em x ids hmem id hid with h | ⟨k, hk, hkid⟩
      · exact Or.inl h
      · exact Or.inr ⟨k, hk, by rw [hstate]; exact hkid⟩
    | none =>
      rw [runLoopV2_cons_ok src mid dry imp st em es hp] at hmem
      have hstate : (runLoopV2 src mid dry imp st (em :: es)).1
          = (runLoopV2 src mid dry imp (processOneEmail src mid dry imp st em).1 es).1 := by
        rw [runLoopV2_cons_ok src mid dry imp st em es hp]
      rw [hstate]
      simp only [List.mem_append] at hmem
      rcases hmem with hmem | hmem
      · rcases processOneEmail_modify src mid dry imp st em x ids hmem id hid with h | ⟨k, hk, hkid⟩
        · exact Or.inl h
        · refine Or.inr ⟨k, hk, ?_⟩
          obtain ⟨t, ht⟩ := runLoopV2_map_append src mid dry imp es
            ((processOneEmail src mid dry imp st em).1)
          rw [ht]
          exact mem_map_append_of_mem hkid
      · exact ih _ x ids hmem id hid

theorem no_create_processMsgV1 (mid sid : String) (dry : Bool) (dest : DestState)
    (m : SrcMsg) (nm : String) :
    ApiEvent.createLabelCall nm ∉ (processMsgV1 mid sid dry dest m).2.2 := by
  intro hmem
  cases hck : checkIfEmailExists dest.msgs (subjectOf m) m.internalDate with
  | true =>
    rw [processMsgV1_skip mid sid dry dest m hck] at hmem
    simp at hmem
  | false =>
    cases dry with
    | true =>
      rw [processMsgV1_dry_new mid sid dest m hck] at hmem
      simp at hmem
    | false =>
      rw [processMsgV1_live_new mid sid dest m hck] at hmem
      simp at hmem

theorem no_create_msgLoopV1 (mid sid : String) (dry : Bool) (ms : List SrcMsg) :
    ∀ dest (nm : String), ApiEvent.createLabelCall nm ∉ (msgLoopV1 mid sid dry dest ms).2.2 := by
  induction ms with
  | nil => intro dest nm hmem; rw [msgLoopV1_nil] at hmem; cases hmem
  | cons m ms ih =>
    intro dest nm hmem
    rw [msgLoopV1_cons] at hmem
    simp only [List.mem_append] at hmem
    rcases hmem with hmem | hmem
    · exact no_create_processMsgV1 mid sid dry dest m nm hmem
    · exact ih _ nm hmem

theorem mem_create_transferEmailsForLabel (api : SourceApiV1) (src : String)
    (label : EmailLabel) (mid : String) (dry : Bool) (dest : DestState) (nm : String)
    (hmem : ApiEvent.createLabelCall nm ∈ (transferEmailsForLabel api src label mid dry dest).2.2) :
    nm = src ++ "/" ++ label.name := by
  cases hne : (api.msgsOf label.id).isEmpty with
  | true =>
    rw [transferEmailsForLabel_noMsgs api src label mid dry dest hne] at hmem
    simp at hmem
  | false =>
    cases dry with
    | true =>
      rw [transferEmailsForLabel_dry api src label mid dest hne] at hmem
      simp only [List.mem_cons] at hmem
      rcases hmem with hmem | hmem
      · simp at hmem
      · exact absurd hmem (no_create_msgLoopV1 _ _ _ _ _ _)
    | false =>
      rw [transferEmailsForLabel_live api src label mid dest hne] at hmem
      simp only [List.mem_cons, List.mem_append] at hmem
      rcases hmem with hmem | hmem | hmem
      · simp at hmem
      · rcases mem_createOrGetLabel_events _ _ _ hmem with h | h
        · simp at h
        · injection h
      · exact absurd hmem (no_create_msgLoopV1 _ _ _ _ _ _)

theorem mem_create_specialsLoopV1 (api : SourceApiV1) (src mid : String) (dry : Bool)
    (sps : List String) :
    ∀ dest (nm : String),
      ApiEvent.createLabelCall nm ∈ (specialsLoopV1 api src mid dry dest sps).2.2 →
      ∃ sp ∈ sps, nm = src ++ "/" ++ sp := by
  induction sps with
  | nil => intro dest nm hmem; rw [specialsLoopV1_nil] at hmem; cases hmem
  | cons sp sps ih =>
    intro dest nm hmem
    rw [specialsLoopV1_cons] at hmem
    simp only [List.mem_append] at hmem
    rcases hmem with hmem | hmem
    · exact ⟨sp, List.mem_cons_self _ _,
        mem_create_transferEmailsForLabel api src ⟨sp, sp⟩ mid dry dest nm hmem⟩
    · obtain ⟨sp', hsp', h⟩ := ih _ nm hmem
      exact ⟨sp', List.mem_cons_of_mem _ hsp', h⟩

theorem mem_create_otherLabelsLoopV1 (api : SourceApiV1) (src mid : String) (dry : Bool)
    (ls : List EmailLabel) :
    ∀ dest (nm : String),
      ApiEvent.createLabelCall nm ∈ (otherLabelsLoopV1 api src mid dry dest ls).2.2.2 →
      ∃ l ∈ ls, nm = src ++ "/" ++ l.name := by
  induction ls with
  | nil => intro dest nm hmem; rw [otherLabelsLoopV1_nil] at hmem; cases hmem
  | cons l ls ih =>
    intro dest nm hmem
    rw [otherLabelsLoopV1_cons] at hmem
    simp only [List.mem_append] at hmem
    rcases hmem with hmem | hmem
    · exact ⟨l, List.mem_cons_self _ _,
        mem_create_transferEmailsForLabel api src l mid dry dest nm hmem⟩
    · obtain ⟨l', hl', h⟩ := ih _ nm hmem
      exact ⟨l', List.mem_cons_of_mem _ hl', h⟩

theorem no_create_countPhaseV1 (sourceLabels : List EmailLabel) (nm : String) :
    ApiEvent.createLabelCall nm ∉ countPhaseV1 sourceLabels := by
  intro hmem
  simp only [countPhaseV1, List.mem_append, List.mem_map] at hmem
  rcases hmem with ⟨_, _, h⟩ | ⟨_, _, h⟩ <;> injection h

theorem otherLabelsLoopV1_created_shape (api : SourceApiV1) (src mid : String) (dry : Bool)
    (ls : List EmailLabel) :
    ∀ dest, ∀ x ∈ (otherLabelsLoopV1 api src mid dry dest ls).2.1,
      ∃ l ∈ ls, x = src ++ "/" ++ l.name := by
  induction ls with
  | nil => intro dest x hx; rw [otherLabelsLoopV1_nil] at hx; cases hx
  | cons l ls ih =>
    intro dest x hx
    rw [otherLabelsLoopV1_cons] at hx
    simp only [List.mem_append] at hx
    rcases hx with hx | hx
    · by_cases hpos : 0 < (transferEmailsForLabel api src l mid dry dest).1
      · rw [if_pos hpos] at hx
        rw [List.mem_singleton] at hx
        exact ⟨l, List.mem_cons_self _ _, hx⟩
      · rw [if_neg hpos] at hx
        cases hx
    · obtain ⟨l', hl', h⟩ := ih _ x hx
      exact ⟨l', List.mem_cons_of_mem _ hl', h⟩

theorem transferEmailsV1_ok_created (api : SourceApiV1) (dest0 : DestState) (src : String)
    (dry : Bool) (answer : String) (s : TransferSummary)
    (hok : (transferEmailsV1 api dest0 src dry answer).1 = RunOutcome.ok s) :
    ∀ x ∈ s.labelsCreated, x = src ∨
      ∃ l ∈ (getLabelsV1 api).1.filter (fun l => !(specialLabels.contains l.name)),
        x = src ++ "/" ++ l.name := by
  cases hc : promptForConfirmation answer with
  | false =>
    rw [transferEmailsV1_declined api dest0 src dry answer hc] at hok
    exact absurd hok (by simp)
  | true =>
    cases dry with
    | true =>
      rw [transferEmailsV1_dry api dest0 src answer hc] at hok
      have hok' : RunOutcome.ok
          (⟨src :: (otherLabelsLoopV1 api src "dry-run-main-label" true
              (specialsLoopV1 api src "dry-run-main-label" true dest0 specialLabels).1
              ((getLabelsV1 api).1.filter (fun l => !(specialLabels.contains l.name)))).2.1,
            (specialsLoopV1 api src "dry-run-main-label" true dest0 specialLabels).2.1
             + (otherLabelsLoopV1 api src "dry-run-main-label" true
                (specialsLoopV1 api src "dry-run-main-label" true dest0 specialLabels).1
                ((getLabelsV1 api).1.filter (fun l => !(specialLabels.contains l.name)))).2.2.1⟩
           : TransferSummary) = RunOutcome.ok s := hok
      have hs := (RunOutcome.ok.injEq _ _).mp hok'
      intro x hx
      rw [← hs] at hx
      have hx' : x ∈ src :: (otherLabelsLoopV1 api src "dry-run-main-label" true
          (specialsLoopV1 api src "dry-run-main-label" true dest0 specialLabels).1
          ((getLabelsV1 api).1.filter (fun l => !(specialLabels.contains l.name)))).2.1 := hx
      cases hx' with
      | head => exact Or.inl rfl
      | tail _ hx'' =>
        obtain ⟨l, hl, hxl⟩ := otherLabelsLoopV1_created_shape api src "dry-run-main-label"
          true _ _ x hx''
        exact Or.inr ⟨l, hl, hxl⟩
    | false =>
      rw [transferEmailsV1_live api dest0 src answer hc] at hok
      have hok' : RunOutcome.ok
          (⟨src :: (otherLabelsLoopV1 api src (createOrGetLabel dest0.labels src).1 false
              (specialsLoopV1 api src (createOrGetLabel dest0.labels src).1 false
                { dest0 with labels := (createOrGetLabel dest0.labels src).2.1 } specialLabels).1
              ((getLabelsV1 api).1.filter (fun l => !(specialLabels.contains l.name)))).2.1,
            (specialsLoopV1 api src (createOrGetLabel dest0.labels src).1 false
              { dest0 with labels := (createOrGetLabel dest0.labels src).2.1 } specialLabels).2.1
             + (otherLabelsLoopV1 api src (createOrGetLabel dest0.labels src).1 false
                (specialsLoopV1 api src (createOrGetLabel dest0.labels src).1 false
                  { dest0 with labels := (createOrGetLabel dest0.labels src).2.1 } specialLabels).1
                ((getLabelsV1 api).1.filter (fun l => !(specialLabels.contains l.name)))).2.2.1⟩
           : TransferSummary) = RunOutcome.ok s := hok
      have hs := (RunOutcome.ok.injEq _ _).mp hok'
      intro x hx
      rw [← hs] at hx
      have hx' : x ∈ src :: (otherLabelsLoopV1 api src (createOrGetLabel dest0.labels src).1
          false
          (specialsLoopV1 api src (createOrGetLabel dest0.labels src).1 false
            { dest0 with labels := (createOrGetLabel dest0.labels src).2.1 } specialLabels).1
          ((getLabelsV1 api).1.filter (fun l => !(specialLabels.contains l.name)))).2.1 := hx
      cases hx' with
      | head => exact Or.inl rfl
      | tail _ hx'' =>
        obtain ⟨l, hl, hxl⟩ := otherLabelsLoopV1_created_shape api src _ false _ _ x hx''
        exact Or.inr ⟨l, hl, hxl⟩

theorem v1_excluded_ne_special (l : EmailLabel)
    (hexcl : (l.name.startsWith "CATEGORY_" || ["TRASH", "SPAM"].contains l.name) = true) :
    ∀ sp ∈ specialLabels, l.name ≠ sp := by
  intro sp hsp heq
  rw [heq] at hexcl
  fin_cases hsp <;> exact absurd hexcl (by decide)

theorem v1_excluded_not_filtered (api : SourceApiV1) (l : EmailLabel)
    (hexcl : (l.name.startsWith "CATEGORY_" || ["TRASH", "SPAM"].contains l.name) = true) :
    ∀ l' ∈ (getLabelsV1 api).1.filter (fun x => !(specialLabels.contains x.name)),
      l.name ≠ l'.name := by
  intro l' hl' heq
  have hl'2 : l' ∈ api.labelsResp.filter (fun x =>
      !(x.name.startsWith "CATEGORY_") && !(["TRASH", "SPAM"].contains x.name)) :=
    (List.mem_filter.mp hl').1
  have hv1 := (List.mem_filter.mp hl'2).2
  simp only [Bool.and_eq_true, Bool.not_eq_true'] at hv1
  rw [← heq] at hv1
  simp only [Bool.or_eq_true] at hexcl
  rcases hexcl with h | h
  · rw [hv1.1] at h; cases h
  · rw [hv1.2] at h; cases h

/-- C5 counterexample: a live variant-1 run over a source whose label list
is just `UNREAD` (one message): variant 1's filter removes only
`CATEGORY_`-prefixed names and `TRASH`/`SPAM`, so the reserved `UNREAD`
marker is mirrored — the namespaced destination label `src@x/UNREAD` is
created, applied to the imported message, and reported in `labelsCreated`,
contradicting the claim that such names never appear in a mirrored set. -/
theorem C5_counterexample :
    ApiEvent.createLabelCall "src@x/UNREAD"
      ∈ (transferEmailsV1 apiC5 ⟨[], []⟩ "src@x" false "y").2.2 ∧
    ApiEvent.modifyCall "imported-mu1" ["created-src@x", "created-src@x/UNREAD"]
      ∈ (transferEmailsV1 apiC5 ⟨[], []⟩ "src@x" false "y").2.2 ∧
    (transferEmailsV1 apiC5 ⟨[], []⟩ "src@x" false "y").1 =
      RunOutcome.ok ⟨["src@x", "src@x/UNREAD"], 1⟩ := by
  refine ⟨?_, ?_, ?_⟩ <;> decide

/-- C5 (amended): each variant enforces its own filter.  Variant 2 excludes
`CATEGORY_`-prefixed names and `{UNREAD, STARRED, IMPORTANT}`: such names
never enter `labelsCreated` or the `labelMap`, and every label set applied
by a `modify` call consists of the main label id plus ids mapped from kept
(non-excluded) source names only.  Variant 1 excludes `CATEGORY_`-prefixed
names and `{TRASH, SPAM}` only: those labels get no mirrored sublabel
creation and never appear in the summary's created labels — but `UNREAD`,
`STARRED` and `IMPORTANT` are not excluded by variant 1 (see the
counterexample). -/
theorem C5_label_filtering (api : SourceApi) (imp : String → Except String String)
    (dest0 : List EmailLabel) (src : String) (dry : Bool) (answer : String)
    (api1 : SourceApiV1) (dest1 : DestState) (src1 : String) (dry1 : Bool)
    (answer1 : String) :
    (∀ n, keepLabel n = false →
        (src ++ "/" ++ n) ∉ (transferEmailsV2 api imp dest0 src dry answer).2.1.labelsCreated ∧
        ∀ i, (n, i) ∉ (transferEmailsV2 api imp dest0 src dry answer).2.1.labelMap) ∧
    (∀ (src' mid : String) (dry' : Bool) (imp' : String → Except String String)
        (st : V2State) (es : List EmailWithLabels) (x : String) (ids : List String),
        ApiEvent.modifyCall x ids ∈ (runLoopV2 src' mid dry' imp' st es).2.1 →
        ∀ id ∈ ids, id = mid ∨ ∃ k, keepLabel k = true ∧
          (k, id) ∈ (runLoopV2 src' mid dry' imp' st es).1.labelMap) ∧
    (∀ l ∈ api1.labelsResp,
        (l.name.startsWith "CATEGORY_" || ["TRASH", "SPAM"].contains l.name) = true →
        ApiEvent.createLabelCall (src1 ++ "/" ++ l.name)
          ∉ (transferEmailsV1 api1 dest1 src1 dry1 answer1).2.2 ∧
        ∀ s, (transferEmailsV1 api1 dest1 src1 dry1 answer1).1 = RunOutcome.ok s →
          (src1 ++ "/" ++ l.name) ∉ s.labelsCreated) := by
  refine ⟨?_, ?_, ?_⟩
  · -- v2: excluded names never created nor mapped
    intro n hn
    have hcreated : ∀ x ∈ (transferEmailsV2 api imp dest0 src dry answer).2.1.labelsCreated,
        x ∈ [src] ∨ ∃ k, keepLabel k = true ∧ x = src ++ "/" ++ k := by
      intro x hx
      cases hc : promptForConfirmation answer with
      | false =>
        have hstate : (transferEmailsV2 api imp dest0 src dry answer).2.1
            = ⟨[], dest0, [], 0⟩ := by
          rw [transferEmailsV2_declined api imp dest0 src dry answer hc]
        rw [hstate] at hx
        cases hx
      | true =>
        cases dry with
        | true =>
          have hl := runLoopV2_dry_none src "dry-run-main-label" imp
            (getAllUniqueEmails api).1 ⟨[], dest0, [src], 0⟩
          have hstate : (transferEmailsV2 api imp dest0 src true answer).2.1
              = (runLoopV2 src "dry-run-main-label" true imp ⟨[], dest0, [src], 0⟩
                  (getAllUniqueEmails api).1).1 := by
            rw [transferEmailsV2_dry api imp dest0 src answer hc hl]
          rw [hstate] at hx
          exact runLoopV2_created_shape src "dry-run-main-label" true imp
            (getAllUniqueEmails api).1 ⟨[], dest0, [src], 0⟩ x hx
        | false =>
          cases hl : (runLoopV2 src (createOrGetLabel dest0 src).1 false imp
              ⟨[], (createOrGetLabel dest0 src).2.1, [src], 0⟩
              (getAllUniqueEmails api).1).2.2 with
          | some err =>
            have hstate : (transferEmailsV2 api imp dest0 src false answer).2.1
                = (runLoopV2 src (createOrGetLabel dest0 src).1 false imp
                    ⟨[], (createOrGetLabel dest0 src).2.1, [src], 0⟩
                    (getAllUniqueEmails api).1).1 := by
              rw [transferEmailsV2_live_fail api imp dest0 src answer err hc hl]
            rw [hstate] at hx
            exact runLoopV2_created_shape src (createOrGetLabel dest0 src).1 false imp
              (getAllUniqueEmails api).1 ⟨[], (createOrGetLabel dest0 src).2.1, [src], 0⟩ x hx
          | none =>
            have hstate : (transferEmailsV2 api imp dest0 src false answer).2.1
                = (runLoopV2 src (createOrGetLabel dest0 src).1 false imp
                    ⟨[], (createOrGetLabel dest0 src).2.1, [src], 0⟩
                    (getAllUniqueEmails api).1).1 := by
              rw [transferEmailsV2_live_done api imp dest0 src answer hc hl]
            rw [hstate] at hx
            exact runLoopV2_created_shape src (createOrGetLabel dest0 src).1 false imp
              (getAllUniqueEmails api).1 ⟨[], (createOrGetLabel dest0 src).2.1, [src], 0⟩ x hx
    have hkeys : ∀ p ∈ (transferEmailsV2 api imp dest0 src dry answer).2.1.labelMap,
        keepLabel p.1 = true := by
      intro p hp
      cases hc : promptForConfirmation answer with
      | false =>
        have hstate : (transferEmailsV2 api imp dest0 src dry answer).2.1
            = ⟨[], dest0, [], 0⟩ := by
          rw [transferEmailsV2_declined api imp dest0 src dry answer hc]
        rw [hstate] at hp
        cases hp
      | true =>
        cases dry with
        | true =>
          have hl := runLoopV2_dry_none src "dry-run-main-label" imp
            (getAllUniqueEmails api).1 ⟨[], dest0, [src], 0⟩
          have hstate : (transferEmailsV2 api imp dest0 src true answer).2.1
              = (runLoopV2 src "dry-run-main-label" true imp ⟨[], dest0, [src], 0⟩
                  (getAllUniqueEmails api).1).1 := by
            rw [transferEmailsV2_dry api imp dest0 src answer hc hl]
          rw [hstate] at hp
          exact runLoopV2_keys_kept src "dry-run-main-label" true imp
            (getAllUniqueEmails api).1 ⟨[], dest0, [src], 0⟩
            (fun q hq => absurd hq (List.not_mem_nil q)) p hp
        | false =>
          cases hl : (runLoopV2 src (createOrGetLabel dest0 src).1 false imp
              ⟨[], (createOrGetLabel dest0 src).2.1, [src], 0⟩
              (getAllUniqueEmails api).1).2.2 with
          | some err =>
            have hstate : (transferEmailsV2 api imp dest0 src false answer).2.1
                = (runLoopV2 src (createOrGetLabel dest0 src).1 false imp
                    ⟨[], (createOrGetLabel dest0 src).2.1, [src], 0⟩
                    (getAllUniqueEmails api).1).1 := by
              rw [transferEmailsV2_live_fail api imp dest0 src answer err hc hl]
            rw [hstate] at hp
            exact runLoopV2_keys_kept src (createOrGetLabel dest0 src).1 false imp
              (getAllUniqueEmails api).1 ⟨[], (createOrGetLabel dest0 src).2.1, [src], 0⟩
              (fun q hq => absurd hq (List.not_mem_nil q)) p hp
          | none =>
            have hstate : (transferEmailsV2 api imp dest0 src false answer).2.1
                = (runLoopV2 src (createOrGetLabel dest0 src).1 false imp
                    ⟨[], (createOrGetLabel dest0 src).2.1, [src], 0⟩
                    (getAllUniqueEmails api).1).1 := by
              rw [transferEmailsV2_live_done api imp dest0 src answer hc hl]
            rw [hstate] at hp
            exact runLoopV2_keys_kept src (createOrGetLabel dest0 src).1 false imp
              (getAllUniqueEmails api).1 ⟨[], (createOrGetLabel dest0 src).2.1, [src], 0⟩
              (fun q hq => absurd hq (List.not_mem_nil q)) p hp
    constructor
    · intro hmem
      rcases hcreated _ hmem with h | ⟨k, hk, hke⟩
      · rw [List.mem_singleton] at h
        exact ne_append_slash src n h.symm
      · rw [append_slash_inj src n k hke] at hn
        rw [hn] at hk
        cases hk
    · intro i hmem
      have h2 : keepLabel n = true := hkeys (n, i) hmem
      rw [hn] at h2
      cases h2
  · intro src' mid dry' imp' st es x ids hmem id hid
    exact runLoopV2_modify src' mid dry' imp' es st x ids hmem id hid
  · -- v1: the variant-1 exclusions are never mirrored
    intro l hl hexcl
    constructor
    · intro hmem
      cases hc : promptForConfirmation answer1 with
      | false =>
        have htr : (transferEmailsV1 api1 dest1 src1 dry1 answer1).2.2
            = [ApiEvent.labelsList] ++ countPhaseV1 (getLabelsV1 api1).1 := by
          rw [transferEmailsV1_declined api1 dest1 src1 dry1 answer1 hc]
        rw [htr] at hmem
        simp only [List.mem_append, List.mem_singleton] at hmem
        rcases hmem with h | h
        · cases h
        · exact no_create_countPhaseV1 _ _ h
      | true =>
        cases dry1 with
        | true =>
          have htr : (transferEmailsV1 api1 dest1 src1 true answer1).2.2
              = ([ApiEvent.labelsList] ++ countPhaseV1 (getLabelsV1 api1).1)
                ++ (specialsLoopV1 api1 src1 "dry-run-main-label" true dest1 specialLabels).2.2
                ++ (otherLabelsLoopV1 api1 src1 "dry-run-main-label" true
                    (specialsLoopV1 api1 src1 "dry-run-main-label" true dest1 specialLabels).1
                    ((getLabelsV1 api1).1.filter
                      (fun x => !(specialLabels.contains x.name)))).2.2.2 := by
            rw [transferEmailsV1_dry api1 dest1 src1 answer1 hc]
          rw [htr] at hmem
          simp only [List.mem_append, List.mem_singleton] at hmem
          rcases hmem with ((h | h) | h) | h
          · cases h
          · exact no_create_countPhaseV1 _ _ h
          · obtain ⟨sp, hsp, hname⟩ := mem_create_specialsLoopV1 api1 src1 _ true _ _ _ h
            exact v1_excluded_ne_special l hexcl sp hsp (append_slash_inj src1 l.name sp hname)
          · obtain ⟨l', hl', hname⟩ := mem_create_otherLabelsLoopV1 api1 src1 _ true _ _ _ h
            exact v1_excluded_not_filtered api1 l hexcl l' hl'
              (append_slash_inj src1 l.name l'.name hname)
        | false =>
          have htr : (transferEmailsV1 api1 dest1 src1 false answer1).2.2
              = ([ApiEvent.labelsList] ++ countPhaseV1 (getLabelsV1 api1).1)
                ++ (createOrGetLabel dest1.labels src1).2.2
                ++ (specialsLoopV1 api1 src1 (createOrGetLabel dest1.labels src1).1 false
                    { dest1 with labels := (createOrGetLabel dest1.labels src1).2.1 }
                    specialLabels).2.2
                ++ (otherLabelsLoopV1 api1 src1 (createOrGetLabel dest1.labels src1).1 false
                    (specialsLoopV1 api1 src1 (createOrGetLabel dest1.labels src1).1 false
                      { dest1 with labels := (createOrGetLabel dest1.labels src1).2.1 }
                      specialLabels).1
                    ((getLabelsV1 api1).1.filter
                      (fun x => !(specialLabels.contains x.name)))).2.2.2 := by
            rw [transferEmailsV1_live api1 dest1 src1 answer1 hc]
          rw [htr] at hmem
          simp only [List.mem_append, List.mem_singleton] at hmem
          rcases hmem with (((h | h) | h) | h) | h
          · cases h
          · exact no_create_countPhaseV1 _ _ h
          · rcases mem_createOrGetLabel_events _ _ _ h with h' | h'
            · injection h'
            · injection h' with h''
              exact ne_append_slash src1 l.name h''.symm
          · obtain ⟨sp, hsp, hname⟩ := mem_create_specialsLoopV1 api1 src1 _ false _ _ _ h
            exact v1_excluded_ne_special l hexcl sp hsp (append_slash_inj src1 l.name sp hname)
          · obtain ⟨l', hl', hname⟩ := mem_create_otherLabelsLoopV1 api1 src1 _ false _ _ _ h
            exact v1_excluded_not_filtered api1 l hexcl l' hl'
              (append_slash_inj src1 l.name l'.name hname)
    · intro s hok hmem
      rcases transferEmailsV1_ok_created api1 dest1 src1 dry1 answer1 s hok
          (src1 ++ "/" ++ l.name) hmem with h | ⟨l', hl', hname⟩
      · exact ne_append_slash src1 l.name h.symm
      · exact v1_excluded_not_filtered api1 l hexcl l' hl'
          (append_slash_inj src1 l.name l'.name hname)

theorem C5_label_filtering_witness :
    keepLabel "UNREAD" = false ∧
    ("src@x" ++ "/" ++ "UNREAD")
      ∉ (transferEmailsV2 apiA importOk [] "src@x" false "y").2.1.labelsCreated :=
  have hk : keepLabel "UNREAD" = false := by decide
  ⟨hk, ((C5_label_filtering apiA importOk [] "src@x" false "y"
      apiC5 ⟨[], []⟩ "src@x" false "y").1 "UNREAD" hk).1⟩

/-! ## C8: dry-run frame -/

theorem mapLookup_none_iff_keys (m : List (String × String)) (n : String) :
    mapLookup m n = none ↔ n ∉ m.map Prod.fst := by
  simp only [mapLookup, Option.map_eq_none', List.find?_eq_none, List.mem_map, beq_iff_eq]
  constructor
  · rintro h ⟨p, hp, hpn⟩
    exact h p hp hpn
  · intro h p hp hpn
    exact h ⟨p, hp, hpn⟩

theorem collectLabels_bisim (src : String) (ls : List String) :
    ∀ stD stL, stD.labelMap.map Prod.fst = stL.labelMap.map Prod.fst →
      stD.labelsCreated = stL.labelsCreated →
      (dryCollectLabels src stD ls).labelMap.map Prod.fst
          = (collectLabelIds src stL ls).1.labelMap.map Prod.fst ∧
      (dryCollectLabels src stD ls).labelsCreated
          = (collectLabelIds src stL ls).1.labelsCreated := by
  induction ls with
  | nil =>
    intro stD stL h1 h2
    rw [dryCollectLabels_nil, collectLabelIds_nil]
    exact ⟨h1, h2⟩
  | cons l ls ih =>
    intro stD stL h1 h2
    cases hk : keepLabel l with
    | false =>
      have hcD : (keepLabel l && (mapLookup stD.labelMap l).isNone) = false := by
        rw [hk]; rfl
      rw [dryCollectLabels_cons_skip src stD l ls hcD,
          collectLabelIds_cons_skip src stL l ls hk]
      exact ih stD stL h1 h2
    | true =>
      cases hm : mapLookup stL.labelMap l with
      | some id =>
        have hLmem : l ∈ stL.labelMap.map Prod.fst := by
          by_contra hnot
          have hnone := (mapLookup_none_iff_keys stL.labelMap l).mpr hnot
          rw [hnone] at hm
          cases hm
        have hDmem : l ∈ stD.labelMap.map Prod.fst := by rw [h1]; exact hLmem
        have hcD : (keepLabel l && (mapLookup stD.labelMap l).isNone) = false := by
          cases hd : mapLookup stD.labelMap l with
          | none => exact absurd hDmem ((mapLookup_none_iff_keys stD.labelMap l).mp hd)
          | some j => rw [hk]; rfl
        rw [dryCollectLabels_cons_skip src stD l ls hcD,
            collectLabelIds_cons_hit src stL l ls id hk hm]
        exact ih stD stL h1 h2
      | none =>
        have hDnone : mapLookup stD.labelMap l = none := by
          rw [mapLookup_none_iff_keys, h1, ← mapLookup_none_iff_keys]
          exact hm
        have hcD : (keepLabel l && (mapLookup stD.labelMap l).isNone) = true := by
          rw [hk, hDnone]; rfl
        rw [dryCollectLabels_cons_add src stD l ls hcD,
            collectLabelIds_cons_miss src stL l ls hk hm]
        apply ih
        · simp [h1]
        · simp [h2]

theorem runLoopV2_bisim (src midD midL : String) (imp : String → Except String String)
    (himp : ∀ r, ∃ i, imp r = Except.ok i) (es : List EmailWithLabels) :
    ∀ stD stL, stD.labelMap.map Prod.fst = stL.labelMap.map Prod.fst →
      stD.labelsCreated = stL.labelsCreated →
      stD.transferred = stL.transferred →
      (runLoopV2 src midD true imp stD es).1.labelsCreated
          = (runLoopV2 src midL false imp stL es).1.labelsCreated ∧
      (runLoopV2 src midD true imp stD es).1.transferred
          = (runLoopV2 src midL false imp stL es).1.transferred ∧
      (runLoopV2 src midD true imp stD es).1.labelMap.map Prod.fst
          = (runLoopV2 src midL false imp stL es).1.labelMap.map Prod.fst ∧
      (runLoopV2 src midL false imp stL es).2.2 = none := by
  induction es with
  | nil =>
    intro stD stL h1 h2 h3
    rw [runLoopV2_nil, runLoopV2_nil]
    exact ⟨h2, h3, h1, rfl⟩
  | cons e es ih =>
    intro stD stL h1 h2 h3
    obtain ⟨i, hi⟩ := himp e.raw
    have hpd : (processOneEmail src midD true imp stD e).2.2 = none := by
      rw [processOneEmail_dry]
    have hpl : (processOneEmail src midL false imp stL e).2.2 = none := by
      rw [processOneEmail_live_ok src midL imp stL e i hi]
    rw [runLoopV2_cons_ok src midD true imp stD e es hpd,
        runLoopV2_cons_ok src midL false imp stL e es hpl]
    have h1' : (processOneEmail src midD true imp stD e).1.labelMap.map Prod.fst
        = (processOneEmail src midL false imp stL e).1.labelMap.map Prod.fst := by
      rw [processOneEmail_dry, processOneEmail_live_ok src midL imp stL e i hi]
      exact (collectLabels_bisim src e.labels stD stL h1 h2).1
    have h2' : (processOneEmail src midD true imp stD e).1.labelsCreated
        = (processOneEmail src midL false imp stL e).1.labelsCreated := by
      rw [processOneEmail_dry, processOneEmail_live_ok src midL imp stL e i hi]
      exact (collectLabels_bisim src e.labels stD stL h1 h2).2
    have h3' : (processOneEmail src midD true imp stD e).1.transferred
        = (processOneEmail src midL false imp stL e).1.transferred := by
      rw [processOneEmail_dry, processOneEmail_live_ok src midL imp stL e i hi]
      show (dryCollectLabels src stD e.labels).transferred + 1
          = (collectLabelIds src stL e.labels).1.transferred + 1
      rw [dryCollectLabels_transferred, collectLabelIds_transferred, h3]
    exact ih _ _ h1' h2' h3'

theorem runLoopV2_dry_trace (src mid : String) (imp : String → Except String String)
    (es : List EmailWithLabels) :
    ∀ st, ∀ e ∈ (runLoopV2 src mid true imp st es).2.1, e = ApiEvent.sleepDelay 100 := by
  induction es with
  | nil => intro st e he; rw [runLoopV2_nil] at he; cases he
  | cons em es ih =>
    intro st e he
    have hp : (processOneEmail src mid true imp st em).2.2 = none := by
      rw [processOneEmail_dry]
    rw [runLoopV2_cons_ok src mid true imp st em es hp] at he
    have he' : e ∈ [ApiEvent.sleepDelay 100]
        ++ (runLoopV2 src mid true imp (processOneEmail src mid true imp st em).1 es).2.1 :=
      he
    rcases List.mem_append.mp he' with h | h
    · rw [List.mem_singleton] at h; exact h
    · exact ih _ e h

theorem mutating_processMsgV1_dry (mid sid : String) (dest : DestState) (m : SrcMsg) :
    ∀ e ∈ (processMsgV1 mid sid true dest m).2.2, e.isMutating = false := by
  intro e he
  cases hck : checkIfEmailExists dest.msgs (subjectOf m) m.internalDate with
  | true =>
    rw [processMsgV1_skip mid sid true dest m hck] at he
    fin_cases he <;> rfl
  | false =>
    rw [processMsgV1_dry_new mid sid dest m hck] at he
    fin_cases he <;> rfl

theorem mutating_msgLoopV1_dry (mid sid : String) (ms : List SrcMsg) :
    ∀ dest, ∀ e ∈ (msgLoopV1 mid sid true dest ms).2.2, e.isMutating = false := by
  induction ms with
  | nil => intro dest e he; rw [msgLoopV1_nil] at he; cases he
  | cons m ms ih =>
    intro dest e he
    rw [msgLoopV1_cons] at he
    simp only [List.mem_append] at he
    rcases he with he | he
    · exact mutating_processMsgV1_dry mid sid dest m e he
    · exact ih _ e he

theorem mutating_transferEmailsForLabel_dry (api : SourceApiV1) (src : String)
    (label : EmailLabel) (mid : String) (dest : DestState) :
    ∀ e ∈ (transferEmailsForLabel api src label mid true dest).2.2, e.isMutating = false := by
  intro e he
  cases hne : (api.msgsOf label.id).isEmpty with
  | true =>
    rw [transferEmailsForLabel_noMsgs api src label mid true dest hne] at he
    fin_cases he
    rfl
  | false =>
    rw [transferEmailsForLabel_dry api src label mid dest hne] at he
    simp only [List.mem_cons] at he
    rcases he with rfl | he
    · rfl
    · exact mutating_msgLoopV1_dry mid _ _ _ e he

theorem mutating_specialsLoopV1_dry (api : SourceApiV1) (src mid : String)
    (sps : List String) :
    ∀ dest, ∀ e ∈ (specialsLoopV1 api src mid true dest sps).2.2, e.isMutating = false := by
  induction sps with
  | nil => intro dest e he; rw [specialsLoopV1_nil] at he; cases he
  | cons sp sps ih =>
    intro dest e he
    rw [specialsLoopV1_cons] at he
    simp only [List.mem_append] at he
    rcases he with he | he
    · exact mutating_transferEmailsForLabel_dry api src ⟨sp, sp⟩ mid dest e he
    · exact ih _ e he

theorem mutating_otherLabelsLoopV1_dry (api : SourceApiV1) (src mid : String)
    (ls : List EmailLabel) :
    ∀ dest, ∀ e ∈ (otherLabelsLoopV1 api src mid true dest ls).2.2.2,
      e.isMutating = false := by
  induction ls with
  | nil => intro dest e he; rw [otherLabelsLoopV1_nil] at he; cases he
  | cons l ls ih =>
    intro dest e he
    rw [otherLabelsLoopV1_cons] at he
    simp only [List.mem_append] at he
    rcases he with he | he
    · exact mutating_transferEmailsForLabel_dry api src l mid dest e he
    · exact ih _ e he

/-- C8 counterexample: variant 1's dry run does not report the same
`totalEmailsTransferred` as the live run on the same input.  With two
source messages sharing one Subject and internal date, the live run first
imports one and then skips the second (the duplicate check sees the
message just imported into the destination), reporting 1; the dry run
mutates nothing, so the duplicate check misses both times and it reports
2. -/
theorem C8_counterexample :
    (transferEmailsV1 apiC8 ⟨[], []⟩ "src@x" true "y").1 =
      RunOutcome.ok ⟨["src@x"], 2⟩ ∧
    (transferEmailsV1 apiC8 ⟨[], []⟩ "src@x" false "y").1 =
      RunOutcome.ok ⟨["src@x"], 1⟩ ∧
    (RunOutcome.ok ⟨["src@x"], 2⟩ : RunOutcome) ≠ RunOutcome.ok ⟨["src@x"], 1⟩ := by
  refine ⟨?_, ?_, ?_⟩ <;> decide

/-- C8 (amended): a dry run issues no mutating remote call (no
`createLabel`, no `import`, no `modify`) in either variant.  Variant 2's
dry summary moreover matches the live run on the same input whenever
every import succeeds: same `labelsCreated`, same `totalEmailsTransferred`.
Variant 1's dry count, however, can differ from its live count, because
the duplicate check consults the destination's current contents, which
only the live run extends (see the counterexample). -/
theorem C8_dry_run_frame (api : SourceApi) (imp : String → Except String String)
    (dest0 : List EmailLabel) (src answer : String)
    (api1 : SourceApiV1) (dest1 : DestState) (src1 answer1 : String)
    (himp : ∀ r, ∃ i, imp r = Except.ok i) :
    (∀ e ∈ (transferEmailsV2 api imp dest0 src true answer).2.2, e.isMutating = false) ∧
    (∀ e ∈ (transferEmailsV1 api1 dest1 src1 true answer1).2.2, e.isMutating = false) ∧
    (∀ s, (transferEmailsV2 api imp dest0 src true answer).1 = RunOutcome.ok s →
        (transferEmailsV2 api imp dest0 src false answer).1 = RunOutcome.ok s) := by
  refine ⟨?_, ?_, ?_⟩
  · intro e he
    cases hc : promptForConfirmation answer with
    | false =>
      rw [transferEmailsV2_declined api imp dest0 src true answer hc] at he
      exact mutating_getAllUniqueEmails api e he
    | true =>
      have hl := runLoopV2_dry_none src "dry-run-main-label" imp
        (getAllUniqueEmails api).1 ⟨[], dest0, [src], 0⟩
      rw [transferEmailsV2_dry api imp dest0 src answer hc hl] at he
      have he' : e ∈ (getAllUniqueEmails api).2
          ++ (runLoopV2 src "dry-run-main-label" true imp ⟨[], dest0, [src], 0⟩
              (getAllUniqueEmails api).1).2.1 := he
      rcases List.mem_append.mp he' with h | h
      · exact mutating_getAllUniqueEmails api e h
      · have heq := runLoopV2_dry_trace src "dry-run-main-label" imp
          (getAllUniqueEmails api).1 _ e h
        rw [heq]
        rfl
  · intro e he
    cases hc : promptForConfirmation answer1 with
    | false =>
      rw [transferEmailsV1_declined api1 dest1 src1 true answer1 hc] at he
      simp only [List.mem_append, List.mem_singleton] at he
      rcases he with rfl | he
      · rfl
      · exact mutating_countPhaseV1 _ e he
    | true =>
      have htr : (transferEmailsV1 api1 dest1 src1 true answer1).2.2
          = ([ApiEvent.labelsList] ++ countPhaseV1 (getLabelsV1 api1).1)
            ++ (specialsLoopV1 api1 src1 "dry-run-main-label" true dest1 specialLabels).2.2
            ++ (otherLabelsLoopV1 api1 src1 "dry-run-main-label" true
                (specialsLoopV1 api1 src1 "dry-run-main-label" true dest1 specialLabels).1
                ((getLabelsV1 api1).1.filter
                  (fun x => !(specialLabels.contains x.name)))).2.2.2 := by
        rw [transferEmailsV1_dry api1 dest1 src1 answer1 hc]
      rw [htr] at he
      simp only [List.mem_append, List.mem_singleton] at he
      rcases he with ((rfl | he) | he) | he
      · rfl
      · exact mutating_countPhaseV1 _ e he
      · exact mutating_specialsLoopV1_dry api1 src1 "dry-run-main-label"
          specialLabels _ e he
      · exact mutating_otherLabelsLoopV1_dry api1 src1 "dry-run-main-label" _ _ e he
  · intro s hok
    cases hc : promptForConfirmation answer with
    | false =>
      rw [transferEmailsV2_declined api imp dest0 src true answer hc] at hok
      exact absurd hok (by simp)
    | true =>
      have hl := runLoopV2_dry_none src "dry-run-main-label" imp
        (getAllUniqueEmails api).1 ⟨[], dest0, [src], 0⟩
      rw [transferEmailsV2_dry api imp dest0 src answer hc hl] at hok
      have hbis := runLoopV2_bisim src "dry-run-main-label" (createOrGetLabel dest0 src).1
        imp himp (getAllUniqueEmails api).1 ⟨[], dest0, [src], 0⟩
        ⟨[], (createOrGetLabel dest0 src).2.1, [src], 0⟩ rfl rfl rfl
      rw [transferEmailsV2_live_done api imp dest0 src answer hc hbis.2.2.2]
      have hok' : RunOutcome.ok
          (⟨(runLoopV2 src "dry-run-main-label" true imp ⟨[], dest0, [src], 0⟩
              (getAllUniqueEmails api).1).1.labelsCreated,
            (runLoopV2 src "dry-run-main-label" true imp ⟨[], dest0, [src], 0⟩
              (getAllUniqueEmails api).1).1.transferred⟩ : TransferSummary)
          = RunOutcome.ok s := hok
      show RunOutcome.ok
          (⟨(runLoopV2 src (createOrGetLabel dest0 src).1 false imp
              ⟨[], (createOrGetLabel dest0 src).2.1, [src], 0⟩
              (getAllUniqueEmails api).1).1.labelsCreated,
            (runLoopV2 src (createOrGetLabel dest0 src).1 false imp
              ⟨[], (createOrGetLabel dest0 src).2.1, [src], 0⟩
              (getAllUniqueEmails api).1).1.transferred⟩ : TransferSummary)
          = RunOutcome.ok s
      rw [← hbis.1, ← hbis.2.1]
      exact hok'

theorem C8_dry_run_frame_witness :
    (∀ r, ∃ i, importOk r = Except.ok i) ∧
    (transferEmailsV2 apiA importOk [] "src@x" true "y").1 =
      RunOutcome.ok ⟨["src@x", "src@x/Work"], 2⟩ ∧
    (transferEmailsV2 apiA importOk [] "src@x" false "y").1 =
      RunOutcome.ok ⟨["src@x", "src@x/Work"], 2⟩ :=
  have himp : ∀ r, ∃ i, importOk r = Except.ok i := fun r => ⟨"imp-" ++ r, rfl⟩
  have hdry : (transferEmailsV2 apiA importOk [] "src@x" true "y").1 =
      RunOutcome.ok ⟨["src@x", "src@x/Work"], 2⟩ := by decide
  ⟨himp, hdry,
   (C8_dry_run_frame apiA importOk [] "src@x" "y" apiC8 ⟨[], []⟩ "src@x" "y" himp).2.2
     ⟨["src@x", "src@x/Work"], 2⟩ hdry⟩

end GoogleEmailTransfer
